import Mathlib

/-!
# wfs-cppclient: the session layer of `src/wfs_client_impl.cpp`

A shallow embedding of `WfsClientImpl` (the only implementation of `IWfsClient`).

* `std::string` is `String`; the fixed-width integers (`int32_t` error codes, `int8_t`
  compression flag and ping reply, `int64_t` sizes and times, `int maxRetries`) are `Int`: the
  session layer only copies and compares them, and the one counter it increments (`retry`) never
  exceeds `maxRetries`.
* The Thrift transport and generated service client are the external `Channel`: a deterministic
  machine over an arbitrary state type `σ`, each call of which either returns a value or raises
  one of the four exception shapes the code distinguishes in its `catch` clauses.
* Every call made on the channel is appended to `World.calls`, a ghost log used to count calls.
* `fmt::print` output (and `getExceptionTypeStr`, which only feeds it) and the 3 second
  `sleep_for` of the retry loop are not modelled.
-/

namespace wfs_client

/-! ## `include/wfs_client/datatype_.hpp` -/

/-- Error information structure (`WfsErrorInfo`). -/
structure WfsErrorInfo where
  code : Int := 0
  info : String := ""
  deriving DecidableEq, Repr

/-- Member `WfsErrorInfo::isSet`. -/
def WfsErrorInfo.isSet (e : WfsErrorInfo) : Bool :=
  e.code != 0 || !e.info.isEmpty

/-- Operation result structure (`WfsResult`). -/
structure WfsResult where
  ok : Bool := false
  error : WfsErrorInfo := {}
  deriving DecidableEq, Repr

/-- Static helper `WfsResult::Success`. -/
def WfsResult.Success : WfsResult :=
  { ok := true, error := {} }

/-- Static helper `WfsResult::Failure`. -/
def WfsResult.Failure (code : Int) (message : String) : WfsResult :=
  { ok := false, error := { code := code, info := message } }

/-- File data structure (`WfsFileData`). -/
structure WfsFileData where
  data : String := ""
  name : String := ""
  compress : Int := 0
  deriving DecidableEq, Repr

/-- Directory item information (`WfsDirItem`). -/
structure WfsDirItem where
  name : String := ""
  size : Int := 0
  mtime : Int := 0
  isDir : Bool := false
  deriving DecidableEq, Repr

/-- Directory list structure (`WfsDirList`). -/
structure WfsDirList where
  path : String := ""
  items : List WfsDirItem := []
  error : WfsErrorInfo := {}
  deriving DecidableEq, Repr

/-- Authentication information (`WfsAuthInfo`). -/
structure WfsAuthInfo where
  username : String := ""
  password : String := ""
  deriving DecidableEq, Repr

/-- Connection parameters (`WfsConnectionParams`). -/
structure WfsConnectionParams where
  serverIp : String := ""
  serverPort : Int := 9090
  connectTimeout : Int := 10000
  receiveTimeout : Int := 30000
  sendTimeout : Int := 30000
  maxRetries : Int := 3
  deriving DecidableEq, Repr

/-! ## The Thrift side: `gen-cpp/wfs_types.h`, `gen-cpp/WfsIface.h`, `TTransportException` -/

/-- Modelled from the spec: the generated Thrift struct `WfsError` of `gen-cpp/wfs_types.h`
(not in the repository); the fields are the ones `wfs_client_impl.cpp` reads
(`code`, `info`, `__isset.code`). -/
structure WfsError where
  code : Int := 0
  info : String := ""
  isset_code : Bool := false
  deriving DecidableEq, Repr

/-- Modelled from the spec: the generated Thrift struct `WfsAck` of `gen-cpp/wfs_types.h`,
the application-level acknowledgement (`ok` flag plus error code and message). -/
structure WfsAck where
  ok : Bool := false
  error : WfsError := {}
  deriving DecidableEq, Repr

/-- Modelled from the spec: the generated Thrift struct `WfsFile` of `gen-cpp/wfs_types.h`;
`isset_compress` is the `__isset.compress` flag raised by `__set_compress`. -/
structure WfsFile where
  data : String := ""
  name : String := ""
  compress : Int := 0
  isset_compress : Bool := false
  deriving DecidableEq, Repr

/-- Modelled from the spec: the generated Thrift struct `WfsData` of `gen-cpp/wfs_types.h`;
`isset_data` is the `__isset.data` flag. -/
structure WfsData where
  data : String := ""
  isset_data : Bool := false
  deriving DecidableEq, Repr

/-- Modelled from the spec: the generated Thrift struct `WfsAuth` of `gen-cpp/wfs_types.h`. -/
structure WfsAuth where
  name : String := ""
  pwd : String := ""
  deriving DecidableEq, Repr

/-- Modelled from the spec: one element of `DirList::items` in `gen-cpp/wfs_types.h`; the
fields are the four that `ListDirectory` copies. -/
structure DirItem where
  name : String := ""
  size : Int := 0
  mtime : Int := 0
  isDir : Bool := false
  deriving DecidableEq, Repr

/-- Modelled from the spec: the generated Thrift struct `DirList` of `gen-cpp/wfs_types.h`;
`isset_error` is the `__isset.error` flag. -/
structure DirList where
  path : String := ""
  items : List DirItem := []
  error : WfsError := {}
  isset_error : Bool := false
  deriving DecidableEq, Repr

/-- The enumeration `TTransportException::TTransportExceptionType`, as listed in
`getExceptionTypeStr`. -/
inductive TTransportExceptionType where
  | UNKNOWN
  | NOT_OPEN
  | TIMED_OUT
  | END_OF_FILE
  | INTERRUPTED
  | BAD_ARGS
  | CORRUPTED_DATA
  | INTERNAL_ERROR
  deriving DecidableEq, Repr

/-- What a channel call can throw, by the `catch` clause that receives it:
`TTransportException` (with its type and `what()` text), any other `TException`,
any other `std::exception`, and anything else (`catch (...)`). -/
inductive Thrown where
  | transport (type : TTransportExceptionType) (what : String)
  | thrift (what : String)
  | standard (what : String)
  | unknown
  deriving DecidableEq, Repr

/-- How a call (or a `try` block) ends: with a value, or by throwing. -/
inductive Outcome (α : Type) where
  | ret (a : α)
  | raise (e : Thrown)
  deriving DecidableEq, Repr

/-- Modelled from the spec: the RPC channel, that is the generated `WfsIfaceClient` of
`gen-cpp/WfsIface.h` (not in the repository) together with the Thrift transport it runs on:
the transport's `open` and `close` and the seven service methods, each acting on the
channel's own state `σ` and either returning its reply or throwing. -/
structure Channel (σ : Type) where
  transportOpen : σ → Outcome Unit × σ
  transportClose : σ → Outcome Unit × σ
  Append : WfsFile → σ → Outcome WfsAck × σ
  Get : String → σ → Outcome WfsData × σ
  Delete : String → σ → Outcome WfsAck × σ
  Rename : String → String → σ → Outcome WfsAck × σ
  List : String → σ → Outcome DirList × σ
  Auth : WfsAuth → σ → Outcome WfsAck × σ
  Ping : σ → Outcome Int × σ

/-- One entry of the ghost call log: which channel method was called, with its arguments. -/
inductive Call where
  | transportOpen
  | transportClose
  | Append (wf : WfsFile)
  | Get (path : String)
  | Delete (path : String)
  | Rename (oldPath newPath : String)
  | List (path : String)
  | Auth (auth : WfsAuth)
  | Ping
  deriving DecidableEq, Repr

/-! ## `class WfsClientImpl` -/

/-- The data members of `WfsClientImpl`. `m_mutex` is `true` while the mutex is held;
`m_client` is `true` while the `shared_ptr<WfsIfaceClient>` is non-null (the socket, transport
and protocol pointers are set together with it and never tested). -/
structure WfsClientImpl where
  m_mutex : Bool := false
  m_isConnected : Bool := false
  m_isAuthenticated : Bool := false
  m_params : WfsConnectionParams := {}
  m_authInfo : WfsAuthInfo := {}
  m_lastError : WfsResult := {}
  m_client : Bool := false
  deriving DecidableEq, Repr

/-- A client object together with the channel it talks to and the log of channel calls. -/
structure World (σ : Type) where
  client : WfsClientImpl
  chan : σ
  calls : List Call
  deriving DecidableEq, Repr

/-- How a member function ends: it returns, or the calling thread blocks for ever trying to
lock the non-recursive `m_mutex` it already holds, or it dereferences a null `m_client`. -/
inductive Exec (α : Type) where
  | returns (a : α)
  | blocked
  | nullDeref
  deriving DecidableEq, Repr

/-- Sequencing of member-function calls: continue only if the first one returned. -/
def Exec.bind {α β : Type} (x : Exec α) (f : α → Exec β) : Exec β :=
  match x with
  | .returns a => f a
  | .blocked => .blocked
  | .nullDeref => .nullDeref

/-! ### State updates and the channel call -/

/-- Assignment to `m_mutex` (lock and unlock). -/
def World.setMutex {σ : Type} (w : World σ) (b : Bool) : World σ :=
  { w with client := { w.client with m_mutex := b } }

/-- Assignment `m_isConnected = b`. -/
def World.setConnected {σ : Type} (w : World σ) (b : Bool) : World σ :=
  { w with client := { w.client with m_isConnected := b } }

/-- Assignment `m_isAuthenticated = b`. -/
def World.setAuthenticated {σ : Type} (w : World σ) (b : Bool) : World σ :=
  { w with client := { w.client with m_isAuthenticated := b } }

/-- Assignment `m_lastError = r`. -/
def World.setLastError {σ : Type} (w : World σ) (r : WfsResult) : World σ :=
  { w with client := { w.client with m_lastError := r } }

/-- Assignment `m_params = params`. -/
def World.setParams {σ : Type} (w : World σ) (params : WfsConnectionParams) : World σ :=
  { w with client := { w.client with m_params := params } }

/-- Assignment `m_authInfo = authInfo`. -/
def World.setAuthInfo {σ : Type} (w : World σ) (authInfo : WfsAuthInfo) : World σ :=
  { w with client := { w.client with m_authInfo := authInfo } }

/-- The pointer `m_client` becomes non-null (`reset(new ...)`) or null (`reset()`). -/
def World.setClient {σ : Type} (w : World σ) (b : Bool) : World σ :=
  { w with client := { w.client with m_client := b } }

/-- One call on the channel: the channel state advances and the call is logged. -/
def World.call {σ α : Type} (w : World σ) (c : Call) (f : σ → Outcome α × σ) :
    Outcome α × World σ :=
  ((f w.chan).1, { w with chan := (f w.chan).2, calls := w.calls ++ [c] })

/-- The scope of `std::lock_guard<std::mutex> lock(m_mutex)`: the body runs with the mutex
held and the mutex is released when the function returns. Locking a mutex that is already
held never completes. -/
def lock_guard {σ α : Type} (w : World σ) (body : World σ → Exec (α × World σ)) :
    Exec (α × World σ) :=
  if w.client.m_mutex then .blocked
  else (body (w.setMutex true)).bind fun x => .returns (x.1, x.2.setMutex false)

/-! ### Private members -/

/-- Member `CreateErrorResult`. -/
def CreateErrorResult {σ : Type} (error : WfsError) (w : World σ) : WfsResult × World σ :=
  let w := w.setLastError (WfsResult.Failure error.code error.info)
  (w.client.m_lastError, w)

/-- Member `HandleTransportException`. -/
def HandleTransportException {σ : Type} (type : TTransportExceptionType) (what : String)
    (w : World σ) : World σ :=
  let w := w.setLastError (WfsResult.Failure (-1) ("Transport exception: " ++ what))
  if type = .NOT_OPEN ∨ type = .END_OF_FILE then
    (w.setConnected false).setAuthenticated false
  else w

/-- Member `HandleThriftException`. -/
def HandleThriftException {σ : Type} (what : String) (w : World σ) : World σ :=
  w.setLastError (WfsResult.Failure (-1) ("Thrift exception: " ++ what))

/-- Member `HandleStandardException`. -/
def HandleStandardException {σ : Type} (what : String) (w : World σ) : World σ :=
  w.setLastError (WfsResult.Failure (-1) ("Standard exception: " ++ what))

/-- Member `HandleUnknownException`. -/
def HandleUnknownException {σ : Type} (w : World σ) : World σ :=
  w.setLastError (WfsResult.Failure (-1) "Unknown exception")

/-- The four `catch` clauses that close every operation except the authentication loop:
`TTransportException`, `TException`, `std::exception`, `...`, in that order. -/
def catchClauses {σ : Type} (e : Thrown) (w : World σ) : World σ :=
  match e with
  | .transport type what => HandleTransportException type what w
  | .thrift what => HandleThriftException what w
  | .standard what => HandleStandardException what w
  | .unknown => HandleUnknownException w

/-- Member `EnsureConnected`. -/
def EnsureConnected {σ : Type} (w : World σ) : Bool × World σ :=
  if !w.client.m_isConnected then
    (false, w.setLastError (WfsResult.Failure (-1) "Not connected to server"))
  else (true, w)

/-- Member `EnsureConnectedAndAuthenticated`. -/
def EnsureConnectedAndAuthenticated {σ : Type} (w : World σ) : Bool × World σ :=
  match EnsureConnected w with
  | (false, w) => (false, w)
  | (true, w) =>
    if !w.client.m_isAuthenticated then
      (false, w.setLastError (WfsResult.Failure (-1) "Not authenticated"))
    else (true, w)

/-- Member `ConnectInternal`: the socket, transport, protocol and client objects are rebuilt
(so `m_client` is non-null from here on), then the transport is opened. -/
def ConnectInternal {σ : Type} (ch : Channel σ) (w : World σ) : Exec (WfsResult × World σ) :=
  let w := w.setClient true
  match w.call .transportOpen ch.transportOpen with
  | (.ret _, w) => .returns (WfsResult.Success, w.setConnected true)
  | (.raise e, w) =>
    let w := catchClauses e w
    .returns (w.client.m_lastError, w)

/-- The statements of the inner `try` of the retry loop in `AuthenticateInternal`:
`close()` followed by `open()` on the transport of the existing client. -/
def reopenInPlace {σ : Type} (ch : Channel σ) (w : World σ) : Outcome Unit × World σ :=
  match w.call .transportClose ch.transportClose with
  | (.ret _, w) => w.call .transportOpen ch.transportOpen
  | (.raise e, w) => (.raise e, w)

/-- The retry loop of `AuthenticateInternal`, `for (retry = 1; retry <= maxRetries; retry++)`,
entered with the loop variable at `retry`. The bound `maxRetries` is `m_params.maxRetries`,
which nothing inside the loop assigns. The result is what leaves the loop: a `return` (`ret`)
or an exception that neither inner `catch` takes and that travels on to the outer `catch`
clauses (`raise`). -/
def authLoop {σ : Type} (ch : Channel σ) (auth : WfsAuth) (maxRetries : Int) (retry : Int)
    (w : World σ) : Exec (Outcome WfsResult × World σ) :=
  if retry ≤ maxRetries then
    if w.client.m_client then
      match w.call (.Auth auth) (ch.Auth auth) with
      | (.ret authResult, w) =>
        if authResult.ok then
          .returns (.ret WfsResult.Success, w.setAuthenticated true)
        else
          let r := CreateErrorResult authResult.error (w.setAuthenticated false)
          .returns (.ret r.1, r.2)
      | (.raise (.transport _ what), w) =>
        if retry < maxRetries then
          match reopenInPlace ch w with
          | (.ret _, w) => authLoop ch auth maxRetries (retry + 1) w
          | (.raise (.transport _ _), w) =>
            authLoop ch auth maxRetries (retry + 1) (w.setConnected false)
          | (.raise e, w) => .returns (.raise e, w)
        else
          let w := (w.setAuthenticated false).setLastError
            (WfsResult.Failure (-1) ("Authentication exception: " ++ what))
          .returns (.ret w.client.m_lastError, w)
      | (.raise e, w) => .returns (.raise e, w)
    else .nullDeref
  else
    let w := (w.setAuthenticated false).setLastError
      (WfsResult.Failure (-1) "Authentication failed, retry limit reached")
    .returns (.ret w.client.m_lastError, w)
termination_by (maxRetries + 1 - retry).toNat
decreasing_by
  all_goals simp_wf
  all_goals omega

/-- The three outer `catch` clauses of `AuthenticateInternal`: `TException` (which a
`TTransportException` is), `std::exception`, `...`; each then clears `m_isAuthenticated`. -/
def authCatchClauses {σ : Type} (e : Thrown) (w : World σ) : World σ :=
  match e with
  | .transport _ what => (HandleThriftException what w).setAuthenticated false
  | .thrift what => (HandleThriftException what w).setAuthenticated false
  | .standard what => (HandleStandardException what w).setAuthenticated false
  | .unknown => (HandleUnknownException w).setAuthenticated false

/-- Member `AuthenticateInternal`. -/
def AuthenticateInternal {σ : Type} (ch : Channel σ) (w : World σ) :
    Exec (WfsResult × World σ) :=
  if !w.client.m_isConnected then
    let w := w.setLastError (WfsResult.Failure (-1) "Not connected to server")
    .returns (w.client.m_lastError, w)
  else
    let auth : WfsAuth := { name := w.client.m_authInfo.username, pwd := w.client.m_authInfo.password }
    (authLoop ch auth w.client.m_params.maxRetries 1 w).bind fun x =>
      match x with
      | (.ret r, w) => .returns (r, w)
      | (.raise e, w) =>
        let w := authCatchClauses e w
        .returns (w.client.m_lastError, w)

/-! ### Public members (`IWfsClient`) -/

/-- Member `Disconnect`. -/
def Disconnect {σ : Type} (ch : Channel σ) (w : World σ) : Exec (Unit × World σ) :=
  lock_guard w fun w =>
    let w :=
      if w.client.m_isConnected && w.client.m_client then
        (w.call .transportClose ch.transportClose).2
      else w
    .returns ((), ((w.setConnected false).setAuthenticated false).setClient false)

/-- Member `Connect`. -/
def Connect {σ : Type} (ch : Channel σ) (params : WfsConnectionParams) (w : World σ) :
    Exec (WfsResult × World σ) :=
  lock_guard w fun w =>
    if w.client.m_isConnected then
      (Disconnect ch w).bind fun x => ConnectInternal ch (x.2.setParams params)
    else ConnectInternal ch (w.setParams params)

/-- Member `Reconnect`. -/
def Reconnect {σ : Type} (ch : Channel σ) (w : World σ) : Exec (WfsResult × World σ) :=
  lock_guard w fun w =>
    if w.client.m_isConnected then
      (Disconnect ch w).bind fun x => ConnectInternal ch x.2
    else ConnectInternal ch w

/-- Member `Authenticate`. -/
def Authenticate {σ : Type} (ch : Channel σ) (authInfo : WfsAuthInfo) (w : World σ) :
    Exec (WfsResult × World σ) :=
  lock_guard w fun w =>
    match EnsureConnected w with
    | (false, w) => .returns (w.client.m_lastError, w)
    | (true, w) => AuthenticateInternal ch (w.setAuthInfo authInfo)

/-- The first statements of the `try` block of `UploadFile`: the `WfsFile` object is created
with `__set_data` and `__set_name`, and `__set_compress` only when `compress != 0`. -/
def sentFile (fileData : WfsFileData) : WfsFile :=
  let wf : WfsFile := { data := fileData.data, name := fileData.name }
  if fileData.compress ≠ 0 then
    { wf with compress := fileData.compress, isset_compress := true }
  else wf

/-- Member `UploadFile`. -/
def UploadFile {σ : Type} (ch : Channel σ) (fileData : WfsFileData) (w : World σ) :
    Exec (WfsResult × World σ) :=
  lock_guard w fun w =>
    match EnsureConnectedAndAuthenticated w with
    | (false, w) => .returns (w.client.m_lastError, w)
    | (true, w) =>
      let wf := sentFile fileData
      if w.client.m_client then
        match w.call (.Append wf) (ch.Append wf) with
        | (.ret ack, w) =>
          if ack.ok then .returns (WfsResult.Success, w)
          else .returns (CreateErrorResult ack.error w)
        | (.raise e, w) =>
          let w := catchClauses e w
          .returns (w.client.m_lastError, w)
      else .nullDeref

/-- Member `DownloadFile`; the reference parameter `outData` is passed in and handed back
next to the result. -/
def DownloadFile {σ : Type} (ch : Channel σ) (remotePath : String) (outData : String)
    (w : World σ) : Exec ((WfsResult × String) × World σ) :=
  lock_guard w fun w =>
    match EnsureConnectedAndAuthenticated w with
    | (false, w) => .returns ((w.client.m_lastError, outData), w)
    | (true, w) =>
      if w.client.m_client then
        match w.call (.Get remotePath) (ch.Get remotePath) with
        | (.ret data, w) =>
          if data.isset_data then .returns ((WfsResult.Success, data.data), w)
          else
            let w := w.setLastError (WfsResult.Failure (-1) "Download failed: no data received")
            .returns ((w.client.m_lastError, outData), w)
        | (.raise e, w) =>
          let w := catchClauses e w
          .returns ((w.client.m_lastError, outData), w)
      else .nullDeref

/-- Member `DeleteFile`. -/
def DeleteFile {σ : Type} (ch : Channel σ) (remotePath : String) (w : World σ) :
    Exec (WfsResult × World σ) :=
  lock_guard w fun w =>
    match EnsureConnectedAndAuthenticated w with
    | (false, w) => .returns (w.client.m_lastError, w)
    | (true, w) =>
      if w.client.m_client then
        match w.call (.Delete remotePath) (ch.Delete remotePath) with
        | (.ret ack, w) =>
          if ack.ok then .returns (WfsResult.Success, w)
          else .returns (CreateErrorResult ack.error w)
        | (.raise e, w) =>
          let w := catchClauses e w
          .returns (w.client.m_lastError, w)
      else .nullDeref

/-- Member `RenameFile`. -/
def RenameFile {σ : Type} (ch : Channel σ) (oldPath newPath : String) (w : World σ) :
    Exec (WfsResult × World σ) :=
  lock_guard w fun w =>
    match EnsureConnectedAndAuthenticated w with
    | (false, w) => .returns (w.client.m_lastError, w)
    | (true, w) =>
      if w.client.m_client then
        match w.call (.Rename oldPath newPath) (ch.Rename oldPath newPath) with
        | (.ret ack, w) =>
          if ack.ok then .returns (WfsResult.Success, w)
          else .returns (CreateErrorResult ack.error w)
        | (.raise e, w) =>
          let w := catchClauses e w
          .returns (w.client.m_lastError, w)
      else .nullDeref

/-- The conversion loop of `ListDirectory`: one `WfsDirItem` pushed back per channel item. -/
def convertItems (items : List DirItem) : List WfsDirItem :=
  items.map fun item =>
    { name := item.name, size := item.size, mtime := item.mtime, isDir := item.isDir }

/-- Member `ListDirectory`; the reference parameter `outDirList` is passed in and handed back
next to the result. -/
def ListDirectory {σ : Type} (ch : Channel σ) (remotePath : String) (outDirList : WfsDirList)
    (w : World σ) : Exec ((WfsResult × WfsDirList) × World σ) :=
  lock_guard w fun w =>
    match EnsureConnectedAndAuthenticated w with
    | (false, w) => .returns ((w.client.m_lastError, outDirList), w)
    | (true, w) =>
      if w.client.m_client then
        match w.call (.List remotePath) (ch.List remotePath) with
        | (.ret dirList, w) =>
          let outDirList := { outDirList with path := dirList.path }
          if dirList.isset_error && dirList.error.isset_code then
            let outDirList := { outDirList with
              error := { code := dirList.error.code, info := dirList.error.info } }
            let r := CreateErrorResult dirList.error w
            .returns ((r.1, outDirList), r.2)
          else
            let outDirList := { outDirList with items := [] }
            let outDirList := { outDirList with
              items := outDirList.items ++ convertItems dirList.items }
            .returns ((WfsResult.Success, outDirList), w)
        | (.raise e, w) =>
          let w := catchClauses e w
          .returns ((w.client.m_lastError, outDirList), w)
      else .nullDeref

/-- Member `Ping`. -/
def Ping {σ : Type} (ch : Channel σ) (w : World σ) : Exec (Int × World σ) :=
  lock_guard w fun w =>
    match EnsureConnected w with
    | (false, w) => .returns (-1, w)
    | (true, w) =>
      if w.client.m_client then
        match w.call .Ping ch.Ping with
        | (.ret result, w) => .returns (result, w)
        | (.raise e, w) => .returns (-1, catchClauses e w)
      else .nullDeref

/-- Member `IsConnected`. -/
def IsConnected {σ : Type} (w : World σ) : Exec (Bool × World σ) :=
  lock_guard w fun w => .returns (w.client.m_isConnected, w)

/-- Member `IsAuthenticated`. -/
def IsAuthenticated {σ : Type} (w : World σ) : Exec (Bool × World σ) :=
  lock_guard w fun w => .returns (w.client.m_isAuthenticated, w)

/-- Member `GetLastError`. -/
def GetLastError {σ : Type} (w : World σ) : Exec (WfsErrorInfo × World σ) :=
  lock_guard w fun w => .returns (w.client.m_lastError.error, w)

/-- The object built by the constructor `WfsClientImpl()`, facing a channel in state `chan`,
with no call made yet. -/
def World.fresh {σ : Type} (chan : σ) : World σ :=
  { client := {}, chan := chan, calls := [] }

/-! ## Vocabulary of the properties -/

/-- Between `w` and `w'` no call reached the channel and both session flags kept their value. -/
def SameFlagsNoCall {σ : Type} (w w' : World σ) : Prop :=
  w'.calls = w.calls ∧ w'.chan = w.chan ∧
    w'.client.m_isConnected = w.client.m_isConnected ∧
    w'.client.m_isAuthenticated = w.client.m_isAuthenticated

/-- Whether a log entry is an `Auth` call. -/
def Call.isAuth : Call → Bool
  | .Auth _ => true
  | _ => false

/-- Number of `Auth` calls in a call log. -/
def authCalls (calls : List Call) : Nat :=
  calls.countP Call.isAuth

/-- A call that went from `w` to `w'` and returned `r` found the mutex free and released it,
left `m_lastError` alone if `r` is a success, and stored `r` in it if `r` is a failure. -/
def LastErrorTracks {σ : Type} (w w' : World σ) (r : WfsResult) : Prop :=
  w.client.m_mutex = false ∧ w'.client.m_mutex = false ∧
    (r.ok = true → w'.client.m_lastError = w.client.m_lastError) ∧
    (r.ok = false → w'.client.m_lastError = r)

/-- Whether a thrown object is a `TTransportException`. -/
def Thrown.isTransport : Thrown → Bool
  | .transport _ _ => true
  | _ => false

/-- The state `w` after one more channel call: the channel has moved to `chan` and the call
`c` has been logged; the client object is as before. -/
def World.after {σ : Type} (w : World σ) (c : Call) (chan : σ) : World σ :=
  { w with chan := chan, calls := w.calls ++ [c] }

/-- `GetLastError` returns the same error in `w'` as it did in `w`. -/
def LastErrorKept {σ : Type} (w w' : World σ) : Prop :=
  ∃ e, GetLastError w = .returns (e, w) ∧ GetLastError w' = .returns (e, w')

/-! ## Channels used as concrete inputs -/

/-- A channel on which every call succeeds with an empty reply. -/
def quietChannel : Channel Unit where
  transportOpen := fun c => (.ret (), c)
  transportClose := fun c => (.ret (), c)
  Append := fun _ c => (.ret { ok := true }, c)
  Get := fun _ c => (.ret {}, c)
  Delete := fun _ c => (.ret { ok := true }, c)
  Rename := fun _ _ c => (.ret { ok := true }, c)
  List := fun _ c => (.ret {}, c)
  Auth := fun _ c => (.ret { ok := true }, c)
  Ping := fun c => (.ret 0, c)

/-- A session that is connected; authenticated or not as `authenticated` says; with the given
retry bound; facing a channel in state `chan`. -/
def World.connected {σ : Type} (chan : σ) (authenticated : Bool) (maxRetries : Int) : World σ :=
  { client := { m_isConnected := true, m_isAuthenticated := authenticated, m_client := true,
                m_params := { maxRetries := maxRetries } },
    chan := chan, calls := [] }

/-- A channel whose `Auth` always throws `TTransportException(NOT_OPEN)` and whose transport
`close` throws a plain `std::exception`; everything else succeeds. -/
def closeThrowsChannel : Channel Unit :=
  { quietChannel with
    Auth := fun _ c => (.raise (.transport .NOT_OPEN "not open"), c)
    transportClose := fun c => (.raise (.standard "close failed"), c) }

/-- A channel whose `Auth` always throws `TTransportException(END_OF_FILE)`; the transport can
be closed and reopened without error. -/
def deadAuthChannel : Channel Unit :=
  { quietChannel with
    Auth := fun _ c => (.raise (.transport .END_OF_FILE "end of file"), c) }

/-- A channel whose state counts the `Auth` calls made so far: the first one throws
`TTransportException(NOT_OPEN)`, every later one is acknowledged. -/
def flakyAuthChannel : Channel Nat where
  transportOpen := fun c => (.ret (), c)
  transportClose := fun c => (.ret (), c)
  Append := fun _ c => (.ret { ok := true }, c)
  Get := fun _ c => (.ret {}, c)
  Delete := fun _ c => (.ret { ok := true }, c)
  Rename := fun _ _ c => (.ret { ok := true }, c)
  List := fun _ c => (.ret {}, c)
  Auth := fun _ c =>
    if c = 0 then (.raise (.transport .NOT_OPEN "not open"), c + 1)
    else (.ret { ok := true }, c + 1)
  Ping := fun c => (.ret 0, c)

/-- A channel whose `Auth` answers with the negative acknowledgement (`code`, `info`). -/
def rejectingChannel (code : Int) (info : String) : Channel Unit :=
  { quietChannel with
    Auth := fun _ c => (.ret { ok := false, error := { code := code, info := info } }, c) }

/-- The channel stub of the round-trip property: `Append` stores the blob it receives and
acknowledges it, `Get` returns the data of the stored blob (no data field while nothing has
been stored). -/
def lastBlobStub : Channel (Option WfsFile) where
  transportOpen := fun c => (.ret (), c)
  transportClose := fun c => (.ret (), c)
  Append := fun wf _ => (.ret { ok := true }, some wf)
  Get := fun _ c =>
    match c with
    | some wf => (.ret { data := wf.data, isset_data := true }, c)
    | none => (.ret {}, c)
  Delete := fun _ c => (.ret { ok := true }, c)
  Rename := fun _ _ c => (.ret { ok := true }, c)
  List := fun _ c => (.ret {}, c)
  Auth := fun _ c => (.ret { ok := true }, c)
  Ping := fun c => (.ret 0, c)

/-- A channel whose `List` returns the given listing, whatever the path. -/
def listingChannel (dirList : DirList) : Channel Unit :=
  { quietChannel with List := fun _ c => (.ret dirList, c) }


/-- A channel every service method of which throws `e`; its transport opens and closes
without error. -/
def throwingChannel (e : Thrown) : Channel Unit where
  transportOpen := fun c => (.ret (), c)
  transportClose := fun c => (.ret (), c)
  Append := fun _ c => (.raise e, c)
  Get := fun _ c => (.raise e, c)
  Delete := fun _ c => (.raise e, c)
  Rename := fun _ _ c => (.raise e, c)
  List := fun _ c => (.raise e, c)
  Auth := fun _ c => (.raise e, c)
  Ping := fun c => (.raise e, c)

/-- A channel that answers `Append`, `Delete` and `Rename` with the negative acknowledgement
(`code`, `info`) and `List` with a listing whose error (`code`, `info`) is set. -/
def refusingChannel (code : Int) (info : String) : Channel Unit :=
  { quietChannel with
    Append := fun _ c => (.ret { ok := false, error := { code := code, info := info } }, c)
    Delete := fun _ c => (.ret { ok := false, error := { code := code, info := info } }, c)
    Rename := fun _ _ c => (.ret { ok := false, error := { code := code, info := info } }, c)
    List := fun _ c =>
      (.ret { isset_error := true,
              error := { code := code, info := info, isset_code := true } }, c) }

/-- A channel that behaves like a socket to a server that restarts. The state is the number
of `open` calls made so far and whether the socket is open. The second `open` is refused
(`NOT_OPEN`), every other one succeeds; `close` always succeeds. `Auth` on a closed socket
throws `NOT_OPEN`; on the first connection it throws `END_OF_FILE` (the server has gone away);
on any later connection it is acknowledged. -/
def restartingServerChannel : Channel (Nat × Bool) where
  transportOpen := fun c =>
    if c.1 = 1 then (.raise (.transport .NOT_OPEN "connection refused"), (c.1 + 1, false))
    else (.ret (), (c.1 + 1, true))
  transportClose := fun c => (.ret (), (c.1, false))
  Append := fun _ c => (.ret { ok := true }, c)
  Get := fun _ c => (.ret {}, c)
  Delete := fun _ c => (.ret { ok := true }, c)
  Rename := fun _ _ c => (.ret { ok := true }, c)
  List := fun _ c => (.ret {}, c)
  Auth := fun _ c =>
    if c.2 = false then (.raise (.transport .NOT_OPEN "socket not open"), c)
    else if c.1 = 1 then (.raise (.transport .END_OF_FILE "no more data to read"), c)
    else (.ret { ok := true }, c)
  Ping := fun c => (.ret 0, c)

/-- A channel whose `Ping` echoes `v`. -/
def echoChannel (v : Int) : Channel Unit :=
  { quietChannel with Ping := fun c => (.ret v, c) }

/-- Reconnect as the specification words it: `Connect` with the previously stored
parameters. -/
def ReconnectSpec {σ : Type} (ch : Channel σ) (w : World σ) : Exec (WfsResult × World σ) :=
  Connect ch w.client.m_params w

/-- The session after `Connect` has succeeded on a fresh client against
`restartingServerChannel`. -/
def sessionConnectedOnce : World (Nat × Bool) :=
  { client := { m_isConnected := true, m_client := true },
    chan := (1, true), calls := [.transportOpen] }

/-- The session after `Authenticate` has then run while the server restarted: `Auth` failed
twice, the first in-place reopen was refused, the second succeeded, the third `Auth` was
acknowledged. -/
def sessionAfterRestart : World (Nat × Bool) :=
  { client := { m_isConnected := false, m_isAuthenticated := true, m_client := true },
    chan := (3, true),
    calls := [.transportOpen, .Auth {}, .transportClose, .transportOpen, .Auth {},
      .transportClose, .transportOpen, .Auth {}] }

/-- The session after `Connect` has then been called once more. -/
def sessionConnectedAgain : World (Nat × Bool) :=
  { client := { m_isConnected := true, m_isAuthenticated := true, m_client := true },
    chan := (4, true),
    calls := [.transportOpen, .Auth {}, .transportClose, .transportOpen, .Auth {},
      .transportClose, .transportOpen, .Auth {}, .transportOpen] }

/-- Whether a log entry is a `close` of the transport. -/
def Call.isClose : Call → Bool
  | .transportClose => true
  | _ => false

/-- Number of in-place reopen attempts recorded in a call log made of `Auth` calls and
reopens: each attempt starts with one `close` of the transport. -/
def reopenAttempts (calls : List Call) : Nat :=
  calls.countP Call.isClose

/-- A channel on which nothing works: `Auth` throws `TTransportException(NOT_OPEN)` and so do
`close` and `open` of the transport. -/
def deadChannel : Channel Unit :=
  { throwingChannel (.transport .NOT_OPEN "not open") with
    transportOpen := fun c => (.raise (.transport .NOT_OPEN "connection refused"), c)
    transportClose := fun c => (.raise (.transport .NOT_OPEN "not open"), c) }

/-! ## `include/wfs_client/utils.hpp`

In the helpers of `utils.hpp` a `std::string` is the list of its bytes (`unsigned char`). -/

/-- The continuation-byte test `(input[k] & 0xC0) == 0x80` of `safeUtf8`. -/
def utils.isContinuation (b : UInt8) : Bool :=
  b &&& 0xC0 == 0x80

/-- Function `utils::safeUtf8`, on the bytes from position `i` on: the loop body looks at
`c = input[i]` and at up to three bytes after it, appends to the result and moves past the
bytes it has taken; `0x3F` is the character '?'. -/
def utils.safeUtf8 : List UInt8 → List UInt8
  | [] => []
  | c :: rest =>
    if c < 0x80 then c :: utils.safeUtf8 rest
    else if c &&& 0xE0 = 0xC0 then
      match rest with
      | c1 :: rest1 =>
        if utils.isContinuation c1 then c :: c1 :: utils.safeUtf8 rest1
        else 0x3F :: utils.safeUtf8 (c1 :: rest1)
      | [] => [0x3F]
    else if c &&& 0xF0 = 0xE0 then
      match rest with
      | c1 :: c2 :: rest2 =>
        if utils.isContinuation c1 && utils.isContinuation c2 then
          c :: c1 :: c2 :: utils.safeUtf8 rest2
        else 0x3F :: utils.safeUtf8 (c1 :: c2 :: rest2)
      | rest => 0x3F :: utils.safeUtf8 rest
    else if c &&& 0xF8 = 0xF0 then
      match rest with
      | c1 :: c2 :: c3 :: rest3 =>
        if utils.isContinuation c1 && utils.isContinuation c2 && utils.isContinuation c3 then
          c :: c1 :: c2 :: c3 :: utils.safeUtf8 rest3
        else 0x3F :: utils.safeUtf8 (c1 :: c2 :: c3 :: rest3)
      | rest => 0x3F :: utils.safeUtf8 rest
    else 0x3F :: utils.safeUtf8 rest

/-- The standard library's `std::string::find_last_of(chars)`: the last position of `s` that
holds one of the bytes of `chars`, `none` standing for `npos`. -/
def utils.find_last_of (s chars : List UInt8) : Option Nat :=
  match s with
  | [] => none
  | c :: rest =>
    match utils.find_last_of rest chars with
    | some pos => some (pos + 1)
    | none => if c ∈ chars then some 0 else none

/-- The separator set `"/\\"` of `getFileName` and `getDirectory`: '/' and '\'. -/
def utils.separators : List UInt8 :=
  [0x2F, 0x5C]

/-- Function `utils::getFileName`; `path.substr(pos + 1)` is `path.drop (pos + 1)`. -/
def utils.getFileName (path : List UInt8) : List UInt8 :=
  match utils.find_last_of path utils.separators with
  | none => path
  | some pos => path.drop (pos + 1)

/-- Function `utils::getDirectory`; `path.substr(0, pos)` is `path.take pos`. -/
def utils.getDirectory (path : List UInt8) : List UInt8 :=
  match utils.find_last_of path utils.separators with
  | none => []
  | some pos => path.take pos

end wfs_client

/-! # Properties -/

namespace wfs_client

/-! ## Auxiliary lemmas -/

theorem IsConnected_returns {σ : Type} (w : World σ) (b : Bool) :
    IsConnected w = .returns (b, w) ↔ w.client.m_mutex = false ∧ w.client.m_isConnected = b := by
  obtain ⟨⟨m, c, a, p, ai, le, cl⟩, chan, calls⟩ := w
  cases m <;> simp [IsConnected, lock_guard, Exec.bind, World.setMutex]

theorem IsAuthenticated_returns {σ : Type} (w : World σ) (b : Bool) :
    IsAuthenticated w = .returns (b, w) ↔
      w.client.m_mutex = false ∧ w.client.m_isAuthenticated = b := by
  obtain ⟨⟨m, c, a, p, ai, le, cl⟩, chan, calls⟩ := w
  cases m <;> simp [IsAuthenticated, lock_guard, Exec.bind, World.setMutex]

theorem GetLastError_free {σ : Type} (w : World σ) (hm : w.client.m_mutex = false) :
    GetLastError w = .returns (w.client.m_lastError.error, w) := by
  obtain ⟨⟨m, c, a, p, ai, le, cl⟩, chan, calls⟩ := w
  simp only at hm
  subst hm
  rfl

/-! ## Precondition failures -/

/-- C1: on a session whose `IsConnected` is false, each of `UploadFile`, `DownloadFile`,
`DeleteFile`, `RenameFile` and `ListDirectory`, for every argument, returns the failure
(-1, "Not connected to server"), makes no call on the channel and leaves the connected and
authenticated flags (and the caller's output argument) as they were. -/
theorem C1_not_connected_fails_without_channel_call {σ : Type} (ch : Channel σ) (w : World σ)
    (hdis : IsConnected w = .returns (false, w)) :
    (∀ fileData, ∃ w', UploadFile ch fileData w
        = .returns (WfsResult.Failure (-1) "Not connected to server", w') ∧
        SameFlagsNoCall w w') ∧
    (∀ remotePath outData, ∃ w', DownloadFile ch remotePath outData w
        = .returns ((WfsResult.Failure (-1) "Not connected to server", outData), w') ∧
        SameFlagsNoCall w w') ∧
    (∀ remotePath, ∃ w', DeleteFile ch remotePath w
        = .returns (WfsResult.Failure (-1) "Not connected to server", w') ∧
        SameFlagsNoCall w w') ∧
    (∀ oldPath newPath, ∃ w', RenameFile ch oldPath newPath w
        = .returns (WfsResult.Failure (-1) "Not connected to server", w') ∧
        SameFlagsNoCall w w') ∧
    (∀ remotePath outDirList, ∃ w', ListDirectory ch remotePath outDirList w
        = .returns ((WfsResult.Failure (-1) "Not connected to server", outDirList), w') ∧
        SameFlagsNoCall w w') := by
  obtain ⟨hm, hc⟩ := (IsConnected_returns w false).1 hdis
  obtain ⟨⟨m, c, a, p, ai, le, cl⟩, chan, calls⟩ := w
  simp only at hm hc
  subst hm hc
  exact ⟨fun _ => ⟨_, rfl, rfl, rfl, rfl, rfl⟩, fun _ _ => ⟨_, rfl, rfl, rfl, rfl, rfl⟩,
    fun _ => ⟨_, rfl, rfl, rfl, rfl, rfl⟩, fun _ _ => ⟨_, rfl, rfl, rfl, rfl, rfl⟩,
    fun _ _ => ⟨_, rfl, rfl, rfl, rfl, rfl⟩⟩

/-- Witness for C1: a freshly constructed client on the quiet channel is not connected, and
all five operations fail fast on it. -/
theorem C1_witness :
    IsConnected (World.fresh ()) = .returns (false, World.fresh ()) ∧
    (∀ fileData, ∃ w', UploadFile quietChannel fileData (World.fresh ())
        = .returns (WfsResult.Failure (-1) "Not connected to server", w') ∧
        SameFlagsNoCall (World.fresh ()) w') ∧
    (∀ remotePath outData, ∃ w', DownloadFile quietChannel remotePath outData (World.fresh ())
        = .returns ((WfsResult.Failure (-1) "Not connected to server", outData), w') ∧
        SameFlagsNoCall (World.fresh ()) w') ∧
    (∀ remotePath, ∃ w', DeleteFile quietChannel remotePath (World.fresh ())
        = .returns (WfsResult.Failure (-1) "Not connected to server", w') ∧
        SameFlagsNoCall (World.fresh ()) w') ∧
    (∀ oldPath newPath, ∃ w', RenameFile quietChannel oldPath newPath (World.fresh ())
        = .returns (WfsResult.Failure (-1) "Not connected to server", w') ∧
        SameFlagsNoCall (World.fresh ()) w') ∧
    (∀ remotePath outDirList, ∃ w',
        ListDirectory quietChannel remotePath outDirList (World.fresh ())
        = .returns ((WfsResult.Failure (-1) "Not connected to server", outDirList), w') ∧
        SameFlagsNoCall (World.fresh ()) w') :=
  ⟨rfl, C1_not_connected_fails_without_channel_call quietChannel (World.fresh ()) rfl⟩

/-- C2: on a session that is connected but not authenticated, each of `UploadFile`,
`DownloadFile`, `DeleteFile`, `RenameFile` and `ListDirectory`, for every argument, returns the
failure (-1, "Not authenticated"), makes no call on the channel and leaves the connected and
authenticated flags (and the caller's output argument) as they were. -/
theorem C2_not_authenticated_fails_without_channel_call {σ : Type} (ch : Channel σ)
    (w : World σ) (hcon : IsConnected w = .returns (true, w))
    (hnot : IsAuthenticated w = .returns (false, w)) :
    (∀ fileData, ∃ w', UploadFile ch fileData w
        = .returns (WfsResult.Failure (-1) "Not authenticated", w') ∧
        SameFlagsNoCall w w') ∧
    (∀ remotePath outData, ∃ w', DownloadFile ch remotePath outData w
        = .returns ((WfsResult.Failure (-1) "Not authenticated", outData), w') ∧
        SameFlagsNoCall w w') ∧
    (∀ remotePath, ∃ w', DeleteFile ch remotePath w
        = .returns (WfsResult.Failure (-1) "Not authenticated", w') ∧
        SameFlagsNoCall w w') ∧
    (∀ oldPath newPath, ∃ w', RenameFile ch oldPath newPath w
        = .returns (WfsResult.Failure (-1) "Not authenticated", w') ∧
        SameFlagsNoCall w w') ∧
    (∀ remotePath outDirList, ∃ w', ListDirectory ch remotePath outDirList w
        = .returns ((WfsResult.Failure (-1) "Not authenticated", outDirList), w') ∧
        SameFlagsNoCall w w') := by
  obtain ⟨hm, hc⟩ := (IsConnected_returns w true).1 hcon
  obtain ⟨-, ha⟩ := (IsAuthenticated_returns w false).1 hnot
  obtain ⟨⟨m, c, a, p, ai, le, cl⟩, chan, calls⟩ := w
  simp only at hm hc ha
  subst hm hc ha
  exact ⟨fun _ => ⟨_, rfl, rfl, rfl, rfl, rfl⟩, fun _ _ => ⟨_, rfl, rfl, rfl, rfl, rfl⟩,
    fun _ => ⟨_, rfl, rfl, rfl, rfl, rfl⟩, fun _ _ => ⟨_, rfl, rfl, rfl, rfl, rfl⟩,
    fun _ _ => ⟨_, rfl, rfl, rfl, rfl, rfl⟩⟩

/-- Witness for C2: a connected, unauthenticated session on the quiet channel. -/
theorem C2_witness :
    IsConnected (World.connected () false 3) = .returns (true, World.connected () false 3) ∧
    IsAuthenticated (World.connected () false 3)
      = .returns (false, World.connected () false 3) ∧
    (∀ fileData, ∃ w', UploadFile quietChannel fileData (World.connected () false 3)
        = .returns (WfsResult.Failure (-1) "Not authenticated", w') ∧
        SameFlagsNoCall (World.connected () false 3) w') ∧
    (∀ remotePath outData, ∃ w',
        DownloadFile quietChannel remotePath outData (World.connected () false 3)
        = .returns ((WfsResult.Failure (-1) "Not authenticated", outData), w') ∧
        SameFlagsNoCall (World.connected () false 3) w') ∧
    (∀ remotePath, ∃ w', DeleteFile quietChannel remotePath (World.connected () false 3)
        = .returns (WfsResult.Failure (-1) "Not authenticated", w') ∧
        SameFlagsNoCall (World.connected () false 3) w') ∧
    (∀ oldPath newPath, ∃ w',
        RenameFile quietChannel oldPath newPath (World.connected () false 3)
        = .returns (WfsResult.Failure (-1) "Not authenticated", w') ∧
        SameFlagsNoCall (World.connected () false 3) w') ∧
    (∀ remotePath outDirList, ∃ w',
        ListDirectory quietChannel remotePath outDirList (World.connected () false 3)
        = .returns ((WfsResult.Failure (-1) "Not authenticated", outDirList), w') ∧
        SameFlagsNoCall (World.connected () false 3) w') :=
  ⟨rfl, rfl, C2_not_authenticated_fails_without_channel_call quietChannel
    (World.connected () false 3) rfl rfl⟩

/-! ## The authentication retry loop -/

theorem authLoop_eq {σ : Type} (ch : Channel σ) (auth : WfsAuth) (maxRetries retry : Int)
    (w : World σ) :
    authLoop ch auth maxRetries retry w =
      if retry ≤ maxRetries then
        if w.client.m_client then
          match w.call (.Auth auth) (ch.Auth auth) with
          | (.ret authResult, w1) =>
            if authResult.ok then
              .returns (.ret WfsResult.Success, w1.setAuthenticated true)
            else
              .returns (.ret (WfsResult.Failure authResult.error.code authResult.error.info),
                (w1.setAuthenticated false).setLastError
                  (WfsResult.Failure authResult.error.code authResult.error.info))
          | (.raise (.transport _ what), w1) =>
            if retry < maxRetries then
              match reopenInPlace ch w1 with
              | (.ret _, w2) => authLoop ch auth maxRetries (retry + 1) w2
              | (.raise (.transport _ _), w2) =>
                authLoop ch auth maxRetries (retry + 1) (w2.setConnected false)
              | (.raise e, w2) => .returns (.raise e, w2)
            else
              .returns (.ret (WfsResult.Failure (-1) ("Authentication exception: " ++ what)),
                (w1.setAuthenticated false).setLastError
                  (WfsResult.Failure (-1) ("Authentication exception: " ++ what)))
          | (.raise e, w1) => .returns (.raise e, w1)
        else .nullDeref
      else
        .returns (.ret (WfsResult.Failure (-1) "Authentication failed, retry limit reached"),
          (w.setAuthenticated false).setLastError
            (WfsResult.Failure (-1) "Authentication failed, retry limit reached")) := by
  rw [authLoop]
  rfl

theorem authCalls_append (l l' : List Call) :
    authCalls (l ++ l') = authCalls l + authCalls l' := by
  simp [authCalls, List.countP_append]

theorem reopenInPlace_client {σ : Type} (ch : Channel σ) (w : World σ) :
    (reopenInPlace ch w).2.client = w.client := by
  unfold reopenInPlace World.call
  cases (ch.transportClose w.chan).1 <;> rfl

theorem reopenInPlace_authCalls {σ : Type} (ch : Channel σ) (w : World σ) :
    authCalls (reopenInPlace ch w).2.calls = authCalls w.calls := by
  unfold reopenInPlace World.call
  cases (ch.transportClose w.chan).1 <;> simp [authCalls, List.countP_append, List.countP_cons, Call.isAuth]

theorem reopenInPlace_raise {σ : Type} (ch : Channel σ) (w : World σ) (e : Thrown)
    (h : (reopenInPlace ch w).1 = .raise e) :
    ∃ c, (ch.transportClose c).1 = .raise e ∨ (ch.transportOpen c).1 = .raise e := by
  unfold reopenInPlace World.call at h
  cases hc : (ch.transportClose w.chan).1 with
  | ret u =>
    rw [hc] at h
    exact ⟨_, Or.inr h⟩
  | raise e' =>
    rw [hc] at h
    simp at h
    exact ⟨_, Or.inl (h ▸ hc)⟩

theorem call_fst {σ α : Type} (w : World σ) (c : Call) (f : σ → Outcome α × σ) :
    (w.call c f).1 = (f w.chan).1 := rfl

theorem call_client {σ α : Type} (w : World σ) (c : Call) (f : σ → Outcome α × σ) :
    (w.call c f).2.client = w.client := rfl

theorem call_calls {σ α : Type} (w : World σ) (c : Call) (f : σ → Outcome α × σ) :
    (w.call c f).2.calls = w.calls ++ [c] := rfl

theorem call_authCalls {σ α : Type} (w : World σ) (c : Call) (f : σ → Outcome α × σ) :
    authCalls (w.call c f).2.calls = authCalls w.calls + (if c.isAuth then 1 else 0) := by
  simp [call_calls, authCalls, List.countP_append, List.countP_cons]

theorem authLoop_exhausts {σ : Type} (ch : Channel σ) (auth : WfsAuth) (maxRetries : Int)
    (hauth : ∀ a c, ∃ t what, (ch.Auth a c).1 = .raise (.transport t what))
    (hclose : ∀ c e, (ch.transportClose c).1 = .raise e → e.isTransport = true)
    (hopen : ∀ c e, (ch.transportOpen c).1 = .raise e → e.isTransport = true)
    (k : Nat) : ∀ (retry : Int) (w : World σ), (maxRetries + 1 - retry).toNat = k →
      retry ≤ maxRetries + 1 → w.client.m_client = true →
      ∃ r w', authLoop ch auth maxRetries retry w = .returns (.ret r, w') ∧
        r.ok = false ∧ w'.client.m_lastError = r ∧ w'.client.m_isAuthenticated = false ∧
        w'.client.m_mutex = w.client.m_mutex ∧
        authCalls w'.calls = authCalls w.calls + k := by
  induction k with
  | zero =>
    intro retry w hk hle hcl
    have hgt : ¬ retry ≤ maxRetries := by omega
    rw [authLoop_eq, if_neg hgt]
    exact ⟨_, _, rfl, rfl, rfl, rfl, rfl, rfl⟩
  | succ k ih =>
    intro retry w hk hle hcl
    have hle' : retry ≤ maxRetries := by omega
    obtain ⟨t, what, hA⟩ := hauth auth w.chan
    rw [authLoop_eq, if_pos hle', if_pos hcl]
    have hc1 := call_client w (.Auth auth) (ch.Auth auth)
    have hn1 := call_authCalls w (.Auth auth) (ch.Auth auth)
    have ho1 := call_fst w (.Auth auth) (ch.Auth auth)
    rcases hC : w.call (.Auth auth) (ch.Auth auth) with ⟨o1, w1⟩
    rw [hC] at hc1 hn1 ho1
    simp only [Call.isAuth, if_true] at hc1 hn1 ho1
    rw [hA] at ho1
    subst ho1
    simp only
    by_cases hlt : retry < maxRetries
    · rw [if_pos hlt]
      have hc2 := reopenInPlace_client ch w1
      have hn2 := reopenInPlace_authCalls ch w1
      have hr2 := reopenInPlace_raise ch w1
      rcases hR : reopenInPlace ch w1 with ⟨o, w2⟩
      rw [hR] at hc2 hn2 hr2
      simp only at hc2 hn2 hr2
      cases o with
      | ret u =>
        obtain ⟨r, w', h1, h2, h3, h4, h5, h6⟩ := ih (retry + 1) w2 (by omega) (by omega)
          (by rw [hc2, hc1]; exact hcl)
        exact ⟨r, w', h1, h2, h3, h4, by rw [h5, hc2, hc1], by rw [h6, hn2, hn1]; omega⟩
      | raise e =>
        cases e with
        | transport t2 what2 =>
          obtain ⟨r, w', h1, h2, h3, h4, h5, h6⟩ := ih (retry + 1) (w2.setConnected false)
            (by omega) (by omega) (by simp only [World.setConnected]; rw [hc2, hc1]; exact hcl)
          refine ⟨r, w', h1, h2, h3, h4, ?_, ?_⟩
          · rw [h5]; simp only [World.setConnected]; rw [hc2, hc1]
          · rw [h6]; simp only [World.setConnected]; rw [hn2, hn1]; omega
        | thrift what2 =>
          obtain ⟨c, hc | hc⟩ := hr2 _ rfl
          · exact absurd (hclose c _ hc) (by simp [Thrown.isTransport])
          · exact absurd (hopen c _ hc) (by simp [Thrown.isTransport])
        | standard what2 =>
          obtain ⟨c, hc | hc⟩ := hr2 _ rfl
          · exact absurd (hclose c _ hc) (by simp [Thrown.isTransport])
          · exact absurd (hopen c _ hc) (by simp [Thrown.isTransport])
        | unknown =>
          obtain ⟨c, hc | hc⟩ := hr2 _ rfl
          · exact absurd (hclose c _ hc) (by simp [Thrown.isTransport])
          · exact absurd (hopen c _ hc) (by simp [Thrown.isTransport])
    · rw [if_neg hlt]
      have hk0 : k = 0 := by omega
      subst hk0
      refine ⟨_, _, rfl, rfl, rfl, rfl, ?_, ?_⟩
      · simp only [World.setAuthenticated, World.setLastError]; rw [hc1]
      · simp only [World.setAuthenticated, World.setLastError]; rw [hn1]

theorem Authenticate_connected {σ : Type} (ch : Channel σ) (authInfo : WfsAuthInfo)
    (w : World σ) (hm : w.client.m_mutex = false) (hc : w.client.m_isConnected = true) :
    Authenticate ch authInfo w =
      (authLoop ch { name := authInfo.username, pwd := authInfo.password }
          w.client.m_params.maxRetries 1 ((w.setMutex true).setAuthInfo authInfo)).bind
        fun x =>
          match x with
          | (.ret r, w1) => .returns (r, w1.setMutex false)
          | (.raise e, w1) =>
            .returns ((authCatchClauses e w1).client.m_lastError,
              (authCatchClauses e w1).setMutex false) := by
  obtain ⟨⟨m, c, a, p, ai, le, cl⟩, chan, calls⟩ := w
  simp only at hm hc
  subst hm hc
  simp only [Authenticate, lock_guard, EnsureConnected, AuthenticateInternal, World.setMutex,
    World.setAuthInfo, Bool.false_eq_true, if_false, Bool.not_true]
  generalize authLoop ch _ _ 1 _ = x
  cases x with
  | returns y =>
    obtain ⟨o, w1⟩ := y
    cases o <;> rfl
  | blocked => rfl
  | nullDeref => rfl

theorem authCatchClauses_spec {σ : Type} (e : Thrown) (w : World σ) :
    (authCatchClauses e w).client.m_lastError.ok = false ∧
      (authCatchClauses e w).client.m_isAuthenticated = false ∧
      (authCatchClauses e w).calls = w.calls ∧ (authCatchClauses e w).chan = w.chan ∧
      (authCatchClauses e w).client.m_isConnected = w.client.m_isConnected ∧
      (authCatchClauses e w).client.m_mutex = w.client.m_mutex := by
  cases e <;> exact ⟨rfl, rfl, rfl, rfl, rfl, rfl⟩

theorem authLoop_fails {σ : Type} (ch : Channel σ) (auth : WfsAuth) (maxRetries : Int)
    (hauth : ∀ a c, ∃ t what, (ch.Auth a c).1 = .raise (.transport t what))
    (k : Nat) : ∀ (retry : Int) (w : World σ), (maxRetries + 1 - retry).toNat = k →
      retry ≤ maxRetries + 1 → w.client.m_client = true →
      ∃ o w', authLoop ch auth maxRetries retry w = .returns (o, w') ∧
        (∀ r, o = .ret r →
          r.ok = false ∧ w'.client.m_lastError = r ∧ w'.client.m_isAuthenticated = false) ∧
        authCalls w'.calls ≤ authCalls w.calls + k := by
  induction k with
  | zero =>
    intro retry w hk hle hcl
    have hgt : ¬ retry ≤ maxRetries := by omega
    rw [authLoop_eq, if_neg hgt]
    refine ⟨_, _, rfl, ?_, le_refl _⟩
    intro r hr
    cases hr
    exact ⟨rfl, rfl, rfl⟩
  | succ k ih =>
    intro retry w hk hle hcl
    have hle' : retry ≤ maxRetries := by omega
    obtain ⟨t, what, hA⟩ := hauth auth w.chan
    rw [authLoop_eq, if_pos hle', if_pos hcl]
    have hc1 := call_client w (.Auth auth) (ch.Auth auth)
    have hn1 := call_authCalls w (.Auth auth) (ch.Auth auth)
    have ho1 := call_fst w (.Auth auth) (ch.Auth auth)
    rcases hC : w.call (.Auth auth) (ch.Auth auth) with ⟨o1, w1⟩
    rw [hC] at hc1 hn1 ho1
    simp only [Call.isAuth, if_true] at hc1 hn1 ho1
    rw [hA] at ho1
    subst ho1
    simp only
    by_cases hlt : retry < maxRetries
    · rw [if_pos hlt]
      have hc2 := reopenInPlace_client ch w1
      have hn2 := reopenInPlace_authCalls ch w1
      rcases hR : reopenInPlace ch w1 with ⟨o, w2⟩
      rw [hR] at hc2 hn2
      simp only at hc2 hn2
      cases o with
      | ret u =>
        obtain ⟨o', w', h1, h2, h3⟩ := ih (retry + 1) w2 (by omega) (by omega)
          (by rw [hc2, hc1]; exact hcl)
        exact ⟨o', w', h1, h2, by rw [hn2, hn1] at h3; omega⟩
      | raise e =>
        cases e with
        | transport t2 what2 =>
          obtain ⟨o', w', h1, h2, h3⟩ := ih (retry + 1) (w2.setConnected false)
            (by omega) (by omega) (by simp only [World.setConnected]; rw [hc2, hc1]; exact hcl)
          refine ⟨o', w', h1, h2, ?_⟩
          simp only [World.setConnected] at h3
          rw [hn2, hn1] at h3
          omega
        | thrift what2 =>
          refine ⟨_, _, rfl, ?_, ?_⟩
          · intro r hr; cases hr
          · rw [hn2, hn1]; omega
        | standard what2 =>
          refine ⟨_, _, rfl, ?_, ?_⟩
          · intro r hr; cases hr
          · rw [hn2, hn1]; omega
        | unknown =>
          refine ⟨_, _, rfl, ?_, ?_⟩
          · intro r hr; cases hr
          · rw [hn2, hn1]; omega
    · rw [if_neg hlt]
      refine ⟨_, _, rfl, ?_, ?_⟩
      · intro r hr
        cases hr
        exact ⟨rfl, rfl, rfl⟩
      · simp only [World.setAuthenticated, World.setLastError]; rw [hn1]; omega

theorem setMutex_false_spec {σ : Type} (w : World σ) :
    IsAuthenticated (w.setMutex false) = .returns (w.client.m_isAuthenticated, w.setMutex false) ∧
    IsConnected (w.setMutex false) = .returns (w.client.m_isConnected, w.setMutex false) := by
  constructor
  · exact (IsAuthenticated_returns _ _).2 ⟨rfl, rfl⟩
  · exact (IsConnected_returns _ _).2 ⟨rfl, rfl⟩

/-! ## Authentication -/

/-- C3, as amended: with `maxRetries = N >= 1`, on a connected session and a channel whose
`Auth` always raises a `NOT_OPEN` or `END_OF_FILE` transport failure, `Authenticate` returns
a failure, `IsAuthenticated` is false afterwards, and `Auth` has been called at most `N`
times: exactly `N` times when neither `close` nor `open` of the in-place reopen ever raises
anything other than a transport failure. -/
theorem C3_auth_retries_exhausted {σ : Type} (ch : Channel σ) (authInfo : WfsAuthInfo)
    (w : World σ) (N : Nat) (hN : 1 ≤ N)
    (hcon : IsConnected w = .returns (true, w)) (hcl : w.client.m_client = true)
    (hmax : w.client.m_params.maxRetries = N)
    (hauth : ∀ a c, ∃ t what, (ch.Auth a c).1 = .raise (.transport t what) ∧
      (t = .NOT_OPEN ∨ t = .END_OF_FILE)) :
    ∃ r w', Authenticate ch authInfo w = .returns (r, w') ∧ r.ok = false ∧
      IsAuthenticated w' = .returns (false, w') ∧
      authCalls w'.calls ≤ authCalls w.calls + N ∧
      ((∀ c e, (ch.transportClose c).1 = .raise e → e.isTransport = true) →
        (∀ c e, (ch.transportOpen c).1 = .raise e → e.isTransport = true) →
        authCalls w'.calls = authCalls w.calls + N) := by
  obtain ⟨hm, hc⟩ := (IsConnected_returns w true).1 hcon
  have hauth' : ∀ a c, ∃ t what, (ch.Auth a c).1 = .raise (.transport t what) := by
    intro a c
    obtain ⟨t, what, h, -⟩ := hauth a c
    exact ⟨t, what, h⟩
  rw [Authenticate_connected ch authInfo w hm hc, hmax]
  generalize hw0 : (w.setMutex true).setAuthInfo authInfo = w0
  have hcl0 : w0.client.m_client = true := by rw [← hw0]; exact hcl
  have hcalls0 : w0.calls = w.calls := by rw [← hw0]; rfl
  obtain ⟨o, w1, h1, h2, h3⟩ := authLoop_fails ch
    { name := authInfo.username, pwd := authInfo.password } N hauth' N 1 w0 (by omega)
    (by omega) hcl0
  rw [h1]
  cases o with
  | ret r =>
    obtain ⟨hr1, hr2, hr3⟩ := h2 r rfl
    refine ⟨r, w1.setMutex false, rfl, hr1, ?_, ?_, ?_⟩
    · have hs := (setMutex_false_spec w1).1
      rw [hr3] at hs
      exact hs
    · rw [← hcalls0]; exact h3
    · intro hclose hopen
      obtain ⟨r', w1', g1, -, -, -, -, g6⟩ := authLoop_exhausts ch
        { name := authInfo.username, pwd := authInfo.password } N hauth' hclose hopen N 1 w0
        (by omega) (by omega) hcl0
      rw [h1] at g1
      cases g1
      rw [← hcalls0]
      exact g6
  | raise e =>
    obtain ⟨s1, s2, s3, -, -, -⟩ := authCatchClauses_spec e w1
    refine ⟨_, (authCatchClauses e w1).setMutex false, rfl, s1, ?_, ?_, ?_⟩
    · have hs := (setMutex_false_spec (authCatchClauses e w1)).1
      rw [s2] at hs
      exact hs
    · show authCalls (authCatchClauses e w1).calls ≤ _
      rw [s3, ← hcalls0]; exact h3
    · intro hclose hopen
      obtain ⟨r', w1', g1, -⟩ := authLoop_exhausts ch
        { name := authInfo.username, pwd := authInfo.password } N hauth' hclose hopen N 1 w0
        (by omega) (by omega) hcl0
      rw [h1] at g1
      cases g1

/-- Witness for C3: three retries against a channel whose `Auth` always raises `END_OF_FILE`
and whose transport reopens without error. -/
theorem C3_witness :
    IsConnected (World.connected () false 3) = .returns (true, World.connected () false 3) ∧
    ∃ r w', Authenticate deadAuthChannel {} (World.connected () false 3) = .returns (r, w') ∧
      r.ok = false ∧ IsAuthenticated w' = .returns (false, w') ∧
      authCalls w'.calls = authCalls (World.connected () false 3).calls + 3 := by
  obtain ⟨r, w', h1, h2, h3, -, h5⟩ :=
    C3_auth_retries_exhausted deadAuthChannel {} (World.connected () false 3) 3
      (by decide) rfl rfl rfl (fun _ _ => ⟨_, _, rfl, Or.inr rfl⟩)
  exact ⟨rfl, r, w', h1, h2, h3, h5 (fun _ _ h => by cases h) (fun _ _ h => by cases h)⟩

/-- C3 as stated fails: with `maxRetries = 2` and `Auth` always raising `NOT_OPEN`, a
transport whose `close` throws a plain `std::exception` during the in-place reopen ends
`Authenticate` through the outer `catch (const std::exception &)` after a single `Auth`
call, not two. -/
theorem C3_counterexample :
    (∀ a c, ∃ t what, (closeThrowsChannel.Auth a c).1 = .raise (.transport t what) ∧
      (t = .NOT_OPEN ∨ t = .END_OF_FILE)) ∧
    IsConnected (World.connected () false 2) = .returns (true, World.connected () false 2) ∧
    (World.connected () false 2).client.m_params.maxRetries = 2 ∧
    Authenticate closeThrowsChannel {} (World.connected () false 2)
      = .returns (WfsResult.Failure (-1) "Standard exception: close failed",
          { client := { m_isConnected := true, m_client := true,
                        m_params := { maxRetries := 2 },
                        m_lastError :=
                          WfsResult.Failure (-1) "Standard exception: close failed" },
            chan := (), calls := [.Auth {}, .transportClose] }) ∧
    authCalls [.Auth {}, .transportClose] = 1 := by
  refine ⟨fun _ _ => ⟨_, _, rfl, Or.inl rfl⟩, rfl, rfl, ?_, rfl⟩
  rw [Authenticate_connected _ _ _ rfl rfl, authLoop_eq]
  simp [World.connected, closeThrowsChannel, quietChannel, World.call, World.setMutex,
    World.setAuthInfo, reopenInPlace, Exec.bind, authCatchClauses, HandleStandardException,
    World.setLastError, World.setAuthenticated, WfsResult.Failure]

/-- C4: with `maxRetries >= 2`, on a connected session, when the first `Auth` call raises a
`NOT_OPEN` or `END_OF_FILE` transport failure, the in-place reopen (`close`, then `open`)
succeeds and the second `Auth` call is acknowledged with `ok = true`, `Authenticate` returns
success after exactly two `Auth` calls (the log grows by `Auth`, `close`, `open`, `Auth`) and
the session is connected and authenticated. -/
theorem C4_auth_succeeds_on_second_attempt {σ : Type} (ch : Channel σ)
    (authInfo : WfsAuthInfo) (w : World σ)
    (t : TTransportExceptionType) (what : String) (ack : WfsAck) (c1 c2 c3 c4 : σ)
    (hcon : IsConnected w = .returns (true, w)) (hcl : w.client.m_client = true)
    (hmax : 2 ≤ w.client.m_params.maxRetries)
    (hfirst : ch.Auth { name := authInfo.username, pwd := authInfo.password } w.chan
      = (.raise (.transport t what), c1))
    (_ht : t = .NOT_OPEN ∨ t = .END_OF_FILE)
    (hclose : ch.transportClose c1 = (.ret (), c2))
    (hopen : ch.transportOpen c2 = (.ret (), c3))
    (hsecond : ch.Auth { name := authInfo.username, pwd := authInfo.password } c3
      = (.ret ack, c4))
    (hok : ack.ok = true) :
    ∃ w', Authenticate ch authInfo w = .returns (WfsResult.Success, w') ∧
      w'.calls = w.calls ++
        [.Auth { name := authInfo.username, pwd := authInfo.password }, .transportClose,
          .transportOpen, .Auth { name := authInfo.username, pwd := authInfo.password }] ∧
      authCalls w'.calls = authCalls w.calls + 2 ∧
      IsConnected w' = .returns (true, w') ∧ IsAuthenticated w' = .returns (true, w') := by
  obtain ⟨hm, hc⟩ := (IsConnected_returns w true).1 hcon
  have h1 : (1 : Int) ≤ w.client.m_params.maxRetries := by omega
  have h2 : (1 : Int) < w.client.m_params.maxRetries := by omega
  have h3 : (1 : Int) + 1 ≤ w.client.m_params.maxRetries := by omega
  rw [Authenticate_connected ch authInfo w hm hc, authLoop_eq, if_pos h1]
  simp only [World.setMutex, World.setAuthInfo, hcl, if_true, World.call, hfirst, if_pos h2,
    reopenInPlace, hclose, hopen]
  rw [authLoop_eq, if_pos h3]
  simp only [hcl, if_true, World.call, hsecond, hok, Exec.bind, World.setAuthenticated,
    World.setMutex]
  refine ⟨_, rfl, ?_, ?_, ?_, ?_⟩
  · simp
  · simp [authCalls, List.countP_append, List.countP_cons, Call.isAuth]
  · exact (IsConnected_returns _ _).2 ⟨rfl, hc⟩
  · exact (IsAuthenticated_returns _ _).2 ⟨rfl, rfl⟩

/-- Witness for C4: the channel whose first `Auth` raises `NOT_OPEN` and whose later ones
are acknowledged, with `maxRetries = 2`. -/
theorem C4_witness :
    IsConnected (World.connected 0 false 2) = .returns (true, World.connected 0 false 2) ∧
    ∃ w', Authenticate flakyAuthChannel { username := "u", password := "p" }
        (World.connected 0 false 2) = .returns (WfsResult.Success, w') ∧
      w'.calls = (World.connected 0 false 2).calls ++
        [.Auth { name := "u", pwd := "p" }, .transportClose,
          .transportOpen, .Auth { name := "u", pwd := "p" }] ∧
      authCalls w'.calls = authCalls (World.connected 0 false 2).calls + 2 ∧
      IsConnected w' = .returns (true, w') ∧ IsAuthenticated w' = .returns (true, w') :=
  ⟨rfl, C4_auth_succeeds_on_second_attempt flakyAuthChannel { username := "u", password := "p" }
    (World.connected 0 false 2) .NOT_OPEN "not open" { ok := true } 1 1 1 2 rfl rfl
    (by decide) rfl (Or.inl rfl) rfl rfl rfl rfl⟩

/-- C5: with `maxRetries >= 1`, on a connected session, when the `Auth` call returns a
negative acknowledgement (`ok = false`, error code `c`, message `m`), `Authenticate` returns
the failure carrying exactly `c` and `m`, the only call made on the channel is that one `Auth`
(no retry, no reopen), and `IsAuthenticated` is false afterwards. -/
theorem C5_negative_ack_is_terminal {σ : Type} (ch : Channel σ) (authInfo : WfsAuthInfo)
    (w : World σ) (c : Int) (m : String) (ack : WfsAck) (c1 : σ)
    (hcon : IsConnected w = .returns (true, w)) (hcl : w.client.m_client = true)
    (hmax : 1 ≤ w.client.m_params.maxRetries)
    (hack : ch.Auth { name := authInfo.username, pwd := authInfo.password } w.chan
      = (.ret ack, c1))
    (hno : ack.ok = false) (hcode : ack.error.code = c) (hinfo : ack.error.info = m) :
    ∃ w', Authenticate ch authInfo w = .returns (WfsResult.Failure c m, w') ∧
      w'.calls = w.calls ++ [.Auth { name := authInfo.username, pwd := authInfo.password }] ∧
      IsAuthenticated w' = .returns (false, w') := by
  obtain ⟨hm, hc⟩ := (IsConnected_returns w true).1 hcon
  rw [Authenticate_connected ch authInfo w hm hc, authLoop_eq, if_pos hmax]
  simp only [World.setMutex, World.setAuthInfo, hcl, if_true, World.call, hack, hno,
    Exec.bind, World.setAuthenticated, World.setLastError, hcode, hinfo]
  refine ⟨_, rfl, rfl, ?_⟩
  exact (IsAuthenticated_returns _ _).2 ⟨rfl, rfl⟩

/-- Witness for C5: the acknowledgement (42, "bad password") with `maxRetries = 3`. -/
theorem C5_witness :
    IsConnected (World.connected () false 3) = .returns (true, World.connected () false 3) ∧
    ∃ w', Authenticate (rejectingChannel 42 "bad password") { username := "u", password := "p" }
        (World.connected () false 3) = .returns (WfsResult.Failure 42 "bad password", w') ∧
      w'.calls = (World.connected () false 3).calls ++ [.Auth { name := "u", pwd := "p" }] ∧
      IsAuthenticated w' = .returns (false, w') :=
  ⟨rfl, C5_negative_ack_is_terminal (rejectingChannel 42 "bad password")
    { username := "u", password := "p" } (World.connected () false 3) 42 "bad password"
    { ok := false, error := { code := 42, info := "bad password" } } () rfl rfl (by decide)
    rfl rfl rfl rfl⟩

/-! ## Operations on a session that passes the precondition check -/

theorem UploadFile_ready {σ : Type} (ch : Channel σ) (fileData : WfsFileData) (w : World σ)
    (hm : w.client.m_mutex = false) (hc : w.client.m_isConnected = true)
    (ha : w.client.m_isAuthenticated = true) (hcl : w.client.m_client = true) :
    UploadFile ch fileData w =
      match ch.Append (sentFile fileData) w.chan with
      | (.ret ack, c) =>
        if ack.ok then .returns (WfsResult.Success, w.after (.Append (sentFile fileData)) c)
        else .returns (WfsResult.Failure ack.error.code ack.error.info,
          (w.after (.Append (sentFile fileData)) c).setLastError
            (WfsResult.Failure ack.error.code ack.error.info))
      | (.raise e, c) =>
        .returns ((catchClauses e (w.after (.Append (sentFile fileData)) c)).client.m_lastError,
          catchClauses e (w.after (.Append (sentFile fileData)) c)) := by
  obtain ⟨⟨m, c, a, p, ai, le, cl⟩, chan, calls⟩ := w
  simp only at hm hc ha hcl
  subst hm hc ha hcl
  simp only [UploadFile, lock_guard, EnsureConnectedAndAuthenticated, EnsureConnected,
    World.setMutex, World.call, Bool.false_eq_true, if_false, if_true, Bool.not_true]
  rcases ch.Append (sentFile fileData) chan with ⟨o, c'⟩
  cases o with
  | ret ack =>
    cases hk : ack.ok <;>
      simp [hk, Exec.bind, CreateErrorResult, World.after, World.setLastError, convertItems]
  | raise e =>
    cases e with
    | transport t what =>
      by_cases ht : t = .NOT_OPEN ∨ t = .END_OF_FILE <;>
        simp [Exec.bind, World.after, catchClauses, HandleTransportException, ht,
          World.setLastError, World.setConnected, World.setAuthenticated]
    | thrift what => rfl
    | standard what => rfl
    | unknown => rfl

theorem DeleteFile_ready {σ : Type} (ch : Channel σ) (remotePath : String) (w : World σ)
    (hm : w.client.m_mutex = false) (hc : w.client.m_isConnected = true)
    (ha : w.client.m_isAuthenticated = true) (hcl : w.client.m_client = true) :
    DeleteFile ch remotePath w =
      match ch.Delete remotePath w.chan with
      | (.ret ack, c) =>
        if ack.ok then .returns (WfsResult.Success, w.after (.Delete remotePath) c)
        else .returns (WfsResult.Failure ack.error.code ack.error.info,
          (w.after (.Delete remotePath) c).setLastError
            (WfsResult.Failure ack.error.code ack.error.info))
      | (.raise e, c) =>
        .returns ((catchClauses e (w.after (.Delete remotePath) c)).client.m_lastError,
          catchClauses e (w.after (.Delete remotePath) c)) := by
  obtain ⟨⟨m, c, a, p, ai, le, cl⟩, chan, calls⟩ := w
  simp only at hm hc ha hcl
  subst hm hc ha hcl
  simp only [DeleteFile, lock_guard, EnsureConnectedAndAuthenticated, EnsureConnected,
    World.setMutex, World.call, Bool.false_eq_true, if_false, if_true, Bool.not_true]
  rcases ch.Delete remotePath chan with ⟨o, c'⟩
  cases o with
  | ret ack =>
    cases hk : ack.ok <;>
      simp [hk, Exec.bind, CreateErrorResult, World.after, World.setLastError, convertItems]
  | raise e =>
    cases e with
    | transport t what =>
      by_cases ht : t = .NOT_OPEN ∨ t = .END_OF_FILE <;>
        simp [Exec.bind, World.after, catchClauses, HandleTransportException, ht,
          World.setLastError, World.setConnected, World.setAuthenticated]
    | thrift what => rfl
    | standard what => rfl
    | unknown => rfl

theorem RenameFile_ready {σ : Type} (ch : Channel σ) (oldPath newPath : String) (w : World σ)
    (hm : w.client.m_mutex = false) (hc : w.client.m_isConnected = true)
    (ha : w.client.m_isAuthenticated = true) (hcl : w.client.m_client = true) :
    RenameFile ch oldPath newPath w =
      match ch.Rename oldPath newPath w.chan with
      | (.ret ack, c) =>
        if ack.ok then .returns (WfsResult.Success, w.after (.Rename oldPath newPath) c)
        else .returns (WfsResult.Failure ack.error.code ack.error.info,
          (w.after (.Rename oldPath newPath) c).setLastError
            (WfsResult.Failure ack.error.code ack.error.info))
      | (.raise e, c) =>
        .returns ((catchClauses e (w.after (.Rename oldPath newPath) c)).client.m_lastError,
          catchClauses e (w.after (.Rename oldPath newPath) c)) := by
  obtain ⟨⟨m, c, a, p, ai, le, cl⟩, chan, calls⟩ := w
  simp only at hm hc ha hcl
  subst hm hc ha hcl
  simp only [RenameFile, lock_guard, EnsureConnectedAndAuthenticated, EnsureConnected,
    World.setMutex, World.call, Bool.false_eq_true, if_false, if_true, Bool.not_true]
  rcases ch.Rename oldPath newPath chan with ⟨o, c'⟩
  cases o with
  | ret ack =>
    cases hk : ack.ok <;>
      simp [hk, Exec.bind, CreateErrorResult, World.after, World.setLastError, convertItems]
  | raise e =>
    cases e with
    | transport t what =>
      by_cases ht : t = .NOT_OPEN ∨ t = .END_OF_FILE <;>
        simp [Exec.bind, World.after, catchClauses, HandleTransportException, ht,
          World.setLastError, World.setConnected, World.setAuthenticated]
    | thrift what => rfl
    | standard what => rfl
    | unknown => rfl

theorem DownloadFile_ready {σ : Type} (ch : Channel σ) (remotePath outData : String)
    (w : World σ)
    (hm : w.client.m_mutex = false) (hc : w.client.m_isConnected = true)
    (ha : w.client.m_isAuthenticated = true) (hcl : w.client.m_client = true) :
    DownloadFile ch remotePath outData w =
      match ch.Get remotePath w.chan with
      | (.ret data, c) =>
        if data.isset_data then
          .returns ((WfsResult.Success, data.data), w.after (.Get remotePath) c)
        else .returns ((WfsResult.Failure (-1) "Download failed: no data received", outData),
          (w.after (.Get remotePath) c).setLastError
            (WfsResult.Failure (-1) "Download failed: no data received"))
      | (.raise e, c) =>
        .returns (((catchClauses e (w.after (.Get remotePath) c)).client.m_lastError, outData),
          catchClauses e (w.after (.Get remotePath) c)) := by
  obtain ⟨⟨m, c, a, p, ai, le, cl⟩, chan, calls⟩ := w
  simp only at hm hc ha hcl
  subst hm hc ha hcl
  simp only [DownloadFile, lock_guard, EnsureConnectedAndAuthenticated, EnsureConnected,
    World.setMutex, World.call, Bool.false_eq_true, if_false, if_true, Bool.not_true]
  rcases ch.Get remotePath chan with ⟨o, c'⟩
  cases o with
  | ret ack =>
    cases hk : ack.isset_data <;>
      simp [hk, Exec.bind, CreateErrorResult, World.after, World.setLastError, convertItems]
  | raise e =>
    cases e with
    | transport t what =>
      by_cases ht : t = .NOT_OPEN ∨ t = .END_OF_FILE <;>
        simp [Exec.bind, World.after, catchClauses, HandleTransportException, ht,
          World.setLastError, World.setConnected, World.setAuthenticated]
    | thrift what => rfl
    | standard what => rfl
    | unknown => rfl

theorem ListDirectory_ready {σ : Type} (ch : Channel σ) (remotePath : String)
    (outDirList : WfsDirList) (w : World σ)
    (hm : w.client.m_mutex = false) (hc : w.client.m_isConnected = true)
    (ha : w.client.m_isAuthenticated = true) (hcl : w.client.m_client = true) :
    ListDirectory ch remotePath outDirList w =
      match ch.List remotePath w.chan with
      | (.ret dirList, c) =>
        if dirList.isset_error && dirList.error.isset_code then
          .returns ((WfsResult.Failure dirList.error.code dirList.error.info,
              { outDirList with
                path := dirList.path
                error := { code := dirList.error.code, info := dirList.error.info } }),
            (w.after (.List remotePath) c).setLastError
              (WfsResult.Failure dirList.error.code dirList.error.info))
        else
          .returns ((WfsResult.Success,
              { outDirList with path := dirList.path, items := convertItems dirList.items }),
            w.after (.List remotePath) c)
      | (.raise e, c) =>
        .returns (((catchClauses e (w.after (.List remotePath) c)).client.m_lastError,
            outDirList),
          catchClauses e (w.after (.List remotePath) c)) := by
  obtain ⟨⟨m, c, a, p, ai, le, cl⟩, chan, calls⟩ := w
  simp only at hm hc ha hcl
  subst hm hc ha hcl
  simp only [ListDirectory, lock_guard, EnsureConnectedAndAuthenticated, EnsureConnected,
    World.setMutex, World.call, Bool.false_eq_true, if_false, if_true, Bool.not_true]
  rcases ch.List remotePath chan with ⟨o, c'⟩
  cases o with
  | ret ack =>
    cases hk : (ack.isset_error && ack.error.isset_code) <;>
      simp [hk, Exec.bind, CreateErrorResult, World.after, World.setLastError, convertItems]
  | raise e =>
    cases e with
    | transport t what =>
      by_cases ht : t = .NOT_OPEN ∨ t = .END_OF_FILE <;>
        simp [Exec.bind, World.after, catchClauses, HandleTransportException, ht,
          World.setLastError, World.setConnected, World.setAuthenticated]
    | thrift what => rfl
    | standard what => rfl
    | unknown => rfl

theorem Ping_ready {σ : Type} (ch : Channel σ) (w : World σ)
    (hm : w.client.m_mutex = false) (hc : w.client.m_isConnected = true)
    (hcl : w.client.m_client = true) :
    Ping ch w =
      match ch.Ping w.chan with
      | (.ret result, c) => .returns (result, w.after .Ping c)
      | (.raise e, c) => .returns (-1, catchClauses e (w.after .Ping c)) := by
  obtain ⟨⟨m, c, a, p, ai, le, cl⟩, chan, calls⟩ := w
  simp only at hm hc hcl
  subst hm hc hcl
  simp only [Ping, lock_guard, EnsureConnected, World.setMutex, World.call,
    Bool.false_eq_true, if_false, if_true, Bool.not_true]
  rcases ch.Ping chan with ⟨o, c'⟩
  cases o with
  | ret result => rfl
  | raise e =>
    cases e with
    | transport t what =>
      by_cases ht : t = .NOT_OPEN ∨ t = .END_OF_FILE <;>
        simp [Exec.bind, World.after, catchClauses, HandleTransportException, ht,
          World.setLastError, World.setConnected, World.setAuthenticated]
    | thrift what => rfl
    | standard what => rfl
    | unknown => rfl

theorem sentFile_name (fileData : WfsFileData) : (sentFile fileData).name = fileData.name := by
  unfold sentFile
  split <;> rfl

theorem sentFile_data (fileData : WfsFileData) : (sentFile fileData).data = fileData.data := by
  unfold sentFile
  split <;> rfl

/-! ## Data-plane operations on an authenticated session -/

/-- C6: round trip. On an authenticated session, against a channel whose `Append` acknowledges
every blob with `ok` and whose `Get`, asked for the name of the blob just stored, returns that
blob's data, `UploadFile` of the blob (name `n`, data `d`, any compression flag) followed by
`DownloadFile n` both return success, and the downloaded data is exactly `d`, whatever the
output buffer held before. -/
theorem C6_upload_download_round_trip {σ : Type} (ch : Channel σ) (w : World σ)
    (n d : String) (compress : Int) (outData : String)
    (hcon : IsConnected w = .returns (true, w))
    (hauth : IsAuthenticated w = .returns (true, w)) (hcl : w.client.m_client = true)
    (hAppend : ∀ wf c, ∃ ack, (ch.Append wf c).1 = .ret ack ∧ ack.ok = true)
    (hGet : ∀ wf c, (ch.Get wf.name (ch.Append wf c).2).1
      = .ret { data := wf.data, isset_data := true }) :
    ∃ w1 w2,
      UploadFile ch { name := n, data := d, compress := compress } w
        = .returns (WfsResult.Success, w1) ∧
      DownloadFile ch n outData w1 = .returns ((WfsResult.Success, d), w2) := by
  obtain ⟨hm, hc⟩ := (IsConnected_returns w true).1 hcon
  obtain ⟨-, ha⟩ := (IsAuthenticated_returns w true).1 hauth
  generalize hfd : ({ name := n, data := d, compress := compress } : WfsFileData) = fd
  have hname : (sentFile fd).name = n := by rw [sentFile_name, ← hfd]
  have hdata : (sentFile fd).data = d := by rw [sentFile_data, ← hfd]
  obtain ⟨ack, hA, hok⟩ := hAppend (sentFile fd) w.chan
  have hG := hGet (sentFile fd) w.chan
  rw [hname, hdata] at hG
  rw [UploadFile_ready ch fd w hm hc ha hcl]
  rcases hApp : ch.Append (sentFile fd) w.chan with ⟨o, c1⟩
  rw [hApp] at hA hG
  simp only at hA hG
  subst hA
  simp only [hok, if_true]
  rcases hGt : ch.Get n c1 with ⟨o2, c2⟩
  rw [hGt] at hG
  simp only at hG
  subst hG
  refine ⟨_, (w.after (.Append (sentFile fd)) c1).after (.Get n) c2, rfl, ?_⟩
  rw [DownloadFile_ready ch n outData (w.after (.Append (sentFile fd)) c1) hm hc ha hcl]
  simp only [World.after, hGt, if_true]

/-- Witness for C6: the stub that stores the last blob, with "a.txt" and "hello". -/
theorem C6_witness :
    IsConnected (World.connected (none : Option WfsFile) true 3)
      = .returns (true, World.connected none true 3) ∧
    IsAuthenticated (World.connected (none : Option WfsFile) true 3)
      = .returns (true, World.connected none true 3) ∧
    ∃ w1 w2,
      UploadFile lastBlobStub { name := "a.txt", data := "hello", compress := 0 }
          (World.connected none true 3)
        = .returns (WfsResult.Success, w1) ∧
      DownloadFile lastBlobStub "a.txt" "" w1 = .returns ((WfsResult.Success, "hello"), w2) :=
  ⟨rfl, rfl, C6_upload_download_round_trip lastBlobStub (World.connected none true 3)
    "a.txt" "hello" 0 "" rfl rfl rfl (fun _ _ => ⟨_, rfl, rfl⟩) (fun _ _ => rfl)⟩

/-- C7: on an authenticated session, when the channel's `List` returns a listing without an
error (the test `__isset.error && error.__isset.code` is false), `ListDirectory` returns
success; the output path is the path returned by the channel, and the output items are as
many as the channel's and carry, position by position, the channel's name, size, mtime and
isDir, whatever the output listing held before. -/
theorem C7_list_directory_copies_entries {σ : Type} (ch : Channel σ) (w : World σ)
    (remotePath : String) (prior : WfsDirList) (dirList : DirList) (c1 : σ)
    (hcon : IsConnected w = .returns (true, w))
    (hauth : IsAuthenticated w = .returns (true, w)) (hcl : w.client.m_client = true)
    (hList : ch.List remotePath w.chan = (.ret dirList, c1))
    (hnoerr : (dirList.isset_error && dirList.error.isset_code) = false) :
    ∃ out w', ListDirectory ch remotePath prior w = .returns ((WfsResult.Success, out), w') ∧
      out.path = dirList.path ∧
      out.items.length = dirList.items.length ∧
      ∀ (i : Nat) (h1 : i < out.items.length) (h2 : i < dirList.items.length),
        out.items[i].name = dirList.items[i].name ∧
        out.items[i].size = dirList.items[i].size ∧
        out.items[i].mtime = dirList.items[i].mtime ∧
        out.items[i].isDir = dirList.items[i].isDir := by
  obtain ⟨hm, hc⟩ := (IsConnected_returns w true).1 hcon
  obtain ⟨-, ha⟩ := (IsAuthenticated_returns w true).1 hauth
  rw [ListDirectory_ready ch remotePath prior w hm hc ha hcl, hList]
  simp only [hnoerr, Bool.false_eq_true, if_false]
  refine ⟨_, _, rfl, rfl, ?_, ?_⟩
  · simp [convertItems]
  · intro i h1 h2
    simp [convertItems]

/-- Witness for C7: a two-entry listing, not sorted by name, one entry with a negative
modification time, received into an output listing that already holds an item. -/
theorem C7_witness :
    IsConnected (World.connected () true 3) = .returns (true, World.connected () true 3) ∧
    IsAuthenticated (World.connected () true 3) = .returns (true, World.connected () true 3) ∧
    ∃ out w',
      ListDirectory
          (listingChannel
            { path := "/srv/d",
              items := [{ name := "z", size := 7, mtime := -5, isDir := false },
                        { name := "a", size := 0, mtime := 12, isDir := true }] })
          "d" { path := "old", items := [{ name := "stale" }] } (World.connected () true 3)
        = .returns ((WfsResult.Success, out), w') ∧
      out.path = "/srv/d" ∧
      out.items.length = 2 ∧
      ∀ (i : Nat) (h1 : i < out.items.length)
        (h2 : i < [({ name := "z", size := 7, mtime := -5, isDir := false } : DirItem),
                   { name := "a", size := 0, mtime := 12, isDir := true }].length),
        out.items[i].name =
          [({ name := "z", size := 7, mtime := -5, isDir := false } : DirItem),
            { name := "a", size := 0, mtime := 12, isDir := true }][i].name ∧
        out.items[i].size =
          [({ name := "z", size := 7, mtime := -5, isDir := false } : DirItem),
            { name := "a", size := 0, mtime := 12, isDir := true }][i].size ∧
        out.items[i].mtime =
          [({ name := "z", size := 7, mtime := -5, isDir := false } : DirItem),
            { name := "a", size := 0, mtime := 12, isDir := true }][i].mtime ∧
        out.items[i].isDir =
          [({ name := "z", size := 7, mtime := -5, isDir := false } : DirItem),
            { name := "a", size := 0, mtime := 12, isDir := true }][i].isDir :=
  ⟨rfl, rfl, C7_list_directory_copies_entries
    (listingChannel
      { path := "/srv/d",
        items := [{ name := "z", size := 7, mtime := -5, isDir := false },
                  { name := "a", size := 0, mtime := 12, isDir := true }] })
    (World.connected () true 3) "d" { path := "old", items := [{ name := "stale" }] }
    { path := "/srv/d",
      items := [{ name := "z", size := 7, mtime := -5, isDir := false },
                { name := "a", size := 0, mtime := 12, isDir := true }] }
    () rfl rfl rfl rfl rfl⟩

/-! ## Connection management -/

theorem Disconnect_locked {σ : Type} (ch : Channel σ) (w : World σ)
    (hm : w.client.m_mutex = true) : Disconnect ch w = .blocked := by
  simp [Disconnect, lock_guard, hm]

theorem Connect_connected {σ : Type} (ch : Channel σ) (params : WfsConnectionParams)
    (w : World σ) (hc : w.client.m_isConnected = true) : Connect ch params w = .blocked := by
  obtain ⟨⟨m, c, a, p, ai, le, cl⟩, chan, calls⟩ := w
  simp only at hc
  subst hc
  cases m <;> simp [Connect, lock_guard, Disconnect, World.setMutex, Exec.bind]

theorem Reconnect_connected {σ : Type} (ch : Channel σ) (w : World σ)
    (hc : w.client.m_isConnected = true) : Reconnect ch w = .blocked := by
  obtain ⟨⟨m, c, a, p, ai, le, cl⟩, chan, calls⟩ := w
  simp only at hc
  subst hc
  cases m <;> simp [Reconnect, lock_guard, Disconnect, World.setMutex, Exec.bind]

theorem Connect_disconnected {σ : Type} (ch : Channel σ) (params : WfsConnectionParams)
    (w : World σ) (hm : w.client.m_mutex = false) (hc : w.client.m_isConnected = false) :
    Connect ch params w =
      match ch.transportOpen w.chan with
      | (.ret _, c) =>
        .returns (WfsResult.Success,
          ((((w.setParams params).setClient true).after .transportOpen c).setConnected true))
      | (.raise e, c) =>
        .returns
          ((catchClauses e
            (((w.setParams params).setClient true).after .transportOpen c)).client.m_lastError,
          catchClauses e (((w.setParams params).setClient true).after .transportOpen c)) := by
  obtain ⟨⟨m, c, a, p, ai, le, cl⟩, chan, calls⟩ := w
  simp only at hm hc
  subst hm hc
  simp only [Connect, lock_guard, ConnectInternal, World.setMutex, World.setParams,
    World.setClient, World.call, Bool.false_eq_true, if_false]
  rcases ch.transportOpen chan with ⟨o, c'⟩
  cases o with
  | ret u => rfl
  | raise e =>
    cases e with
    | transport t what =>
      by_cases ht : t = .NOT_OPEN ∨ t = .END_OF_FILE <;>
        simp [Exec.bind, World.after, catchClauses, HandleTransportException, ht,
          World.setLastError, World.setConnected, World.setAuthenticated]
    | thrift what => rfl
    | standard what => rfl
    | unknown => rfl

theorem Reconnect_disconnected {σ : Type} (ch : Channel σ)
    (w : World σ) (hm : w.client.m_mutex = false) (hc : w.client.m_isConnected = false) :
    Reconnect ch w =
      match ch.transportOpen w.chan with
      | (.ret _, c) =>
        .returns (WfsResult.Success,
          (((w.setClient true).after .transportOpen c).setConnected true))
      | (.raise e, c) =>
        .returns
          ((catchClauses e ((w.setClient true).after .transportOpen c)).client.m_lastError,
          catchClauses e ((w.setClient true).after .transportOpen c)) := by
  obtain ⟨⟨m, c, a, p, ai, le, cl⟩, chan, calls⟩ := w
  simp only at hm hc
  subst hm hc
  simp only [Reconnect, lock_guard, ConnectInternal, World.setMutex, World.setParams,
    World.setClient, World.call, Bool.false_eq_true, if_false]
  rcases ch.transportOpen chan with ⟨o, c'⟩
  cases o with
  | ret u => rfl
  | raise e =>
    cases e with
    | transport t what =>
      by_cases ht : t = .NOT_OPEN ∨ t = .END_OF_FILE <;>
        simp [Exec.bind, World.after, catchClauses, HandleTransportException, ht,
          World.setLastError, World.setConnected, World.setAuthenticated]
    | thrift what => rfl
    | standard what => rfl
    | unknown => rfl

theorem Authenticate_disconnected {σ : Type} (ch : Channel σ) (authInfo : WfsAuthInfo)
    (w : World σ) (hm : w.client.m_mutex = false) (hc : w.client.m_isConnected = false) :
    Authenticate ch authInfo w =
      .returns (WfsResult.Failure (-1) "Not connected to server",
        w.setLastError (WfsResult.Failure (-1) "Not connected to server")) := by
  obtain ⟨⟨m, c, a, p, ai, le, cl⟩, chan, calls⟩ := w
  simp only at hm hc
  subst hm hc
  rfl

theorem Authenticate_locked {σ : Type} (ch : Channel σ) (authInfo : WfsAuthInfo)
    (w : World σ) (hm : w.client.m_mutex = true) : Authenticate ch authInfo w = .blocked := by
  simp [Authenticate, lock_guard, hm]

/-! ## The last error -/

theorem catchClauses_spec {σ : Type} (e : Thrown) (w : World σ) :
    (catchClauses e w).client.m_lastError.ok = false ∧
      (catchClauses e w).client.m_mutex = w.client.m_mutex ∧
      (catchClauses e w).calls = w.calls ∧ (catchClauses e w).chan = w.chan ∧
      (catchClauses e w).client.m_params = w.client.m_params ∧
      (catchClauses e w).client.m_authInfo = w.client.m_authInfo ∧
      (catchClauses e w).client.m_client = w.client.m_client := by
  cases e with
  | transport t what =>
    simp only [catchClauses, HandleTransportException]
    split <;> exact ⟨rfl, rfl, rfl, rfl, rfl, rfl, rfl⟩
  | thrift what => exact ⟨rfl, rfl, rfl, rfl, rfl, rfl, rfl⟩
  | standard what => exact ⟨rfl, rfl, rfl, rfl, rfl, rfl, rfl⟩
  | unknown => exact ⟨rfl, rfl, rfl, rfl, rfl, rfl, rfl⟩

theorem tracks_success {σ : Type} (w w' : World σ) (hm : w.client.m_mutex = false)
    (hm' : w'.client.m_mutex = false) (hl : w'.client.m_lastError = w.client.m_lastError) :
    LastErrorTracks w w' WfsResult.Success := by
  refine ⟨hm, hm', fun _ => hl, ?_⟩
  intro h
  cases h

theorem tracks_failure {σ : Type} (w w' : World σ) (r : WfsResult)
    (hm : w.client.m_mutex = false) (hm' : w'.client.m_mutex = false)
    (hr : r.ok = false) (hl : w'.client.m_lastError = r) :
    LastErrorTracks w w' r := by
  refine ⟨hm, hm', ?_, fun _ => hl⟩
  intro h
  rw [hr] at h
  cases h

theorem tracks_catch {σ : Type} (w w1 : World σ) (e : Thrown)
    (hm : w.client.m_mutex = false) (hm1 : w1.client.m_mutex = false) :
    LastErrorTracks w (catchClauses e w1) (catchClauses e w1).client.m_lastError := by
  obtain ⟨h1, h2, -⟩ := catchClauses_spec e w1
  exact tracks_failure _ _ _ hm (by rw [h2]; exact hm1) h1 rfl

theorem authLoop_frame {σ : Type} (ch : Channel σ) (auth : WfsAuth) (maxRetries : Int)
    (k : Nat) : ∀ (retry : Int) (w : World σ) (o : Outcome WfsResult) (w' : World σ),
      (maxRetries + 1 - retry).toNat = k →
      authLoop ch auth maxRetries retry w = .returns (o, w') →
      w'.client.m_mutex = w.client.m_mutex ∧
      (∀ r, o = .ret r →
        (r.ok = true → w'.client.m_lastError = w.client.m_lastError) ∧
        (r.ok = false → w'.client.m_lastError = r)) ∧
      (∀ e, o = .raise e → w'.client.m_lastError = w.client.m_lastError) := by
  induction k with
  | zero =>
    intro retry w o w' hk h
    have hgt : ¬ retry ≤ maxRetries := by omega
    rw [authLoop_eq, if_neg hgt] at h
    cases h
    refine ⟨rfl, ?_, ?_⟩
    · intro r hr
      cases hr
      exact ⟨(fun h => by cases h), fun _ => rfl⟩
    · intro e he
      cases he
  | succ k ih =>
    intro retry w o w' hk h
    have hle : retry ≤ maxRetries := by omega
    rw [authLoop_eq, if_pos hle] at h
    by_cases hcl : w.client.m_client = true
    · rw [if_pos hcl] at h
      have hc1 := call_client w (.Auth auth) (ch.Auth auth)
      rcases hC : w.call (.Auth auth) (ch.Auth auth) with ⟨o1, w1⟩
      rw [hC] at hc1 h
      dsimp only at hc1 h
      cases o1 with
      | ret ack =>
        dsimp only at h
        split at h
        · cases h
          refine ⟨(by rw [← hc1]; rfl), ?_, ?_⟩
          · intro r hr
            cases hr
            exact ⟨(fun _ => by rw [← hc1]; rfl), (fun h => by cases h)⟩
          · intro e he
            cases he
        · cases h
          refine ⟨(by rw [← hc1]; rfl), ?_, ?_⟩
          · intro r hr
            cases hr
            exact ⟨(fun h => by cases h), fun _ => rfl⟩
          · intro e he
            cases he
      | raise e1 =>
        cases e1 with
        | transport t what =>
          dsimp only at h
          split at h
          · have hc2 := reopenInPlace_client ch w1
            rcases hR : reopenInPlace ch w1 with ⟨o2, w2⟩
            rw [hR] at hc2 h
            dsimp only at hc2 h
            cases o2 with
            | ret u =>
              dsimp only at h
              obtain ⟨g1, g2, g3⟩ := ih (retry + 1) w2 o w' (by omega) h
              rw [hc2, hc1] at g1 g2 g3
              exact ⟨g1, g2, g3⟩
            | raise e2 =>
              cases e2 with
              | transport t2 what2 =>
                dsimp only at h
                obtain ⟨g1, g2, g3⟩ := ih (retry + 1) (w2.setConnected false) o w' (by omega) h
                simp only [World.setConnected] at g1 g2 g3
                rw [hc2, hc1] at g1 g2 g3
                exact ⟨g1, g2, g3⟩
              | thrift what2 =>
                cases h
                refine ⟨(by rw [hc2, hc1]), (fun r hr => by cases hr), (fun e he => by rw [hc2, hc1])⟩
              | standard what2 =>
                cases h
                refine ⟨(by rw [hc2, hc1]), (fun r hr => by cases hr), (fun e he => by rw [hc2, hc1])⟩
              | unknown =>
                cases h
                refine ⟨(by rw [hc2, hc1]), (fun r hr => by cases hr), (fun e he => by rw [hc2, hc1])⟩
          · cases h
            refine ⟨(by rw [← hc1]; rfl), ?_, ?_⟩
            · intro r hr
              cases hr
              exact ⟨(fun h => by cases h), fun _ => rfl⟩
            · intro e he
              cases he
        | thrift what =>
          cases h
          refine ⟨(by rw [hc1]), (fun r hr => by cases hr), (fun e he => by rw [hc1])⟩
        | standard what =>
          cases h
          refine ⟨(by rw [hc1]), (fun r hr => by cases hr), (fun e he => by rw [hc1])⟩
        | unknown =>
          cases h
          refine ⟨(by rw [hc1]), (fun r hr => by cases hr), (fun e he => by rw [hc1])⟩
    · rw [if_neg hcl] at h
      cases h

theorem UploadFile_tracks {σ : Type} (ch : Channel σ) (fileData : WfsFileData)
    (w w' : World σ) (r : WfsResult)
    (h : UploadFile ch fileData w = .returns (r, w')) :
    LastErrorTracks w w' r := by
  by_cases hready : w.client.m_mutex = false ∧ w.client.m_isConnected = true ∧
      w.client.m_isAuthenticated = true ∧ w.client.m_client = true
  · obtain ⟨hm, hc, ha, hcl⟩ := hready
    rw [UploadFile_ready ch fileData w hm hc ha hcl] at h
    rcases hA : ch.Append (sentFile fileData) w.chan with ⟨o, c⟩
    rw [hA] at h
    cases o with
    | ret ack =>
      dsimp only at h
      split at h
      · cases h
        exact tracks_success _ _ hm hm rfl
      · cases h
        exact tracks_failure _ _ _ hm hm rfl rfl
    | raise e =>
      cases h
      exact tracks_catch _ _ _ hm hm
  · obtain ⟨⟨m, c, a, p, ai, le, cl⟩, chan, calls⟩ := w
    cases m <;> cases c <;> cases a <;> cases cl <;>
      simp at hready <;>
      simp [UploadFile, lock_guard, EnsureConnectedAndAuthenticated, EnsureConnected,
        Exec.bind, World.setMutex, World.setLastError] at h
    all_goals
      obtain ⟨rfl, rfl⟩ := h
      exact tracks_failure _ _ _ rfl rfl rfl rfl

theorem DeleteFile_tracks {σ : Type} (ch : Channel σ) (remotePath : String)
    (w w' : World σ) (r : WfsResult)
    (h : DeleteFile ch remotePath w = .returns (r, w')) :
    LastErrorTracks w w' r := by
  by_cases hready : w.client.m_mutex = false ∧ w.client.m_isConnected = true ∧
      w.client.m_isAuthenticated = true ∧ w.client.m_client = true
  · obtain ⟨hm, hc, ha, hcl⟩ := hready
    rw [DeleteFile_ready ch remotePath w hm hc ha hcl] at h
    rcases hA : ch.Delete remotePath w.chan with ⟨o, c⟩
    rw [hA] at h
    cases o with
    | ret ack =>
      dsimp only at h
      split at h
      · cases h
        exact tracks_success _ _ hm hm rfl
      · cases h
        exact tracks_failure _ _ _ hm hm rfl rfl
    | raise e =>
      cases h
      exact tracks_catch _ _ _ hm hm
  · obtain ⟨⟨m, c, a, p, ai, le, cl⟩, chan, calls⟩ := w
    cases m <;> cases c <;> cases a <;> cases cl <;>
      simp at hready <;>
      simp [DeleteFile, lock_guard, EnsureConnectedAndAuthenticated, EnsureConnected,
        Exec.bind, World.setMutex, World.setLastError] at h
    all_goals
      obtain ⟨rfl, rfl⟩ := h
      exact tracks_failure _ _ _ rfl rfl rfl rfl

theorem RenameFile_tracks {σ : Type} (ch : Channel σ) (oldPath newPath : String)
    (w w' : World σ) (r : WfsResult)
    (h : RenameFile ch oldPath newPath w = .returns (r, w')) :
    LastErrorTracks w w' r := by
  by_cases hready : w.client.m_mutex = false ∧ w.client.m_isConnected = true ∧
      w.client.m_isAuthenticated = true ∧ w.client.m_client = true
  · obtain ⟨hm, hc, ha, hcl⟩ := hready
    rw [RenameFile_ready ch oldPath newPath w hm hc ha hcl] at h
    rcases hA : ch.Rename oldPath newPath w.chan with ⟨o, c⟩
    rw [hA] at h
    cases o with
    | ret ack =>
      dsimp only at h
      split at h
      · cases h
        exact tracks_success _ _ hm hm rfl
      · cases h
        exact tracks_failure _ _ _ hm hm rfl rfl
    | raise e =>
      cases h
      exact tracks_catch _ _ _ hm hm
  · obtain ⟨⟨m, c, a, p, ai, le, cl⟩, chan, calls⟩ := w
    cases m <;> cases c <;> cases a <;> cases cl <;>
      simp at hready <;>
      simp [RenameFile, lock_guard, EnsureConnectedAndAuthenticated, EnsureConnected,
        Exec.bind, World.setMutex, World.setLastError] at h
    all_goals
      obtain ⟨rfl, rfl⟩ := h
      exact tracks_failure _ _ _ rfl rfl rfl rfl

theorem DownloadFile_tracks {σ : Type} (ch : Channel σ) (remotePath outData : String)
    (w w' : World σ) (r : WfsResult) (out : String)
    (h : DownloadFile ch remotePath outData w = .returns ((r, out), w')) :
    LastErrorTracks w w' r := by
  by_cases hready : w.client.m_mutex = false ∧ w.client.m_isConnected = true ∧
      w.client.m_isAuthenticated = true ∧ w.client.m_client = true
  · obtain ⟨hm, hc, ha, hcl⟩ := hready
    rw [DownloadFile_ready ch remotePath outData w hm hc ha hcl] at h
    rcases hA : ch.Get remotePath w.chan with ⟨o, c⟩
    rw [hA] at h
    cases o with
    | ret ack =>
      dsimp only at h
      split at h
      · cases h
        exact tracks_success _ _ hm hm rfl
      · cases h
        exact tracks_failure _ _ _ hm hm rfl rfl
    | raise e =>
      cases h
      exact tracks_catch _ _ _ hm hm
  · obtain ⟨⟨m, c, a, p, ai, le, cl⟩, chan, calls⟩ := w
    cases m <;> cases c <;> cases a <;> cases cl <;>
      simp at hready <;>
      simp [DownloadFile, lock_guard, EnsureConnectedAndAuthenticated, EnsureConnected,
        Exec.bind, World.setMutex, World.setLastError] at h
    all_goals
      obtain ⟨⟨rfl, rfl⟩, rfl⟩ := h
      exact tracks_failure _ _ _ rfl rfl rfl rfl

theorem ListDirectory_tracks {σ : Type} (ch : Channel σ) (remotePath : String) (outDirList : WfsDirList)
    (w w' : World σ) (r : WfsResult) (out : WfsDirList)
    (h : ListDirectory ch remotePath outDirList w = .returns ((r, out), w')) :
    LastErrorTracks w w' r := by
  by_cases hready : w.client.m_mutex = false ∧ w.client.m_isConnected = true ∧
      w.client.m_isAuthenticated = true ∧ w.client.m_client = true
  · obtain ⟨hm, hc, ha, hcl⟩ := hready
    rw [ListDirectory_ready ch remotePath outDirList w hm hc ha hcl] at h
    rcases hA : ch.List remotePath w.chan with ⟨o, c⟩
    rw [hA] at h
    cases o with
    | ret ack =>
      dsimp only at h
      split at h
      · cases h
        exact tracks_failure _ _ _ hm hm rfl rfl
      · cases h
        exact tracks_success _ _ hm hm rfl
    | raise e =>
      cases h
      exact tracks_catch _ _ _ hm hm
  · obtain ⟨⟨m, c, a, p, ai, le, cl⟩, chan, calls⟩ := w
    cases m <;> cases c <;> cases a <;> cases cl <;>
      simp at hready <;>
      simp [ListDirectory, lock_guard, EnsureConnectedAndAuthenticated, EnsureConnected,
        Exec.bind, World.setMutex, World.setLastError] at h
    all_goals
      obtain ⟨⟨rfl, rfl⟩, rfl⟩ := h
      exact tracks_failure _ _ _ rfl rfl rfl rfl

theorem Connect_tracks {σ : Type} (ch : Channel σ) (params : WfsConnectionParams)
    (w w' : World σ) (r : WfsResult) (h : Connect ch params w = .returns (r, w')) :
    LastErrorTracks w w' r := by
  cases hc : w.client.m_isConnected with
  | true =>
    rw [Connect_connected ch params w hc] at h
    cases h
  | false =>
    cases hm : w.client.m_mutex with
    | true =>
      simp [Connect, lock_guard, hm] at h
    | false =>
      rw [Connect_disconnected ch params w hm hc] at h
      rcases hA : ch.transportOpen w.chan with ⟨o, c⟩
      rw [hA] at h
      cases o with
      | ret u =>
        cases h
        exact tracks_success _ _ hm hm rfl
      | raise e =>
        cases h
        exact tracks_catch _ _ _ hm hm

theorem Reconnect_tracks {σ : Type} (ch : Channel σ)
    (w w' : World σ) (r : WfsResult) (h : Reconnect ch w = .returns (r, w')) :
    LastErrorTracks w w' r := by
  cases hc : w.client.m_isConnected with
  | true =>
    rw [Reconnect_connected ch w hc] at h
    cases h
  | false =>
    cases hm : w.client.m_mutex with
    | true =>
      simp [Reconnect, lock_guard, hm] at h
    | false =>
      rw [Reconnect_disconnected ch w hm hc] at h
      rcases hA : ch.transportOpen w.chan with ⟨o, c⟩
      rw [hA] at h
      cases o with
      | ret u =>
        cases h
        exact tracks_success _ _ hm hm rfl
      | raise e =>
        cases h
        exact tracks_catch _ _ _ hm hm

theorem Authenticate_tracks {σ : Type} (ch : Channel σ) (authInfo : WfsAuthInfo)
    (w w' : World σ) (r : WfsResult) (h : Authenticate ch authInfo w = .returns (r, w')) :
    LastErrorTracks w w' r := by
  cases hm : w.client.m_mutex with
  | true =>
    rw [Authenticate_locked ch authInfo w hm] at h
    cases h
  | false =>
    cases hc : w.client.m_isConnected with
    | false =>
      rw [Authenticate_disconnected ch authInfo w hm hc] at h
      cases h
      exact tracks_failure _ _ _ hm hm rfl rfl
    | true =>
      rw [Authenticate_connected ch authInfo w hm hc] at h
      rcases hL : authLoop ch { name := authInfo.username, pwd := authInfo.password }
        w.client.m_params.maxRetries 1 ((w.setMutex true).setAuthInfo authInfo) with x | _ | _
      · obtain ⟨o, w1⟩ := x
        rw [hL] at h
        obtain ⟨g1, g2, g3⟩ := authLoop_frame ch _ _ _ 1 _ o w1 rfl hL
        cases o with
        | ret r1 =>
          cases h
          obtain ⟨g4, g5⟩ := g2 r rfl
          exact ⟨hm, rfl, g4, g5⟩
        | raise e =>
          cases h
          obtain ⟨s1, -⟩ := authCatchClauses_spec e w1
          exact tracks_failure _ _ _ hm rfl s1 rfl
      · rw [hL] at h
        cases h
      · rw [hL] at h
        cases h

theorem kept_of_tracks {σ : Type} (w w' : World σ) (r : WfsResult)
    (h : LastErrorTracks w w' r) (hr : r.ok = true) : LastErrorKept w w' := by
  obtain ⟨hm, hm', hs, -⟩ := h
  refine ⟨w.client.m_lastError.error, GetLastError_free w hm, ?_⟩
  rw [GetLastError_free w' hm', hs hr]

theorem recorded_of_tracks {σ : Type} (w w' : World σ) (r : WfsResult)
    (h : LastErrorTracks w w' r) (hr : r.ok = false) :
    GetLastError w' = .returns (r.error, w') := by
  obtain ⟨-, hm', -, hf⟩ := h
  rw [GetLastError_free w' hm', hf hr]

/-- C8, as amended: after any of `Connect`, `Reconnect`, `Authenticate`, `UploadFile`,
`DownloadFile`, `DeleteFile`, `RenameFile`, `ListDirectory` returns success, `GetLastError`
returns exactly what it returned before that operation (a success never writes
`m_lastError`); on a freshly constructed client that is the empty error (code 0, empty
message). -/
theorem C8_success_leaves_last_error_unchanged {σ : Type} (ch : Channel σ) (w w' : World σ)
    (r : WfsResult) (hok : r.ok = true) :
    (∀ params, Connect ch params w = .returns (r, w') → LastErrorKept w w') ∧
    (Reconnect ch w = .returns (r, w') → LastErrorKept w w') ∧
    (∀ authInfo, Authenticate ch authInfo w = .returns (r, w') → LastErrorKept w w') ∧
    (∀ fileData, UploadFile ch fileData w = .returns (r, w') → LastErrorKept w w') ∧
    (∀ remotePath outData out,
      DownloadFile ch remotePath outData w = .returns ((r, out), w') → LastErrorKept w w') ∧
    (∀ remotePath, DeleteFile ch remotePath w = .returns (r, w') → LastErrorKept w w') ∧
    (∀ oldPath newPath,
      RenameFile ch oldPath newPath w = .returns (r, w') → LastErrorKept w w') ∧
    (∀ remotePath outDirList out,
      ListDirectory ch remotePath outDirList w = .returns ((r, out), w') →
        LastErrorKept w w') ∧
    ∀ chan : σ, GetLastError (World.fresh chan)
      = .returns ({ code := 0, info := "" }, World.fresh chan) :=
  ⟨fun _ h => kept_of_tracks _ _ _ (Connect_tracks _ _ _ _ _ h) hok,
    fun h => kept_of_tracks _ _ _ (Reconnect_tracks _ _ _ _ h) hok,
    fun _ h => kept_of_tracks _ _ _ (Authenticate_tracks _ _ _ _ _ h) hok,
    fun _ h => kept_of_tracks _ _ _ (UploadFile_tracks _ _ _ _ _ h) hok,
    fun _ _ _ h => kept_of_tracks _ _ _ (DownloadFile_tracks _ _ _ _ _ _ _ h) hok,
    fun _ h => kept_of_tracks _ _ _ (DeleteFile_tracks _ _ _ _ _ h) hok,
    fun _ _ h => kept_of_tracks _ _ _ (RenameFile_tracks _ _ _ _ _ _ h) hok,
    fun _ _ _ h => kept_of_tracks _ _ _ (ListDirectory_tracks _ _ _ _ _ _ _ h) hok,
    fun _ => rfl⟩

/-- Witness for C8: `Connect` succeeding on a session whose last error was recorded by an
earlier failure. -/
theorem C8_witness :
    Connect quietChannel {}
        ((World.fresh ()).setLastError (WfsResult.Failure (-1) "Not connected to server"))
      = .returns (WfsResult.Success,
          (((((World.fresh ()).setLastError
            (WfsResult.Failure (-1) "Not connected to server")).setParams {}).setClient
              true).after .transportOpen ()).setConnected true) ∧
    LastErrorKept
      ((World.fresh ()).setLastError (WfsResult.Failure (-1) "Not connected to server"))
      ((((((World.fresh ()).setLastError
        (WfsResult.Failure (-1) "Not connected to server")).setParams {}).setClient
          true).after .transportOpen ()).setConnected true) :=
  ⟨rfl, (C8_success_leaves_last_error_unchanged quietChannel
    ((World.fresh ()).setLastError (WfsResult.Failure (-1) "Not connected to server"))
    ((((((World.fresh ()).setLastError
        (WfsResult.Failure (-1) "Not connected to server")).setParams {}).setClient
          true).after .transportOpen ()).setConnected true)
    WfsResult.Success rfl).1 {} rfl⟩

/-- C8 as stated fails: on a fresh client, `UploadFile` fails with
(-1, "Not connected to server"); the `Connect` that follows returns success, and
`GetLastError` still returns (-1, "Not connected to server"), not the empty error. -/
theorem C8_counterexample :
    ∃ w1 w2 : World Unit,
      UploadFile quietChannel {} (World.fresh ())
        = .returns (WfsResult.Failure (-1) "Not connected to server", w1) ∧
      Connect quietChannel {} w1 = .returns (WfsResult.Success, w2) ∧
      GetLastError w2 = .returns ({ code := -1, info := "Not connected to server" }, w2) ∧
      GetLastError w2 ≠ .returns ({ code := 0, info := "" }, w2) := by
  refine ⟨_, _, rfl, rfl, rfl, ?_⟩
  decide

/-- C9: whenever one of `Connect`, `Reconnect`, `Authenticate`, `UploadFile`, `DownloadFile`,
`DeleteFile`, `RenameFile`, `ListDirectory` returns a failure `r`, from any session state and
against any channel, `GetLastError` called right afterwards returns exactly `r.error` (same
code, same message). -/
theorem C9_failure_is_recorded_as_last_error {σ : Type} (ch : Channel σ) (w w' : World σ)
    (r : WfsResult) (hfail : r.ok = false) :
    (∀ params, Connect ch params w = .returns (r, w') →
      GetLastError w' = .returns (r.error, w')) ∧
    (Reconnect ch w = .returns (r, w') → GetLastError w' = .returns (r.error, w')) ∧
    (∀ authInfo, Authenticate ch authInfo w = .returns (r, w') →
      GetLastError w' = .returns (r.error, w')) ∧
    (∀ fileData, UploadFile ch fileData w = .returns (r, w') →
      GetLastError w' = .returns (r.error, w')) ∧
    (∀ remotePath outData out,
      DownloadFile ch remotePath outData w = .returns ((r, out), w') →
        GetLastError w' = .returns (r.error, w')) ∧
    (∀ remotePath, DeleteFile ch remotePath w = .returns (r, w') →
      GetLastError w' = .returns (r.error, w')) ∧
    (∀ oldPath newPath, RenameFile ch oldPath newPath w = .returns (r, w') →
      GetLastError w' = .returns (r.error, w')) ∧
    (∀ remotePath outDirList out,
      ListDirectory ch remotePath outDirList w = .returns ((r, out), w') →
        GetLastError w' = .returns (r.error, w')) :=
  ⟨fun _ h => recorded_of_tracks _ _ _ (Connect_tracks _ _ _ _ _ h) hfail,
    fun h => recorded_of_tracks _ _ _ (Reconnect_tracks _ _ _ _ h) hfail,
    fun _ h => recorded_of_tracks _ _ _ (Authenticate_tracks _ _ _ _ _ h) hfail,
    fun _ h => recorded_of_tracks _ _ _ (UploadFile_tracks _ _ _ _ _ h) hfail,
    fun _ _ _ h => recorded_of_tracks _ _ _ (DownloadFile_tracks _ _ _ _ _ _ _ h) hfail,
    fun _ h => recorded_of_tracks _ _ _ (DeleteFile_tracks _ _ _ _ _ h) hfail,
    fun _ _ h => recorded_of_tracks _ _ _ (RenameFile_tracks _ _ _ _ _ _ h) hfail,
    fun _ _ _ h => recorded_of_tracks _ _ _ (ListDirectory_tracks _ _ _ _ _ _ _ h) hfail⟩

/-- Witness for C9: `Authenticate` refused with (42, "bad password"). -/
theorem C9_witness :
    Authenticate (rejectingChannel 42 "bad password") {} (World.connected () false 3)
      = .returns (WfsResult.Failure 42 "bad password",
          ((World.connected () false 3).after (.Auth {}) ()).setLastError
            (WfsResult.Failure 42 "bad password")) ∧
    GetLastError (((World.connected () false 3).after (.Auth {}) ()).setLastError
        (WfsResult.Failure 42 "bad password"))
      = .returns ({ code := 42, info := "bad password" },
          ((World.connected () false 3).after (.Auth {}) ()).setLastError
            (WfsResult.Failure 42 "bad password")) := by
  have h : Authenticate (rejectingChannel 42 "bad password") {} (World.connected () false 3)
      = .returns (WfsResult.Failure 42 "bad password",
          ((World.connected () false 3).after (.Auth {}) ()).setLastError
            (WfsResult.Failure 42 "bad password")) := by
    rw [Authenticate_connected _ _ _ rfl rfl, authLoop_eq]
    simp [World.connected, rejectingChannel, quietChannel, World.call, World.setMutex,
      World.setAuthInfo, Exec.bind, World.setLastError, World.setAuthenticated,
      WfsResult.Failure, World.after]
  exact ⟨h, (C9_failure_is_recorded_as_last_error (rejectingChannel 42 "bad password")
    (World.connected () false 3) _ (WfsResult.Failure 42 "bad password") rfl).2.2.1 {} h⟩

/-! ## Connection-invalidating transport failures -/

theorem catchClauses_invalidating {σ : Type} (t : TTransportExceptionType) (what : String)
    (w : World σ) (ht : t = .NOT_OPEN ∨ t = .END_OF_FILE) :
    (catchClauses (.transport t what) w).client.m_isConnected = false ∧
      (catchClauses (.transport t what) w).client.m_isAuthenticated = false := by
  simp only [catchClauses, HandleTransportException, if_pos ht]
  exact ⟨rfl, rfl⟩

/-- C10 fails for `Authenticate`: on a connected session with `maxRetries = 1`, an `Auth`
call that raises `TTransportException(END_OF_FILE)` ends `Authenticate` in the failure
(-1, "Authentication exception: end of file") with `m_isConnected` still true, so
`IsConnected` returns true and a following `Ping` passes the precondition check and calls the
channel. The handler shared by all other operations (`HandleTransportException`) would have
cleared both flags. -/
theorem C10_authenticate_failure_keeps_connected :
    Authenticate deadAuthChannel {} (World.connected () false 1)
      = .returns (WfsResult.Failure (-1) "Authentication exception: end of file",
          { client := { m_isConnected := true, m_isAuthenticated := false, m_client := true,
                        m_params := { maxRetries := 1 },
                        m_lastError :=
                          WfsResult.Failure (-1) "Authentication exception: end of file" },
            chan := (), calls := [.Auth {}] }) ∧
    IsConnected
        ({ client := { m_isConnected := true, m_isAuthenticated := false, m_client := true,
                       m_params := { maxRetries := 1 },
                       m_lastError :=
                         WfsResult.Failure (-1) "Authentication exception: end of file" },
           chan := (), calls := [.Auth {}] } : World Unit)
      = .returns (true,
          { client := { m_isConnected := true, m_isAuthenticated := false, m_client := true,
                        m_params := { maxRetries := 1 },
                        m_lastError :=
                          WfsResult.Failure (-1) "Authentication exception: end of file" },
            chan := (), calls := [.Auth {}] }) ∧
    Ping deadAuthChannel
        ({ client := { m_isConnected := true, m_isAuthenticated := false, m_client := true,
                       m_params := { maxRetries := 1 },
                       m_lastError :=
                         WfsResult.Failure (-1) "Authentication exception: end of file" },
           chan := (), calls := [.Auth {}] } : World Unit)
      = .returns (0,
          { client := { m_isConnected := true, m_isAuthenticated := false, m_client := true,
                        m_params := { maxRetries := 1 },
                        m_lastError :=
                          WfsResult.Failure (-1) "Authentication exception: end of file" },
            chan := (), calls := [.Auth {}, .Ping] }) := by
  refine ⟨?_, rfl, rfl⟩
  rw [Authenticate_connected _ _ _ rfl rfl, authLoop_eq]
  simp [World.connected, deadAuthChannel, quietChannel, World.call, World.setMutex,
    World.setAuthInfo, Exec.bind, World.setLastError, World.setAuthenticated,
    WfsResult.Failure]

/-! ## Translation of channel failures by the data-plane operations -/

theorem catchClauses_transport {σ : Type} (t : TTransportExceptionType) (what : String)
    (w : World σ) :
    (catchClauses (.transport t what) w).client.m_lastError
        = WfsResult.Failure (-1) ("Transport exception: " ++ what) ∧
      (t ≠ .NOT_OPEN → t ≠ .END_OF_FILE →
        (catchClauses (.transport t what) w).client.m_isConnected = w.client.m_isConnected ∧
        (catchClauses (.transport t what) w).client.m_isAuthenticated
          = w.client.m_isAuthenticated) := by
  simp only [catchClauses, HandleTransportException]
  constructor
  · split <;> rfl
  · intro h1 h2
    rw [if_neg (by simp [h1, h2])]
    exact ⟨rfl, rfl⟩

theorem flags_of_fields {σ : Type} (w : World σ) (b1 b2 : Bool)
    (hm : w.client.m_mutex = false) (h1 : w.client.m_isConnected = b1)
    (h2 : w.client.m_isAuthenticated = b2) :
    IsConnected w = .returns (b1, w) ∧ IsAuthenticated w = .returns (b2, w) :=
  ⟨(IsConnected_returns w b1).2 ⟨hm, h1⟩, (IsAuthenticated_returns w b2).2 ⟨hm, h2⟩⟩

theorem catchClauses_other {σ : Type} (pre what : String) (e : Thrown) (w : World σ)
    (he : (e = .thrift what ∧ pre = "Thrift exception: ") ∨
      (e = .standard what ∧ pre = "Standard exception: ")) :
    (catchClauses e w).client.m_lastError = WfsResult.Failure (-1) (pre ++ what) ∧
      (catchClauses e w).client.m_isConnected = w.client.m_isConnected ∧
      (catchClauses e w).client.m_isAuthenticated = w.client.m_isAuthenticated := by
  rcases he with ⟨rfl, rfl⟩ | ⟨rfl, rfl⟩ <;> exact ⟨rfl, rfl, rfl⟩

/-- C11: on an authenticated session, when the channel call of `UploadFile`, `DownloadFile`,
`DeleteFile`, `RenameFile` or `ListDirectory` raises a transport failure with text `what` and
subtype `t`, the operation returns the failure (-1, "Transport exception: " followed by
`what`) (and leaves the caller's output argument alone); if `t` is neither `NOT_OPEN` nor
`END_OF_FILE`, the session is still connected and authenticated afterwards. -/
theorem C11_transport_failure_translation {σ : Type} (ch : Channel σ) (w : World σ)
    (t : TTransportExceptionType) (what : String) (c1 : σ)
    (hcon : IsConnected w = .returns (true, w))
    (hauth : IsAuthenticated w = .returns (true, w)) (hcl : w.client.m_client = true) :
    (∀ fileData, ch.Append (sentFile fileData) w.chan = (.raise (.transport t what), c1) →
      ∃ w', UploadFile ch fileData w
          = .returns (WfsResult.Failure (-1) ("Transport exception: " ++ what), w') ∧
        (t ≠ .NOT_OPEN → t ≠ .END_OF_FILE →
          IsConnected w' = .returns (true, w') ∧ IsAuthenticated w' = .returns (true, w'))) ∧
    (∀ remotePath outData, ch.Get remotePath w.chan = (.raise (.transport t what), c1) →
      ∃ w', DownloadFile ch remotePath outData w
          = .returns ((WfsResult.Failure (-1) ("Transport exception: " ++ what), outData), w') ∧
        (t ≠ .NOT_OPEN → t ≠ .END_OF_FILE →
          IsConnected w' = .returns (true, w') ∧ IsAuthenticated w' = .returns (true, w'))) ∧
    (∀ remotePath, ch.Delete remotePath w.chan = (.raise (.transport t what), c1) →
      ∃ w', DeleteFile ch remotePath w
          = .returns (WfsResult.Failure (-1) ("Transport exception: " ++ what), w') ∧
        (t ≠ .NOT_OPEN → t ≠ .END_OF_FILE →
          IsConnected w' = .returns (true, w') ∧ IsAuthenticated w' = .returns (true, w'))) ∧
    (∀ oldPath newPath,
      ch.Rename oldPath newPath w.chan = (.raise (.transport t what), c1) →
      ∃ w', RenameFile ch oldPath newPath w
          = .returns (WfsResult.Failure (-1) ("Transport exception: " ++ what), w') ∧
        (t ≠ .NOT_OPEN → t ≠ .END_OF_FILE →
          IsConnected w' = .returns (true, w') ∧ IsAuthenticated w' = .returns (true, w'))) ∧
    (∀ remotePath outDirList, ch.List remotePath w.chan = (.raise (.transport t what), c1) →
      ∃ w', ListDirectory ch remotePath outDirList w
          = .returns ((WfsResult.Failure (-1) ("Transport exception: " ++ what), outDirList),
              w') ∧
        (t ≠ .NOT_OPEN → t ≠ .END_OF_FILE →
          IsConnected w' = .returns (true, w') ∧ IsAuthenticated w' = .returns (true, w'))) := by
  obtain ⟨hm, hc⟩ := (IsConnected_returns w true).1 hcon
  obtain ⟨-, ha⟩ := (IsAuthenticated_returns w true).1 hauth
  have key : ∀ (k : Call), 
      (catchClauses (.transport t what) (w.after k c1)).client.m_lastError
        = WfsResult.Failure (-1) ("Transport exception: " ++ what) ∧
      (t ≠ .NOT_OPEN → t ≠ .END_OF_FILE →
        IsConnected (catchClauses (.transport t what) (w.after k c1))
          = .returns (true, catchClauses (.transport t what) (w.after k c1)) ∧
        IsAuthenticated (catchClauses (.transport t what) (w.after k c1))
          = .returns (true, catchClauses (.transport t what) (w.after k c1))) := by
    intro k
    obtain ⟨e1, e2⟩ := catchClauses_transport t what (w.after k c1)
    obtain ⟨-, e3, -⟩ := catchClauses_spec (.transport t what) (w.after k c1)
    refine ⟨e1, fun h1 h2 => ?_⟩
    obtain ⟨e4, e5⟩ := e2 h1 h2
    exact flags_of_fields _ _ _ (e3.trans hm) (e4.trans hc) (e5.trans ha)
  refine ⟨?_, ?_, ?_, ?_, ?_⟩
  · intro fileData h
    rw [UploadFile_ready ch fileData w hm hc ha hcl, h]
    dsimp only
    rw [(key (.Append (sentFile fileData))).1]
    exact ⟨_, rfl, (key _).2⟩
  · intro remotePath outData h
    rw [DownloadFile_ready ch remotePath outData w hm hc ha hcl, h]
    dsimp only
    rw [(key (.Get remotePath)).1]
    exact ⟨_, rfl, (key _).2⟩
  · intro remotePath h
    rw [DeleteFile_ready ch remotePath w hm hc ha hcl, h]
    dsimp only
    rw [(key (.Delete remotePath)).1]
    exact ⟨_, rfl, (key _).2⟩
  · intro oldPath newPath h
    rw [RenameFile_ready ch oldPath newPath w hm hc ha hcl, h]
    dsimp only
    rw [(key (.Rename oldPath newPath)).1]
    exact ⟨_, rfl, (key _).2⟩
  · intro remotePath outDirList h
    rw [ListDirectory_ready ch remotePath outDirList w hm hc ha hcl, h]
    dsimp only
    rw [(key (.List remotePath)).1]
    exact ⟨_, rfl, (key _).2⟩

/-- Witness for C11: `UploadFile` against a channel whose calls time out. -/
theorem C11_witness :
    IsConnected (World.connected () true 3) = .returns (true, World.connected () true 3) ∧
    IsAuthenticated (World.connected () true 3) = .returns (true, World.connected () true 3) ∧
    ∃ w', UploadFile (throwingChannel (.transport .TIMED_OUT "timed out")) {}
          (World.connected () true 3)
        = .returns (WfsResult.Failure (-1) ("Transport exception: " ++ "timed out"), w') ∧
      IsConnected w' = .returns (true, w') ∧ IsAuthenticated w' = .returns (true, w') := by
  obtain ⟨w', h1, h2⟩ :=
    (C11_transport_failure_translation (throwingChannel (.transport .TIMED_OUT "timed out"))
      (World.connected () true 3) .TIMED_OUT "timed out" () rfl rfl rfl).1 {} rfl
  exact ⟨rfl, rfl, w', h1, h2 (by decide) (by decide)⟩

/-- C12: when the channel call of `UploadFile`, `DownloadFile`, `DeleteFile`, `RenameFile`,
`ListDirectory` (on an authenticated session) or `Ping` (on a connected session) raises a
protocol-level failure with text `what`, the failure returned (for `Ping`: the sentinel -1 is
returned and the failure is recorded as last error) is (-1, "Thrift exception: " followed by
`what`); when it raises a generic failure, it is (-1, "Standard exception: " followed by
`what`); in both cases `IsConnected` and `IsAuthenticated` are as before the call. -/
theorem C12_protocol_and_generic_failure_translation {σ : Type} (ch : Channel σ)
    (w : World σ) (pre what : String) (e : Thrown) (c1 : σ)
    (he : (e = .thrift what ∧ pre = "Thrift exception: ") ∨
      (e = .standard what ∧ pre = "Standard exception: "))
    (hcon : IsConnected w = .returns (true, w)) (hcl : w.client.m_client = true) :
    (IsAuthenticated w = .returns (true, w) →
      (∀ fileData, ch.Append (sentFile fileData) w.chan = (.raise e, c1) →
        ∃ w', UploadFile ch fileData w
            = .returns (WfsResult.Failure (-1) (pre ++ what), w') ∧
          IsConnected w' = .returns (true, w') ∧ IsAuthenticated w' = .returns (true, w')) ∧
      (∀ remotePath outData, ch.Get remotePath w.chan = (.raise e, c1) →
        ∃ w', DownloadFile ch remotePath outData w
            = .returns ((WfsResult.Failure (-1) (pre ++ what), outData), w') ∧
          IsConnected w' = .returns (true, w') ∧ IsAuthenticated w' = .returns (true, w')) ∧
      (∀ remotePath, ch.Delete remotePath w.chan = (.raise e, c1) →
        ∃ w', DeleteFile ch remotePath w
            = .returns (WfsResult.Failure (-1) (pre ++ what), w') ∧
          IsConnected w' = .returns (true, w') ∧ IsAuthenticated w' = .returns (true, w')) ∧
      (∀ oldPath newPath, ch.Rename oldPath newPath w.chan = (.raise e, c1) →
        ∃ w', RenameFile ch oldPath newPath w
            = .returns (WfsResult.Failure (-1) (pre ++ what), w') ∧
          IsConnected w' = .returns (true, w') ∧ IsAuthenticated w' = .returns (true, w')) ∧
      (∀ remotePath outDirList, ch.List remotePath w.chan = (.raise e, c1) →
        ∃ w', ListDirectory ch remotePath outDirList w
            = .returns ((WfsResult.Failure (-1) (pre ++ what), outDirList), w') ∧
          IsConnected w' = .returns (true, w') ∧ IsAuthenticated w' = .returns (true, w'))) ∧
    (∀ b, IsAuthenticated w = .returns (b, w) → ch.Ping w.chan = (.raise e, c1) →
      ∃ w', Ping ch w = .returns (-1, w') ∧
        GetLastError w' = .returns ({ code := -1, info := pre ++ what }, w') ∧
        IsConnected w' = .returns (true, w') ∧ IsAuthenticated w' = .returns (b, w')) := by
  obtain ⟨hm, hc⟩ := (IsConnected_returns w true).1 hcon
  have key : ∀ (k : Call) (b : Bool), w.client.m_isAuthenticated = b →
      (catchClauses e (w.after k c1)).client.m_lastError
        = WfsResult.Failure (-1) (pre ++ what) ∧
      (catchClauses e (w.after k c1)).client.m_mutex = false ∧
      IsConnected (catchClauses e (w.after k c1))
        = .returns (true, catchClauses e (w.after k c1)) ∧
      IsAuthenticated (catchClauses e (w.after k c1))
        = .returns (b, catchClauses e (w.after k c1)) := by
    intro k b hb
    obtain ⟨e1, e4, e5⟩ := catchClauses_other pre what e (w.after k c1) he
    obtain ⟨-, e3, -⟩ := catchClauses_spec e (w.after k c1)
    exact ⟨e1, e3.trans hm, flags_of_fields _ _ _ (e3.trans hm) (e4.trans hc) (e5.trans hb)⟩
  refine ⟨?_, ?_⟩
  · intro hauth
    obtain ⟨-, ha⟩ := (IsAuthenticated_returns w true).1 hauth
    refine ⟨?_, ?_, ?_, ?_, ?_⟩
    · intro fileData h
      rw [UploadFile_ready ch fileData w hm hc ha hcl, h]
      dsimp only
      rw [(key (.Append (sentFile fileData)) true ha).1]
      exact ⟨_, rfl, (key _ true ha).2.2⟩
    · intro remotePath outData h
      rw [DownloadFile_ready ch remotePath outData w hm hc ha hcl, h]
      dsimp only
      rw [(key (.Get remotePath) true ha).1]
      exact ⟨_, rfl, (key _ true ha).2.2⟩
    · intro remotePath h
      rw [DeleteFile_ready ch remotePath w hm hc ha hcl, h]
      dsimp only
      rw [(key (.Delete remotePath) true ha).1]
      exact ⟨_, rfl, (key _ true ha).2.2⟩
    · intro oldPath newPath h
      rw [RenameFile_ready ch oldPath newPath w hm hc ha hcl, h]
      dsimp only
      rw [(key (.Rename oldPath newPath) true ha).1]
      exact ⟨_, rfl, (key _ true ha).2.2⟩
    · intro remotePath outDirList h
      rw [ListDirectory_ready ch remotePath outDirList w hm hc ha hcl, h]
      dsimp only
      rw [(key (.List remotePath) true ha).1]
      exact ⟨_, rfl, (key _ true ha).2.2⟩
  · intro b hb h
    obtain ⟨-, ha⟩ := (IsAuthenticated_returns w b).1 hb
    rw [Ping_ready ch w hm hc hcl, h]
    dsimp only
    obtain ⟨k1, k2, k3⟩ := key .Ping b ha
    refine ⟨_, rfl, ?_, k3⟩
    rw [GetLastError_free _ k2, k1]
    rfl

/-- Witness for C12: `Ping` on a connected, unauthenticated session against a channel whose
calls throw a protocol-level failure. -/
theorem C12_witness :
    IsConnected (World.connected () false 3) = .returns (true, World.connected () false 3) ∧
    IsAuthenticated (World.connected () false 3)
      = .returns (false, World.connected () false 3) ∧
    ∃ w', Ping (throwingChannel (.thrift "bad frame")) (World.connected () false 3)
        = .returns (-1, w') ∧
      GetLastError w'
        = .returns ({ code := -1, info := "Thrift exception: " ++ "bad frame" }, w') ∧
      IsConnected w' = .returns (true, w') ∧ IsAuthenticated w' = .returns (false, w') :=
  ⟨rfl, rfl,
    (C12_protocol_and_generic_failure_translation (throwingChannel (.thrift "bad frame"))
      (World.connected () false 3) "Thrift exception: " "bad frame" (.thrift "bad frame") ()
      (Or.inl ⟨rfl, rfl⟩) rfl rfl).2 false rfl rfl⟩

/-- C13: on an authenticated session, when the channel call of `UploadFile`, `DeleteFile` or
`RenameFile` returns an acknowledgement with `ok = false`, error code `c` and message `m`, or
the channel call of `ListDirectory` returns a listing whose error is set with code `c` and
message `m`, the operation returns the failure carrying exactly `c` and `m`, and the session
is still connected and authenticated afterwards. -/
theorem C13_negative_ack_passed_through {σ : Type} (ch : Channel σ) (w : World σ)
    (c : Int) (m : String) (c1 : σ)
    (hcon : IsConnected w = .returns (true, w))
    (hauth : IsAuthenticated w = .returns (true, w)) (hcl : w.client.m_client = true) :
    (∀ fileData ack, ch.Append (sentFile fileData) w.chan = (.ret ack, c1) →
      ack.ok = false → ack.error.code = c → ack.error.info = m →
      ∃ w', UploadFile ch fileData w = .returns (WfsResult.Failure c m, w') ∧
        IsConnected w' = .returns (true, w') ∧ IsAuthenticated w' = .returns (true, w')) ∧
    (∀ remotePath ack, ch.Delete remotePath w.chan = (.ret ack, c1) →
      ack.ok = false → ack.error.code = c → ack.error.info = m →
      ∃ w', DeleteFile ch remotePath w = .returns (WfsResult.Failure c m, w') ∧
        IsConnected w' = .returns (true, w') ∧ IsAuthenticated w' = .returns (true, w')) ∧
    (∀ oldPath newPath ack, ch.Rename oldPath newPath w.chan = (.ret ack, c1) →
      ack.ok = false → ack.error.code = c → ack.error.info = m →
      ∃ w', RenameFile ch oldPath newPath w = .returns (WfsResult.Failure c m, w') ∧
        IsConnected w' = .returns (true, w') ∧ IsAuthenticated w' = .returns (true, w')) ∧
    (∀ remotePath outDirList dirList, ch.List remotePath w.chan = (.ret dirList, c1) →
      dirList.isset_error = true → dirList.error.isset_code = true →
      dirList.error.code = c → dirList.error.info = m →
      ∃ out w', ListDirectory ch remotePath outDirList w
          = .returns ((WfsResult.Failure c m, out), w') ∧
        IsConnected w' = .returns (true, w') ∧ IsAuthenticated w' = .returns (true, w')) := by
  obtain ⟨hm, hc⟩ := (IsConnected_returns w true).1 hcon
  obtain ⟨-, ha⟩ := (IsAuthenticated_returns w true).1 hauth
  have key : ∀ (k : Call) (r : WfsResult),
      IsConnected ((w.after k c1).setLastError r)
        = .returns (true, (w.after k c1).setLastError r) ∧
      IsAuthenticated ((w.after k c1).setLastError r)
        = .returns (true, (w.after k c1).setLastError r) :=
    fun k r => flags_of_fields _ _ _ hm hc ha
  refine ⟨?_, ?_, ?_, ?_⟩
  · intro fileData ack h hno hcode hinfo
    rw [UploadFile_ready ch fileData w hm hc ha hcl, h]
    simp only [hno, Bool.false_eq_true, if_false, hcode, hinfo]
    exact ⟨_, rfl, key _ _⟩
  · intro remotePath ack h hno hcode hinfo
    rw [DeleteFile_ready ch remotePath w hm hc ha hcl, h]
    simp only [hno, Bool.false_eq_true, if_false, hcode, hinfo]
    exact ⟨_, rfl, key _ _⟩
  · intro oldPath newPath ack h hno hcode hinfo
    rw [RenameFile_ready ch oldPath newPath w hm hc ha hcl, h]
    simp only [hno, Bool.false_eq_true, if_false, hcode, hinfo]
    exact ⟨_, rfl, key _ _⟩
  · intro remotePath outDirList dirList h h1 h2 hcode hinfo
    rw [ListDirectory_ready ch remotePath outDirList w hm hc ha hcl, h]
    simp only [h1, h2, Bool.and_self, if_true, hcode, hinfo]
    exact ⟨_, _, rfl, key _ _⟩

/-- Witness for C13: `DeleteFile` and `ListDirectory` refused with (7, "no such file"). -/
theorem C13_witness :
    IsConnected (World.connected () true 3) = .returns (true, World.connected () true 3) ∧
    IsAuthenticated (World.connected () true 3) = .returns (true, World.connected () true 3) ∧
    (∃ w', DeleteFile (refusingChannel 7 "no such file") "a.txt" (World.connected () true 3)
        = .returns (WfsResult.Failure 7 "no such file", w') ∧
      IsConnected w' = .returns (true, w') ∧ IsAuthenticated w' = .returns (true, w')) ∧
    ∃ out w', ListDirectory (refusingChannel 7 "no such file") "d" {}
          (World.connected () true 3)
        = .returns ((WfsResult.Failure 7 "no such file", out), w') ∧
      IsConnected w' = .returns (true, w') ∧ IsAuthenticated w' = .returns (true, w') :=
  ⟨rfl, rfl,
    (C13_negative_ack_passed_through (refusingChannel 7 "no such file")
      (World.connected () true 3) 7 "no such file" () rfl rfl rfl).2.1 "a.txt" _ rfl rfl rfl rfl,
    (C13_negative_ack_passed_through (refusingChannel 7 "no such file")
      (World.connected () true 3) 7 "no such file" () rfl rfl rfl).2.2.2 "d" {} _ rfl rfl rfl
      rfl rfl⟩

/-! ## The session state across operations -/

/-- C14 fails on the code: with the default `maxRetries = 3`, `Connect` and then
`Authenticate` against a server that restarts (first `Auth` raises `END_OF_FILE`, the first
in-place reopen is refused and clears `m_isConnected`, the second `Auth` raises `NOT_OPEN`,
the second reopen succeeds without restoring `m_isConnected`, the third `Auth` is
acknowledged) both return success and leave a session with `IsAuthenticated` true and
`IsConnected` false. -/
theorem C14_authenticated_while_disconnected :
    Connect restartingServerChannel {} (World.fresh (0, false))
      = .returns (WfsResult.Success, sessionConnectedOnce) ∧
    Authenticate restartingServerChannel {} sessionConnectedOnce
      = .returns (WfsResult.Success, sessionAfterRestart) ∧
    IsAuthenticated sessionAfterRestart = .returns (true, sessionAfterRestart) ∧
    IsConnected sessionAfterRestart = .returns (false, sessionAfterRestart) := by
  refine ⟨rfl, ?_, rfl, rfl⟩
  rw [Authenticate_connected _ _ _ rfl rfl]
  simp [authLoop_eq, restartingServerChannel, World.call, World.setMutex, World.setAuthInfo,
    reopenInPlace, Exec.bind, World.setAuthenticated, World.setConnected, WfsResult.Success,
    sessionConnectedOnce, sessionAfterRestart]

theorem catchClauses_stays_disconnected {σ : Type} (e : Thrown) (w : World σ)
    (hc : w.client.m_isConnected = false) :
    (catchClauses e w).client.m_isConnected = false := by
  cases e with
  | transport t what =>
    simp only [catchClauses, HandleTransportException]
    split
    · rfl
    · exact hc
  | thrift what => exact hc
  | standard what => exact hc
  | unknown => exact hc

theorem Connect_outcome {σ : Type} (ch : Channel σ) (params : WfsConnectionParams)
    (w w' : World σ) (r : WfsResult) (h : Connect ch params w = .returns (r, w')) :
    w'.client.m_params = params ∧
      (r.ok = true → w'.client.m_isConnected = true ∧
        w'.client.m_isAuthenticated = w.client.m_isAuthenticated) ∧
      (r.ok = false → w'.client.m_isConnected = false ∧ w'.client.m_lastError = r) := by
  cases hc : w.client.m_isConnected with
  | true =>
    rw [Connect_connected ch params w hc] at h
    cases h
  | false =>
    cases hm : w.client.m_mutex with
    | true => simp [Connect, lock_guard, hm] at h
    | false =>
      rw [Connect_disconnected ch params w hm hc] at h
      rcases hA : ch.transportOpen w.chan with ⟨o, c⟩
      rw [hA] at h
      cases o with
      | ret u =>
        cases h
        refine ⟨rfl, fun _ => ⟨rfl, rfl⟩, ?_⟩
        intro hr
        cases hr
      | raise e =>
        cases h
        obtain ⟨e1, -, -, -, e5, -⟩ :=
          catchClauses_spec e (((w.setParams params).setClient true).after .transportOpen c)
        refine ⟨e5, ?_, fun _ => ⟨catchClauses_stays_disconnected e _ hc, rfl⟩⟩
        intro hr
        rw [e1] at hr
        cases hr

/-- C15 fails on the code: `Connect` on the session left by the scenario of C14 (not
connected, so no teardown runs, yet still flagged authenticated) returns success and the
session is connected with `IsAuthenticated` still true: the authentication of the earlier
connection is carried over. -/
theorem C15_connect_keeps_stale_authentication :
    Connect restartingServerChannel {} sessionAfterRestart
      = .returns (WfsResult.Success, sessionConnectedAgain) ∧
    IsConnected sessionConnectedAgain = .returns (true, sessionConnectedAgain) ∧
    IsAuthenticated sessionConnectedAgain = .returns (true, sessionConnectedAgain) :=
  ⟨rfl, rfl, rfl⟩

theorem Disconnect_free {σ : Type} (ch : Channel σ) (w : World σ)
    (hm : w.client.m_mutex = false) :
    Disconnect ch w =
      .returns ((),
        (((if w.client.m_isConnected && w.client.m_client then
            w.after .transportClose (ch.transportClose w.chan).2
          else w).setConnected false).setAuthenticated false).setClient false) := by
  obtain ⟨⟨m, c, a, p, ai, le, cl⟩, chan, calls⟩ := w
  simp only at hm
  subst hm
  cases c <;> cases cl <;> rfl

/-- C16: on any session whose lock is free (observed with `IsConnected` = `b`), and whatever
the channel's `close` does (return or raise anything), `Disconnect` returns, and afterwards
`IsConnected` and `IsAuthenticated` are false; if the session was not connected no call is
made on the channel; if it was connected (with its client object) exactly one call is made,
the transport's `close`. -/
theorem C16_disconnect_always_tears_down {σ : Type} (ch : Channel σ) (w : World σ) (b : Bool)
    (hobs : IsConnected w = .returns (b, w)) :
    ∃ w', Disconnect ch w = .returns ((), w') ∧
      IsConnected w' = .returns (false, w') ∧ IsAuthenticated w' = .returns (false, w') ∧
      (b = false → w'.calls = w.calls ∧ w'.chan = w.chan) ∧
      (b = true → w.client.m_client = true →
        w'.calls = w.calls ++ [.transportClose] ∧ w'.chan = (ch.transportClose w.chan).2) := by
  obtain ⟨hm, hc⟩ := (IsConnected_returns w b).1 hobs
  rw [Disconnect_free ch w hm]
  refine ⟨_, rfl, ?_, ?_, ?_, ?_⟩
  · refine (IsConnected_returns _ _).2 ⟨?_, rfl⟩
    split <;> exact hm
  · refine (IsAuthenticated_returns _ _).2 ⟨?_, rfl⟩
    split <;> exact hm
  · intro hb
    rw [hb] at hc
    simp [hc, World.setConnected, World.setAuthenticated, World.setClient]
  · intro hb hcl
    rw [hb] at hc
    simp [hc, hcl, World.setConnected, World.setAuthenticated, World.setClient, World.after]

/-- Witness for C16: a connected, authenticated session whose transport `close` throws an
unclassified object. -/
theorem C16_witness :
    IsConnected (World.connected () true 3) = .returns (true, World.connected () true 3) ∧
    ∃ w', Disconnect (throwingChannel .unknown) (World.connected () true 3)
        = .returns ((), w') ∧
      IsConnected w' = .returns (false, w') ∧ IsAuthenticated w' = .returns (false, w') ∧
      w'.calls = (World.connected () true 3).calls ++ [.transportClose] := by
  obtain ⟨w', h1, h2, h3, -, h5⟩ :=
    C16_disconnect_always_tears_down (throwingChannel .unknown) (World.connected () true 3)
      true rfl
  exact ⟨rfl, w', h1, h2, h3, (h5 rfl rfl).1⟩

/-- C17: `Disconnect` is idempotent. On any session whose lock is free, a second
`Disconnect` right after the first returns and leaves the state reached by the first one
exactly as it is: same client object, same channel state and same call log, so no call is
made on the channel. -/
theorem C17_disconnect_idempotent {σ : Type} (ch : Channel σ) (w : World σ) (b : Bool)
    (hobs : IsConnected w = .returns (b, w)) :
    ∃ w1, Disconnect ch w = .returns ((), w1) ∧ Disconnect ch w1 = .returns ((), w1) := by
  obtain ⟨hm, -⟩ := (IsConnected_returns w b).1 hobs
  obtain ⟨⟨m, c, a, p, ai, le, cl⟩, chan, calls⟩ := w
  simp only at hm
  subst hm
  cases c <;> cases cl <;> exact ⟨_, rfl, rfl⟩

/-- Witness for C17: a connected, authenticated session on the quiet channel. -/
theorem C17_witness :
    IsConnected (World.connected () true 3) = .returns (true, World.connected () true 3) ∧
    ∃ w1, Disconnect quietChannel (World.connected () true 3) = .returns ((), w1) ∧
      Disconnect quietChannel w1 = .returns ((), w1) :=
  ⟨rfl, C17_disconnect_idempotent quietChannel (World.connected () true 3) true rfl⟩

/-- C18: `Reconnect` is `Connect` with the stored parameters: for every session state and
every channel, `Reconnect` gives the same outcome (same result, same final state, or the same
failure to return) as `Connect` called with `m_params`; and when it returns, the stored
parameters are unchanged and no `Auth` call has been made. -/
theorem C18_reconnect_is_connect_with_stored_params {σ : Type} (ch : Channel σ)
    (w : World σ) :
    Reconnect ch w = ReconnectSpec ch w ∧
    ∀ r w', Reconnect ch w = .returns (r, w') →
      w'.client.m_params = w.client.m_params ∧ authCalls w'.calls = authCalls w.calls := by
  constructor
  · obtain ⟨⟨m, c, a, p, ai, le, cl⟩, chan, calls⟩ := w
    cases m <;> cases c <;> rfl
  · intro r w' h
    cases hc : w.client.m_isConnected with
    | true =>
      rw [Reconnect_connected ch w hc] at h
      cases h
    | false =>
      cases hm : w.client.m_mutex with
      | true => simp [Reconnect, lock_guard, hm] at h
      | false =>
        rw [Reconnect_disconnected ch w hm hc] at h
        rcases hA : ch.transportOpen w.chan with ⟨o, c⟩
        rw [hA] at h
        cases o with
        | ret u =>
          cases h
          refine ⟨rfl, ?_⟩
          simp [World.setConnected, World.after, World.setClient, authCalls,
            List.countP_append, List.countP_cons, Call.isAuth]
        | raise e =>
          cases h
          obtain ⟨-, -, e3, -, e5, -⟩ := catchClauses_spec e ((w.setClient true).after .transportOpen c)
          refine ⟨e5, ?_⟩
          rw [e3]
          simp [World.after, World.setClient, authCalls,
            List.countP_append, List.countP_cons, Call.isAuth]

/-- Witness for C18: `Reconnect` on a fresh client against the quiet channel. -/
theorem C18_witness :
    Reconnect quietChannel (World.fresh ())
      = .returns (WfsResult.Success,
          (((World.fresh ()).setClient true).after .transportOpen ()).setConnected true) ∧
    ((((World.fresh ()).setClient true).after .transportOpen ()).setConnected
        true).client.m_params = (World.fresh ()).client.m_params ∧
    authCalls ((((World.fresh ()).setClient true).after .transportOpen ()).setConnected
        true).calls = authCalls (World.fresh ()).calls :=
  ⟨rfl, (C18_reconnect_is_connect_with_stored_params quietChannel (World.fresh ())).2 _ _ rfl⟩

/-- C19: on a session that is not connected, `Authenticate`, for every credentials value,
returns the failure (-1, "Not connected to server"), makes no call on the channel, leaves
both flags as they were (so `IsAuthenticated` is not set to true) and leaves the stored
credentials unchanged. -/
theorem C19_authenticate_requires_connection {σ : Type} (ch : Channel σ)
    (authInfo : WfsAuthInfo) (w : World σ) (hdis : IsConnected w = .returns (false, w)) :
    ∃ w', Authenticate ch authInfo w
        = .returns (WfsResult.Failure (-1) "Not connected to server", w') ∧
      SameFlagsNoCall w w' ∧ w'.client.m_authInfo = w.client.m_authInfo := by
  obtain ⟨hm, hc⟩ := (IsConnected_returns w false).1 hdis
  rw [Authenticate_disconnected ch authInfo w hm hc]
  exact ⟨_, rfl, ⟨rfl, rfl, rfl, rfl⟩, rfl⟩

/-- Witness for C19: a fresh client and the credentials ("u", "p"). -/
theorem C19_witness :
    IsConnected (World.fresh ()) = .returns (false, World.fresh ()) ∧
    ∃ w', Authenticate quietChannel { username := "u", password := "p" } (World.fresh ())
        = .returns (WfsResult.Failure (-1) "Not connected to server", w') ∧
      SameFlagsNoCall (World.fresh ()) w' ∧
      w'.client.m_authInfo = (World.fresh ()).client.m_authInfo :=
  ⟨rfl, C19_authenticate_requires_connection quietChannel { username := "u", password := "p" }
    (World.fresh ()) rfl⟩

/-- C20: `Ping` needs only a connection. On a connected session, authenticated or not, whose
channel `Ping` returns `v`, `Ping` returns `v`, the client object is unchanged and the only
call made is that `Ping`; on a session that is not connected it returns -1 without any call
on the channel; when the channel's `Ping` raises anything it returns -1; and the value `Ping`
returns does not depend on the authenticated flag. -/
theorem C20_ping_needs_only_a_connection {σ : Type} (ch : Channel σ) (w : World σ) :
    (∀ v c1, IsConnected w = .returns (true, w) → w.client.m_client = true →
      ch.Ping w.chan = (.ret v, c1) →
      ∃ w', Ping ch w = .returns (v, w') ∧ w'.client = w.client ∧
        w'.calls = w.calls ++ [.Ping]) ∧
    (IsConnected w = .returns (false, w) →
      ∃ w', Ping ch w = .returns (-1, w') ∧ SameFlagsNoCall w w') ∧
    (∀ e c1, IsConnected w = .returns (true, w) → w.client.m_client = true →
      ch.Ping w.chan = (.raise e, c1) → ∃ w', Ping ch w = .returns (-1, w')) ∧
    (∀ b, (Ping ch (w.setAuthenticated b)).bind (fun x => Exec.returns x.1)
      = (Ping ch w).bind (fun x => Exec.returns x.1)) := by
  refine ⟨?_, ?_, ?_, ?_⟩
  · intro v c1 hcon hcl h
    obtain ⟨hm, hc⟩ := (IsConnected_returns w true).1 hcon
    rw [Ping_ready ch w hm hc hcl, h]
    exact ⟨_, rfl, rfl, rfl⟩
  · intro hdis
    obtain ⟨hm, hc⟩ := (IsConnected_returns w false).1 hdis
    obtain ⟨⟨m, c, a, p, ai, le, cl⟩, chan, calls⟩ := w
    simp only at hm hc
    subst hm hc
    exact ⟨_, rfl, rfl, rfl, rfl, rfl⟩
  · intro e c1 hcon hcl h
    obtain ⟨hm, hc⟩ := (IsConnected_returns w true).1 hcon
    rw [Ping_ready ch w hm hc hcl, h]
    exact ⟨_, rfl⟩
  · intro b
    obtain ⟨⟨m, c, a, p, ai, le, cl⟩, chan, calls⟩ := w
    cases m <;> cases c <;> cases cl <;>
      simp only [Ping, lock_guard, EnsureConnected, World.setAuthenticated, World.setMutex,
        World.call, Exec.bind, Bool.false_eq_true, if_false, if_true, Bool.not_true,
        Bool.not_false]
    rcases ch.Ping chan with ⟨o, c'⟩
    cases o <;> rfl

/-- Witness for C20: a connected, unauthenticated session whose channel echoes 5. -/
theorem C20_witness :
    IsConnected (World.connected () false 3) = .returns (true, World.connected () false 3) ∧
    ∃ w', Ping (echoChannel 5) (World.connected () false 3) = .returns (5, w') ∧
      w'.client = (World.connected () false 3).client ∧
      w'.calls = (World.connected () false 3).calls ++ [.Ping] :=
  ⟨rfl, (C20_ping_needs_only_a_connection (echoChannel 5) (World.connected () false 3)).1
    5 () rfl rfl rfl⟩

/-! ## Single call, retry bound and output buffer -/

/-- C22: on an authenticated session, each of `UploadFile`, `DownloadFile`, `DeleteFile`,
`RenameFile` and `ListDirectory` returns and has made exactly one call on the channel, its
own method (`Append`, `Get`, `Delete`, `Rename`, `List`), whatever that call did: the call
log grows by that single entry, with no second attempt and no `close` or `open`. -/
theorem C22_exactly_one_channel_call {σ : Type} (ch : Channel σ) (w : World σ)
    (hcon : IsConnected w = .returns (true, w))
    (hauth : IsAuthenticated w = .returns (true, w)) (hcl : w.client.m_client = true) :
    (∀ fileData, ∃ r w', UploadFile ch fileData w = .returns (r, w') ∧
      w'.calls = w.calls ++ [.Append (sentFile fileData)]) ∧
    (∀ remotePath outData, ∃ r w', DownloadFile ch remotePath outData w = .returns (r, w') ∧
      w'.calls = w.calls ++ [.Get remotePath]) ∧
    (∀ remotePath, ∃ r w', DeleteFile ch remotePath w = .returns (r, w') ∧
      w'.calls = w.calls ++ [.Delete remotePath]) ∧
    (∀ oldPath newPath, ∃ r w', RenameFile ch oldPath newPath w = .returns (r, w') ∧
      w'.calls = w.calls ++ [.Rename oldPath newPath]) ∧
    (∀ remotePath outDirList, ∃ r w',
      ListDirectory ch remotePath outDirList w = .returns (r, w') ∧
      w'.calls = w.calls ++ [.List remotePath]) := by
  obtain ⟨hm, hc⟩ := (IsConnected_returns w true).1 hcon
  obtain ⟨-, ha⟩ := (IsAuthenticated_returns w true).1 hauth
  have key : ∀ (e : Thrown) (k : Call) (c : σ),
      (catchClauses e (w.after k c)).calls = w.calls ++ [k] := by
    intro e k c
    obtain ⟨-, -, e3, -⟩ := catchClauses_spec e (w.after k c)
    rw [e3]
    rfl
  refine ⟨?_, ?_, ?_, ?_, ?_⟩
  · intro fileData
    rw [UploadFile_ready ch fileData w hm hc ha hcl]
    rcases ch.Append (sentFile fileData) w.chan with ⟨o, c⟩
    cases o with
    | ret ack =>
      dsimp only
      split
      · exact ⟨_, _, rfl, rfl⟩
      · exact ⟨_, _, rfl, rfl⟩
    | raise e => exact ⟨_, _, rfl, key _ _ _⟩
  · intro remotePath outData
    rw [DownloadFile_ready ch remotePath outData w hm hc ha hcl]
    rcases ch.Get remotePath w.chan with ⟨o, c⟩
    cases o with
    | ret ack =>
      dsimp only
      split
      · exact ⟨_, _, rfl, rfl⟩
      · exact ⟨_, _, rfl, rfl⟩
    | raise e => exact ⟨_, _, rfl, key _ _ _⟩
  · intro remotePath
    rw [DeleteFile_ready ch remotePath w hm hc ha hcl]
    rcases ch.Delete remotePath w.chan with ⟨o, c⟩
    cases o with
    | ret ack =>
      dsimp only
      split
      · exact ⟨_, _, rfl, rfl⟩
      · exact ⟨_, _, rfl, rfl⟩
    | raise e => exact ⟨_, _, rfl, key _ _ _⟩
  · intro oldPath newPath
    rw [RenameFile_ready ch oldPath newPath w hm hc ha hcl]
    rcases ch.Rename oldPath newPath w.chan with ⟨o, c⟩
    cases o with
    | ret ack =>
      dsimp only
      split
      · exact ⟨_, _, rfl, rfl⟩
      · exact ⟨_, _, rfl, rfl⟩
    | raise e => exact ⟨_, _, rfl, key _ _ _⟩
  · intro remotePath outDirList
    rw [ListDirectory_ready ch remotePath outDirList w hm hc ha hcl]
    rcases ch.List remotePath w.chan with ⟨o, c⟩
    cases o with
    | ret ack =>
      dsimp only
      split
      · exact ⟨_, _, rfl, rfl⟩
      · exact ⟨_, _, rfl, rfl⟩
    | raise e => exact ⟨_, _, rfl, key _ _ _⟩

/-- Witness for C22: `RenameFile` against a channel whose calls raise `NOT_OPEN`. -/
theorem C22_witness :
    IsConnected (World.connected () true 3) = .returns (true, World.connected () true 3) ∧
    IsAuthenticated (World.connected () true 3) = .returns (true, World.connected () true 3) ∧
    ∃ r w', RenameFile (throwingChannel (.transport .NOT_OPEN "not open")) "a" "b"
          (World.connected () true 3) = .returns (r, w') ∧
      w'.calls = (World.connected () true 3).calls ++ [.Rename "a" "b"] :=
  ⟨rfl, rfl, (C22_exactly_one_channel_call (throwingChannel (.transport .NOT_OPEN "not open"))
    (World.connected () true 3) rfl rfl rfl).2.2.2.1 "a" "b"⟩

/-- C26: on a connected session whose stored `maxRetries` is `<= 0`, `Authenticate` makes no
call on the channel and returns the failure
(-1, "Authentication failed, retry limit reached"); afterwards `IsAuthenticated` is false,
whatever it was before, and `IsConnected` is still true. -/
theorem C26_no_attempt_without_retries {σ : Type} (ch : Channel σ) (authInfo : WfsAuthInfo)
    (w : World σ) (hcon : IsConnected w = .returns (true, w))
    (hmax : w.client.m_params.maxRetries ≤ 0) :
    ∃ w', Authenticate ch authInfo w
        = .returns (WfsResult.Failure (-1) "Authentication failed, retry limit reached", w') ∧
      w'.calls = w.calls ∧ w'.chan = w.chan ∧
      IsAuthenticated w' = .returns (false, w') ∧ IsConnected w' = .returns (true, w') := by
  obtain ⟨hm, hc⟩ := (IsConnected_returns w true).1 hcon
  have hgt : ¬ (1 : Int) ≤ w.client.m_params.maxRetries := by omega
  rw [Authenticate_connected ch authInfo w hm hc, authLoop_eq, if_neg hgt]
  refine ⟨_, rfl, rfl, rfl, ?_, ?_⟩
  · exact (IsAuthenticated_returns _ _).2 ⟨rfl, rfl⟩
  · exact (IsConnected_returns _ _).2 ⟨rfl, hc⟩

/-- Witness for C26: an authenticated session with `maxRetries = 0`. -/
theorem C26_witness :
    IsConnected (World.connected () true 0) = .returns (true, World.connected () true 0) ∧
    ∃ w', Authenticate quietChannel {} (World.connected () true 0)
        = .returns (WfsResult.Failure (-1) "Authentication failed, retry limit reached", w') ∧
      w'.calls = (World.connected () true 0).calls ∧
      w'.chan = (World.connected () true 0).chan ∧
      IsAuthenticated w' = .returns (false, w') ∧ IsConnected w' = .returns (true, w') :=
  ⟨rfl, C26_no_attempt_without_retries quietChannel {} (World.connected () true 0) rfl
    (by decide)⟩

/-- C27: on an authenticated session, whenever `DownloadFile` returns a failure the output
buffer handed back is the one passed in; when it returns success the channel's `Get` returned
a reply with its data field set and the buffer is that data; and when `Get` returns a reply
without data field the result is (-1, "Download failed: no data received") with the buffer
unchanged. -/
theorem C27_download_buffer_written_only_on_success {σ : Type} (ch : Channel σ)
    (w : World σ) (remotePath outData : String)
    (hcon : IsConnected w = .returns (true, w))
    (hauth : IsAuthenticated w = .returns (true, w)) (hcl : w.client.m_client = true) :
    (∀ r out w', DownloadFile ch remotePath outData w = .returns ((r, out), w') →
      (r.ok = false → out = outData) ∧
      (r.ok = true → ∃ data c, ch.Get remotePath w.chan = (.ret data, c) ∧
        data.isset_data = true ∧ out = data.data)) ∧
    (∀ data c, ch.Get remotePath w.chan = (.ret data, c) → data.isset_data = false →
      ∃ w', DownloadFile ch remotePath outData w
        = .returns ((WfsResult.Failure (-1) "Download failed: no data received", outData),
            w')) := by
  obtain ⟨hm, hc⟩ := (IsConnected_returns w true).1 hcon
  obtain ⟨-, ha⟩ := (IsAuthenticated_returns w true).1 hauth
  rw [DownloadFile_ready ch remotePath outData w hm hc ha hcl]
  constructor
  · intro r out w' h
    rcases hG : ch.Get remotePath w.chan with ⟨o, c⟩
    rw [hG] at h
    cases o with
    | ret data =>
      dsimp only at h
      split at h
      · cases h
        rename_i hset
        refine ⟨?_, fun _ => ⟨data, c, rfl, hset, rfl⟩⟩
        intro hr
        cases hr
      · cases h
        refine ⟨fun _ => rfl, ?_⟩
        intro hr
        cases hr
    | raise e =>
      cases h
      refine ⟨fun _ => rfl, ?_⟩
      intro hr
      rw [(catchClauses_spec e _).1] at hr
      cases hr
  · intro data c h hno
    rw [h]
    simp only [hno, Bool.false_eq_true, if_false]
    exact ⟨_, rfl⟩

/-- Witness for C27: the quiet channel answers `Get` without a data field. -/
theorem C27_witness :
    IsConnected (World.connected () true 3) = .returns (true, World.connected () true 3) ∧
    IsAuthenticated (World.connected () true 3) = .returns (true, World.connected () true 3) ∧
    ∃ w', DownloadFile quietChannel "a.txt" "old bytes" (World.connected () true 3)
      = .returns ((WfsResult.Failure (-1) "Download failed: no data received", "old bytes"),
          w') :=
  ⟨rfl, rfl, (C27_download_buffer_written_only_on_success quietChannel
    (World.connected () true 3) "a.txt" "old bytes" rfl rfl rfl).2 {} () rfl rfl⟩

/-! ## The stored credentials -/

theorem UploadFile_authInfo {σ : Type} (ch : Channel σ) (fileData : WfsFileData)
    (w w' : World σ) (x : WfsResult)
    (h : UploadFile ch fileData w = .returns (x, w')) :
    w'.client.m_authInfo = w.client.m_authInfo := by
  by_cases hready : w.client.m_mutex = false ∧ w.client.m_isConnected = true ∧
      w.client.m_isAuthenticated = true ∧ w.client.m_client = true
  · obtain ⟨hm, hc, ha, hcl⟩ := hready
    rw [UploadFile_ready ch fileData w hm hc ha hcl] at h
    rcases hA : ch.Append (sentFile fileData) w.chan with ⟨o, c⟩
    rw [hA] at h
    cases o with
    | ret ack =>
      dsimp only at h
      split at h <;> (cases h; rfl)
    | raise e =>
      cases h
      exact (catchClauses_spec e _).2.2.2.2.2.1
  · obtain ⟨⟨m, c, a, p, ai, le, cl⟩, chan, calls⟩ := w
    cases m <;> cases c <;> cases a <;> cases cl <;>
      simp at hready <;>
      simp [UploadFile, lock_guard, EnsureConnectedAndAuthenticated, EnsureConnected,
        Exec.bind, World.setMutex, World.setLastError] at h
    all_goals
      obtain ⟨-, rfl⟩ := h
      rfl

theorem DeleteFile_authInfo {σ : Type} (ch : Channel σ) (remotePath : String)
    (w w' : World σ) (x : WfsResult)
    (h : DeleteFile ch remotePath w = .returns (x, w')) :
    w'.client.m_authInfo = w.client.m_authInfo := by
  by_cases hready : w.client.m_mutex = false ∧ w.client.m_isConnected = true ∧
      w.client.m_isAuthenticated = true ∧ w.client.m_client = true
  · obtain ⟨hm, hc, ha, hcl⟩ := hready
    rw [DeleteFile_ready ch remotePath w hm hc ha hcl] at h
    rcases hA : ch.Delete remotePath w.chan with ⟨o, c⟩
    rw [hA] at h
    cases o with
    | ret ack =>
      dsimp only at h
      split at h <;> (cases h; rfl)
    | raise e =>
      cases h
      exact (catchClauses_spec e _).2.2.2.2.2.1
  · obtain ⟨⟨m, c, a, p, ai, le, cl⟩, chan, calls⟩ := w
    cases m <;> cases c <;> cases a <;> cases cl <;>
      simp at hready <;>
      simp [DeleteFile, lock_guard, EnsureConnectedAndAuthenticated, EnsureConnected,
        Exec.bind, World.setMutex, World.setLastError] at h
    all_goals
      obtain ⟨-, rfl⟩ := h
      rfl

theorem RenameFile_authInfo {σ : Type} (ch : Channel σ) (oldPath newPath : String)
    (w w' : World σ) (x : WfsResult)
    (h : RenameFile ch oldPath newPath w = .returns (x, w')) :
    w'.client.m_authInfo = w.client.m_authInfo := by
  by_cases hready : w.client.m_mutex = false ∧ w.client.m_isConnected = true ∧
      w.client.m_isAuthenticated = true ∧ w.client.m_client = true
  · obtain ⟨hm, hc, ha, hcl⟩ := hready
    rw [RenameFile_ready ch oldPath newPath w hm hc ha hcl] at h
    rcases hA : ch.Rename oldPath newPath w.chan with ⟨o, c⟩
    rw [hA] at h
    cases o with
    | ret ack =>
      dsimp only at h
      split at h <;> (cases h; rfl)
    | raise e =>
      cases h
      exact (catchClauses_spec e _).2.2.2.2.2.1
  · obtain ⟨⟨m, c, a, p, ai, le, cl⟩, chan, calls⟩ := w
    cases m <;> cases c <;> cases a <;> cases cl <;>
      simp at hready <;>
      simp [RenameFile, lock_guard, EnsureConnectedAndAuthenticated, EnsureConnected,
        Exec.bind, World.setMutex, World.setLastError] at h
    all_goals
      obtain ⟨-, rfl⟩ := h
      rfl

theorem DownloadFile_authInfo {σ : Type} (ch : Channel σ) (remotePath outData : String)
    (w w' : World σ) (x : WfsResult × String)
    (h : DownloadFile ch remotePath outData w = .returns (x, w')) :
    w'.client.m_authInfo = w.client.m_authInfo := by
  by_cases hready : w.client.m_mutex = false ∧ w.client.m_isConnected = true ∧
      w.client.m_isAuthenticated = true ∧ w.client.m_client = true
  · obtain ⟨hm, hc, ha, hcl⟩ := hready
    rw [DownloadFile_ready ch remotePath outData w hm hc ha hcl] at h
    rcases hA : ch.Get remotePath w.chan with ⟨o, c⟩
    rw [hA] at h
    cases o with
    | ret ack =>
      dsimp only at h
      split at h <;> (cases h; rfl)
    | raise e =>
      cases h
      exact (catchClauses_spec e _).2.2.2.2.2.1
  · obtain ⟨⟨m, c, a, p, ai, le, cl⟩, chan, calls⟩ := w
    cases m <;> cases c <;> cases a <;> cases cl <;>
      simp at hready <;>
      simp [DownloadFile, lock_guard, EnsureConnectedAndAuthenticated, EnsureConnected,
        Exec.bind, World.setMutex, World.setLastError] at h
    all_goals
      obtain ⟨-, rfl⟩ := h
      rfl

theorem ListDirectory_authInfo {σ : Type} (ch : Channel σ) (remotePath : String) (outDirList : WfsDirList)
    (w w' : World σ) (x : WfsResult × WfsDirList)
    (h : ListDirectory ch remotePath outDirList w = .returns (x, w')) :
    w'.client.m_authInfo = w.client.m_authInfo := by
  by_cases hready : w.client.m_mutex = false ∧ w.client.m_isConnected = true ∧
      w.client.m_isAuthenticated = true ∧ w.client.m_client = true
  · obtain ⟨hm, hc, ha, hcl⟩ := hready
    rw [ListDirectory_ready ch remotePath outDirList w hm hc ha hcl] at h
    rcases hA : ch.List remotePath w.chan with ⟨o, c⟩
    rw [hA] at h
    cases o with
    | ret ack =>
      dsimp only at h
      split at h <;> (cases h; rfl)
    | raise e =>
      cases h
      exact (catchClauses_spec e _).2.2.2.2.2.1
  · obtain ⟨⟨m, c, a, p, ai, le, cl⟩, chan, calls⟩ := w
    cases m <;> cases c <;> cases a <;> cases cl <;>
      simp at hready <;>
      simp [ListDirectory, lock_guard, EnsureConnectedAndAuthenticated, EnsureConnected,
        Exec.bind, World.setMutex, World.setLastError] at h
    all_goals
      obtain ⟨-, rfl⟩ := h
      rfl

theorem Ping_authInfo {σ : Type} (ch : Channel σ) (w w' : World σ) (v : Int)
    (h : Ping ch w = .returns (v, w')) : w'.client.m_authInfo = w.client.m_authInfo := by
  by_cases hready : w.client.m_mutex = false ∧ w.client.m_isConnected = true ∧
      w.client.m_client = true
  · obtain ⟨hm, hc, hcl⟩ := hready
    rw [Ping_ready ch w hm hc hcl] at h
    rcases hA : ch.Ping w.chan with ⟨o, c⟩
    rw [hA] at h
    cases o with
    | ret r =>
      cases h
      rfl
    | raise e =>
      cases h
      exact (catchClauses_spec e _).2.2.2.2.2.1
  · obtain ⟨⟨m, c, a, p, ai, le, cl⟩, chan, calls⟩ := w
    cases m <;> cases c <;> cases cl <;>
      simp at hready <;>
      simp [Ping, lock_guard, EnsureConnected, Exec.bind, World.setMutex,
        World.setLastError] at h
    all_goals
      obtain ⟨-, rfl⟩ := h
      rfl

theorem Connect_authInfo {σ : Type} (ch : Channel σ) (params : WfsConnectionParams)
    (w w' : World σ) (r : WfsResult) (h : Connect ch params w = .returns (r, w')) :
    w'.client.m_authInfo = w.client.m_authInfo := by
  cases hc : w.client.m_isConnected with
  | true =>
    rw [Connect_connected ch params w hc] at h
    cases h
  | false =>
    cases hm : w.client.m_mutex with
    | true => simp [Connect, lock_guard, hm] at h
    | false =>
      rw [Connect_disconnected ch params w hm hc] at h
      rcases hA : ch.transportOpen w.chan with ⟨o, c⟩
      rw [hA] at h
      cases o with
      | ret u =>
        cases h
        rfl
      | raise e =>
        cases h
        exact (catchClauses_spec e _).2.2.2.2.2.1

theorem Reconnect_authInfo {σ : Type} (ch : Channel σ)
    (w w' : World σ) (r : WfsResult) (h : Reconnect ch w = .returns (r, w')) :
    w'.client.m_authInfo = w.client.m_authInfo := by
  cases hc : w.client.m_isConnected with
  | true =>
    rw [Reconnect_connected ch w hc] at h
    cases h
  | false =>
    cases hm : w.client.m_mutex with
    | true => simp [Reconnect, lock_guard, hm] at h
    | false =>
      rw [Reconnect_disconnected ch w hm hc] at h
      rcases hA : ch.transportOpen w.chan with ⟨o, c⟩
      rw [hA] at h
      cases o with
      | ret u =>
        cases h
        rfl
      | raise e =>
        cases h
        exact (catchClauses_spec e _).2.2.2.2.2.1

theorem Disconnect_authInfo {σ : Type} (ch : Channel σ) (w w' : World σ) (u : Unit)
    (h : Disconnect ch w = .returns (u, w')) :
    w'.client.m_authInfo = w.client.m_authInfo := by
  cases hm : w.client.m_mutex with
  | true =>
    rw [Disconnect_locked ch w hm] at h
    cases h
  | false =>
    rw [Disconnect_free ch w hm] at h
    cases h
    simp only [World.setClient, World.setAuthenticated, World.setConnected]
    split <;> rfl

theorem observers_authInfo {σ : Type} (w w' : World σ) :
    (∀ b, IsConnected w = .returns (b, w') → w'.client.m_authInfo = w.client.m_authInfo) ∧
    (∀ b, IsAuthenticated w = .returns (b, w') → w'.client.m_authInfo = w.client.m_authInfo) ∧
    (∀ e, GetLastError w = .returns (e, w') → w'.client.m_authInfo = w.client.m_authInfo) := by
  obtain ⟨⟨m, c, a, p, ai, le, cl⟩, chan, calls⟩ := w
  refine ⟨?_, ?_, ?_⟩ <;> intro b h <;> cases m <;>
    simp [IsConnected, IsAuthenticated, GetLastError, lock_guard, Exec.bind,
      World.setMutex] at h
  all_goals
    obtain ⟨-, rfl⟩ := h
    rfl

theorem authLoop_keeps {σ : Type} (ch : Channel σ) (auth : WfsAuth) (maxRetries : Int)
    (k : Nat) : ∀ (retry : Int) (w : World σ) (o : Outcome WfsResult) (w' : World σ),
      (maxRetries + 1 - retry).toNat = k →
      authLoop ch auth maxRetries retry w = .returns (o, w') →
      w'.client.m_authInfo = w.client.m_authInfo ∧
      w'.client.m_params = w.client.m_params ∧
      w'.client.m_client = w.client.m_client := by
  induction k with
  | zero =>
    intro retry w o w' hk h
    have hgt : ¬ retry ≤ maxRetries := by omega
    rw [authLoop_eq, if_neg hgt] at h
    cases h
    exact ⟨rfl, rfl, rfl⟩
  | succ k ih =>
    intro retry w o w' hk h
    have hle : retry ≤ maxRetries := by omega
    rw [authLoop_eq, if_pos hle] at h
    by_cases hcl : w.client.m_client = true
    · rw [if_pos hcl] at h
      have hc1 := call_client w (.Auth auth) (ch.Auth auth)
      rcases hC : w.call (.Auth auth) (ch.Auth auth) with ⟨o1, w1⟩
      rw [hC] at hc1 h
      dsimp only at hc1 h
      cases o1 with
      | ret ack =>
        dsimp only at h
        split at h <;> (cases h; rw [← hc1]; exact ⟨rfl, rfl, rfl⟩)
      | raise e1 =>
        cases e1 with
        | transport t what =>
          dsimp only at h
          split at h
          · have hc2 := reopenInPlace_client ch w1
            rcases hR : reopenInPlace ch w1 with ⟨o2, w2⟩
            rw [hR] at hc2 h
            dsimp only at hc2 h
            cases o2 with
            | ret u =>
              dsimp only at h
              have g := ih (retry + 1) w2 o w' (by omega) h
              rw [hc2, hc1] at g
              exact g
            | raise e2 =>
              cases e2 with
              | transport t2 what2 =>
                dsimp only at h
                have g := ih (retry + 1) (w2.setConnected false) o w' (by omega) h
                simp only [World.setConnected] at g
                rw [hc2, hc1] at g
                exact g
              | thrift what2 =>
                cases h
                rw [hc2, hc1]
                exact ⟨rfl, rfl, rfl⟩
              | standard what2 =>
                cases h
                rw [hc2, hc1]
                exact ⟨rfl, rfl, rfl⟩
              | unknown =>
                cases h
                rw [hc2, hc1]
                exact ⟨rfl, rfl, rfl⟩
          · cases h
            rw [← hc1]
            exact ⟨rfl, rfl, rfl⟩
        | thrift what =>
          cases h
          rw [hc1]
          exact ⟨rfl, rfl, rfl⟩
        | standard what =>
          cases h
          rw [hc1]
          exact ⟨rfl, rfl, rfl⟩
        | unknown =>
          cases h
          rw [hc1]
          exact ⟨rfl, rfl, rfl⟩
    · rw [if_neg hcl] at h
      cases h

theorem Authenticate_authInfo {σ : Type} (ch : Channel σ) (authInfo : WfsAuthInfo)
    (w w' : World σ) (r : WfsResult) (h : Authenticate ch authInfo w = .returns (r, w')) :
    (w.client.m_isConnected = true → w'.client.m_authInfo = authInfo) ∧
    (w.client.m_isConnected = false → w'.client.m_authInfo = w.client.m_authInfo) := by
  cases hm : w.client.m_mutex with
  | true =>
    rw [Authenticate_locked ch authInfo w hm] at h
    cases h
  | false =>
    cases hc : w.client.m_isConnected with
    | false =>
      rw [Authenticate_disconnected ch authInfo w hm hc] at h
      cases h
      exact ⟨(fun h => by cases h), fun _ => rfl⟩
    | true =>
      refine ⟨fun _ => ?_, (fun h => by cases h)⟩
      rw [Authenticate_connected ch authInfo w hm hc] at h
      rcases hL : authLoop ch { name := authInfo.username, pwd := authInfo.password }
        w.client.m_params.maxRetries 1 ((w.setMutex true).setAuthInfo authInfo) with x | _ | _
      · obtain ⟨o, w1⟩ := x
        rw [hL] at h
        obtain ⟨g1, -, -⟩ := authLoop_keeps ch _ _ _ 1 _ o w1 rfl hL
        cases o with
        | ret r1 =>
          cases h
          exact g1
        | raise e =>
          cases h
          cases e <;> exact g1
      · rw [hL] at h
        cases h
      · rw [hL] at h
        cases h

/-- C23: the stored credentials change only in `Authenticate` on a connected session, where
they become the value supplied whatever the result; `Authenticate` on a session that is not
connected, `Connect`, `Reconnect`, `Disconnect`, `Ping`, the observers `IsConnected`,
`IsAuthenticated`, `GetLastError`, and `UploadFile`, `DownloadFile`, `DeleteFile`,
`RenameFile`, `ListDirectory` all leave them as they were, in every state and against every
channel. -/
theorem C23_credentials_change_only_in_authenticate {σ : Type} (ch : Channel σ)
    (w w' : World σ) :
    (∀ authInfo r, Authenticate ch authInfo w = .returns (r, w') →
      (w.client.m_isConnected = true → w'.client.m_authInfo = authInfo) ∧
      (w.client.m_isConnected = false → w'.client.m_authInfo = w.client.m_authInfo)) ∧
    (∀ params r, Connect ch params w = .returns (r, w') →
      w'.client.m_authInfo = w.client.m_authInfo) ∧
    (∀ r, Reconnect ch w = .returns (r, w') → w'.client.m_authInfo = w.client.m_authInfo) ∧
    (∀ u, Disconnect ch w = .returns (u, w') → w'.client.m_authInfo = w.client.m_authInfo) ∧
    (∀ v, Ping ch w = .returns (v, w') → w'.client.m_authInfo = w.client.m_authInfo) ∧
    (∀ b, IsConnected w = .returns (b, w') → w'.client.m_authInfo = w.client.m_authInfo) ∧
    (∀ b, IsAuthenticated w = .returns (b, w') →
      w'.client.m_authInfo = w.client.m_authInfo) ∧
    (∀ e, GetLastError w = .returns (e, w') → w'.client.m_authInfo = w.client.m_authInfo) ∧
    (∀ fileData r, UploadFile ch fileData w = .returns (r, w') →
      w'.client.m_authInfo = w.client.m_authInfo) ∧
    (∀ remotePath outData x, DownloadFile ch remotePath outData w = .returns (x, w') →
      w'.client.m_authInfo = w.client.m_authInfo) ∧
    (∀ remotePath r, DeleteFile ch remotePath w = .returns (r, w') →
      w'.client.m_authInfo = w.client.m_authInfo) ∧
    (∀ oldPath newPath r, RenameFile ch oldPath newPath w = .returns (r, w') →
      w'.client.m_authInfo = w.client.m_authInfo) ∧
    (∀ remotePath outDirList x, ListDirectory ch remotePath outDirList w = .returns (x, w') →
      w'.client.m_authInfo = w.client.m_authInfo) :=
  ⟨fun _ _ h => Authenticate_authInfo _ _ _ _ _ h,
    fun _ _ h => Connect_authInfo _ _ _ _ _ h,
    fun _ h => Reconnect_authInfo _ _ _ _ h,
    fun _ h => Disconnect_authInfo _ _ _ _ h,
    fun _ h => Ping_authInfo _ _ _ _ h,
    (observers_authInfo w w').1, (observers_authInfo w w').2.1, (observers_authInfo w w').2.2,
    fun _ _ h => UploadFile_authInfo _ _ _ _ _ h,
    fun _ _ _ h => DownloadFile_authInfo _ _ _ _ _ _ h,
    fun _ _ h => DeleteFile_authInfo _ _ _ _ _ h,
    fun _ _ _ h => RenameFile_authInfo _ _ _ _ _ _ h,
    fun _ _ _ h => ListDirectory_authInfo _ _ _ _ _ _ h⟩

/-- Witness for C23: a refused `Authenticate` still stores the credentials ("u", "p"). -/
theorem C23_witness :
    Authenticate (rejectingChannel 42 "bad password") { username := "u", password := "p" }
        (World.connected () false 3)
      = .returns (WfsResult.Failure 42 "bad password",
          (((World.connected () false 3).setAuthInfo { username := "u", password := "p" }).after
            (.Auth { name := "u", pwd := "p" }) ()).setLastError
              (WfsResult.Failure 42 "bad password")) ∧
    ((((World.connected () false 3).setAuthInfo { username := "u", password := "p" }).after
        (.Auth { name := "u", pwd := "p" }) ()).setLastError
          (WfsResult.Failure 42 "bad password")).client.m_authInfo
      = { username := "u", password := "p" } := by
  have h : Authenticate (rejectingChannel 42 "bad password")
      { username := "u", password := "p" } (World.connected () false 3)
      = .returns (WfsResult.Failure 42 "bad password",
          (((World.connected () false 3).setAuthInfo { username := "u", password := "p" }).after
            (.Auth { name := "u", pwd := "p" }) ()).setLastError
              (WfsResult.Failure 42 "bad password")) := by
    rw [Authenticate_connected _ _ _ rfl rfl, authLoop_eq]
    simp [World.connected, rejectingChannel, quietChannel, World.call, World.setMutex,
      World.setAuthInfo, Exec.bind, World.setLastError, World.setAuthenticated,
      WfsResult.Failure, World.after]
  exact ⟨h, ((C23_credentials_change_only_in_authenticate (rejectingChannel 42 "bad password")
    (World.connected () false 3) _).1 _ _ h).1 rfl⟩

/-! ## The retry loop when the reopen fails -/

theorem reopenInPlace_calls {σ : Type} (ch : Channel σ) (w : World σ) :
    ∃ rest, (reopenInPlace ch w).2.calls = w.calls ++ rest := by
  unfold reopenInPlace World.call
  cases (ch.transportClose w.chan).1
  · exact ⟨[.transportClose, .transportOpen], by simp⟩
  · exact ⟨[.transportClose], rfl⟩

theorem reopenInPlace_reopenAttempts {σ : Type} (ch : Channel σ) (w : World σ) :
    reopenAttempts (reopenInPlace ch w).2.calls = reopenAttempts w.calls + 1 := by
  unfold reopenInPlace World.call
  cases (ch.transportClose w.chan).1 <;>
    simp [reopenAttempts, List.countP_append, List.countP_cons, Call.isClose]

theorem authLoop_calls_extend {σ : Type} (ch : Channel σ) (auth : WfsAuth)
    (maxRetries : Int) (k : Nat) :
    ∀ (retry : Int) (w : World σ) (o : Outcome WfsResult) (w' : World σ),
      (maxRetries + 1 - retry).toNat = k →
      authLoop ch auth maxRetries retry w = .returns (o, w') →
      (∃ rest, w'.calls = w.calls ++ rest) ∧
      (retry ≤ maxRetries → ∃ rest, w'.calls = w.calls ++ .Auth auth :: rest) := by
  induction k with
  | zero =>
    intro retry w o w' hk h
    have hgt : ¬ retry ≤ maxRetries := by omega
    rw [authLoop_eq, if_neg hgt] at h
    cases h
    exact ⟨⟨[], by simp [World.setAuthenticated, World.setLastError]⟩, fun h => absurd h hgt⟩
  | succ k ih =>
    intro retry w o w' hk h
    have hle : retry ≤ maxRetries := by omega
    suffices hs : ∃ rest, w'.calls = w.calls ++ .Auth auth :: rest by
      obtain ⟨rest, hrest⟩ := hs
      exact ⟨⟨_, hrest⟩, fun _ => ⟨rest, hrest⟩⟩
    rw [authLoop_eq, if_pos hle] at h
    by_cases hcl : w.client.m_client = true
    · rw [if_pos hcl] at h
      have hc1 := call_calls w (.Auth auth) (ch.Auth auth)
      rcases hC : w.call (.Auth auth) (ch.Auth auth) with ⟨o1, w1⟩
      rw [hC] at hc1 h
      dsimp only at hc1 h
      cases o1 with
      | ret ack =>
        dsimp only at h
        split at h <;> (cases h; exact ⟨[], by simp [World.setAuthenticated, World.setLastError, hc1]⟩)
      | raise e1 =>
        cases e1 with
        | transport t what =>
          dsimp only at h
          split at h
          · obtain ⟨r2, hr2⟩ := reopenInPlace_calls ch w1
            rcases hR : reopenInPlace ch w1 with ⟨o2, w2⟩
            rw [hR] at hr2 h
            dsimp only at hr2 h
            cases o2 with
            | ret u =>
              dsimp only at h
              obtain ⟨⟨r3, hr3⟩, -⟩ := ih (retry + 1) w2 o w' (by omega) h
              exact ⟨r2 ++ r3, by rw [hr3, hr2, hc1]; simp⟩
            | raise e2 =>
              cases e2 with
              | transport t2 what2 =>
                dsimp only at h
                obtain ⟨⟨r3, hr3⟩, -⟩ := ih (retry + 1) (w2.setConnected false) o w' (by omega) h
                simp only [World.setConnected] at hr3
                exact ⟨r2 ++ r3, by rw [hr3, hr2, hc1]; simp⟩
              | thrift what2 =>
                cases h
                exact ⟨r2, by rw [hr2, hc1]; simp⟩
              | standard what2 =>
                cases h
                exact ⟨r2, by rw [hr2, hc1]; simp⟩
              | unknown =>
                cases h
                exact ⟨r2, by rw [hr2, hc1]; simp⟩
          · cases h
            exact ⟨[], by simp [World.setAuthenticated, World.setLastError, hc1]⟩
        | thrift what =>
          cases h
          exact ⟨[], by simp [hc1]⟩
        | standard what =>
          cases h
          exact ⟨[], by simp [hc1]⟩
        | unknown =>
          cases h
          exact ⟨[], by simp [hc1]⟩
    · rw [if_neg hcl] at h
      cases h

theorem authLoop_all_fail {σ : Type} (ch : Channel σ) (auth : WfsAuth) (maxRetries : Int)
    (hauth : ∀ a c, ∃ t what, (ch.Auth a c).1 = .raise (.transport t what))
    (hre : ∀ w : World σ, ∃ t what, (reopenInPlace ch w).1 = .raise (.transport t what))
    (k : Nat) : ∀ (retry : Int) (w : World σ), (maxRetries + 1 - retry).toNat = k + 1 →
      w.client.m_client = true →
      ∃ r w', authLoop ch auth maxRetries retry w = .returns (.ret r, w') ∧
        r.ok = false ∧ w'.client.m_isAuthenticated = false ∧
        w'.client.m_mutex = w.client.m_mutex ∧
        authCalls w'.calls = authCalls w.calls + (k + 1) ∧
        reopenAttempts w'.calls = reopenAttempts w.calls + k ∧
        (1 ≤ k → w'.client.m_isConnected = false) ∧
        (w.client.m_isConnected = false → w'.client.m_isConnected = false) := by
  induction k with
  | zero =>
    intro retry w hk hcl
    have hle : retry ≤ maxRetries := by omega
    have hlt : ¬ retry < maxRetries := by omega
    obtain ⟨t, what, hA⟩ := hauth auth w.chan
    rw [authLoop_eq, if_pos hle, if_pos hcl]
    have hc1 := call_client w (.Auth auth) (ch.Auth auth)
    have hn1 := call_authCalls w (.Auth auth) (ch.Auth auth)
    have hl1 := call_calls w (.Auth auth) (ch.Auth auth)
    have ho1 := call_fst w (.Auth auth) (ch.Auth auth)
    rcases hC : w.call (.Auth auth) (ch.Auth auth) with ⟨o1, w1⟩
    rw [hC] at hc1 hn1 ho1 hl1
    simp only [Call.isAuth, if_true] at hc1 hn1 ho1 hl1
    rw [hA] at ho1
    subst ho1
    dsimp only
    rw [if_neg hlt]
    refine ⟨_, _, rfl, rfl, rfl, ?_, ?_, ?_, ?_, ?_⟩
    · simp only [World.setAuthenticated, World.setLastError]; rw [hc1]
    · simp only [World.setAuthenticated, World.setLastError]; rw [hn1]
    · simp only [World.setAuthenticated, World.setLastError]; rw [hl1]
      simp [reopenAttempts, List.countP_append, List.countP_cons, Call.isClose]
    · intro h; omega
    · intro h
      simp only [World.setAuthenticated, World.setLastError]; rw [hc1]; exact h
  | succ k ih =>
    intro retry w hk hcl
    have hle : retry ≤ maxRetries := by omega
    have hlt : retry < maxRetries := by omega
    obtain ⟨t, what, hA⟩ := hauth auth w.chan
    rw [authLoop_eq, if_pos hle, if_pos hcl]
    have hc1 := call_client w (.Auth auth) (ch.Auth auth)
    have hn1 := call_authCalls w (.Auth auth) (ch.Auth auth)
    have hl1 := call_calls w (.Auth auth) (ch.Auth auth)
    have ho1 := call_fst w (.Auth auth) (ch.Auth auth)
    rcases hC : w.call (.Auth auth) (ch.Auth auth) with ⟨o1, w1⟩
    rw [hC] at hc1 hn1 ho1 hl1
    simp only [Call.isAuth, if_true] at hc1 hn1 ho1 hl1
    rw [hA] at ho1
    subst ho1
    dsimp only
    rw [if_pos hlt]
    have hc2 := reopenInPlace_client ch w1
    have hn2 := reopenInPlace_authCalls ch w1
    have hr2 := reopenInPlace_reopenAttempts ch w1
    obtain ⟨t2, what2, ho2⟩ := hre w1
    rcases hR : reopenInPlace ch w1 with ⟨o, w2⟩
    rw [hR] at hc2 hn2 hr2 ho2
    dsimp only at hc2 hn2 hr2 ho2
    subst ho2
    dsimp only
    obtain ⟨r, w', h1, h2, h3, h4, h5, h6, -, h8⟩ := ih (retry + 1) (w2.setConnected false)
      (by omega) (by simp only [World.setConnected]; rw [hc2, hc1]; exact hcl)
    have hw1 : reopenAttempts w1.calls = reopenAttempts w.calls := by
      rw [hl1]
      simp [reopenAttempts, List.countP_append, List.countP_cons, Call.isClose]
    refine ⟨r, w', h1, h2, h3, ?_, ?_, ?_, fun _ => h8 rfl, fun _ => h8 rfl⟩
    · rw [h4]; simp only [World.setConnected]; rw [hc2, hc1]
    · rw [h5]; simp only [World.setConnected]; rw [hn2, hn1]; omega
    · rw [h6]; simp only [World.setConnected]; rw [hr2, hw1]; omega

/-- C24: in the retry loop, when an `Auth` attempt that is not the last one raises a
transport failure and the in-place reopen that follows raises a transport failure too, the
loop goes on with the next value of `retry` on a session now marked disconnected, and the
next thing it does is another `Auth` call. With `maxRetries = N >= 2` on a connected session,
when every `Auth` and every in-place reopen raises a transport failure, `Authenticate`
returns a failure after exactly `N` `Auth` calls and exactly `N - 1` reopen attempts, and
`IsConnected` and `IsAuthenticated` are false afterwards. -/
theorem C24_retry_continues_after_failed_reopen {σ : Type} (ch : Channel σ) :
    (∀ (auth : WfsAuth) (maxRetries retry : Int) (w w1 w2 : World σ)
        (t t2 : TTransportExceptionType) (what what2 : String),
      retry < maxRetries → w.client.m_client = true →
      w.call (.Auth auth) (ch.Auth auth) = (.raise (.transport t what), w1) →
      reopenInPlace ch w1 = (.raise (.transport t2 what2), w2) →
      authLoop ch auth maxRetries retry w
        = authLoop ch auth maxRetries (retry + 1) (w2.setConnected false) ∧
      (w2.setConnected false).client.m_isConnected = false ∧
      ∀ o w', authLoop ch auth maxRetries (retry + 1) (w2.setConnected false)
          = .returns (o, w') →
        ∃ rest, w'.calls = w2.calls ++ .Auth auth :: rest) ∧
    (∀ (authInfo : WfsAuthInfo) (w : World σ) (N : Nat), 2 ≤ N →
      IsConnected w = .returns (true, w) → w.client.m_client = true →
      w.client.m_params.maxRetries = N →
      (∀ a c, ∃ t what, (ch.Auth a c).1 = .raise (.transport t what)) →
      (∀ x : World σ, ∃ t what, (reopenInPlace ch x).1 = .raise (.transport t what)) →
      ∃ r w', Authenticate ch authInfo w = .returns (r, w') ∧ r.ok = false ∧
        authCalls w'.calls = authCalls w.calls + N ∧
        reopenAttempts w'.calls = reopenAttempts w.calls + (N - 1) ∧
        IsConnected w' = .returns (false, w') ∧
        IsAuthenticated w' = .returns (false, w')) := by
  constructor
  · intro auth maxRetries retry w w1 w2 t t2 what what2 hlt hcl hA hR
    have hle : retry ≤ maxRetries := by omega
    refine ⟨?_, rfl, ?_⟩
    · rw [authLoop_eq ch auth maxRetries retry w, if_pos hle, if_pos hcl, hA]
      dsimp only
      rw [if_pos hlt, hR]
    · intro o w' h
      exact (authLoop_calls_extend ch auth maxRetries _ (retry + 1) (w2.setConnected false)
        o w' rfl h).2 (by omega)
  · intro authInfo w N hN hcon hcl hmax hauth hre
    obtain ⟨hm, hc⟩ := (IsConnected_returns w true).1 hcon
    rw [Authenticate_connected ch authInfo w hm hc, hmax]
    obtain ⟨r, w', h1, h2, h3, h4, h5, h6, h7, -⟩ := authLoop_all_fail ch
      { name := authInfo.username, pwd := authInfo.password } N hauth hre (N - 1) 1
      ((w.setMutex true).setAuthInfo authInfo) (by omega) hcl
    rw [h1]
    refine ⟨r, w'.setMutex false, rfl, h2, ?_, ?_, ?_, ?_⟩
    · show authCalls w'.calls = _
      rw [h5]
      show authCalls w.calls + (N - 1 + 1) = _
      omega
    · exact h6
    · exact (IsConnected_returns _ _).2 ⟨rfl, h7 (by omega)⟩
    · exact (IsAuthenticated_returns _ _).2 ⟨rfl, h3⟩

/-- Witness for C24: three retries against a channel on which `Auth`, `close` and `open` all
raise `NOT_OPEN`; the first loop step and the whole call. -/
theorem C24_witness :
    authLoop deadChannel {} 3 1 (World.connected () false 3)
      = authLoop deadChannel {} 3 (1 + 1)
          ((((World.connected () false 3).after (.Auth {}) ()).after
            .transportClose ()).setConnected false) ∧
    IsConnected (World.connected () false 3) = .returns (true, World.connected () false 3) ∧
    ∃ r w', Authenticate deadChannel {} (World.connected () false 3) = .returns (r, w') ∧
      r.ok = false ∧
      authCalls w'.calls = authCalls (World.connected () false 3).calls + 3 ∧
      reopenAttempts w'.calls = reopenAttempts (World.connected () false 3).calls + (3 - 1) ∧
      IsConnected w' = .returns (false, w') ∧ IsAuthenticated w' = .returns (false, w') :=
  ⟨((C24_retry_continues_after_failed_reopen deadChannel).1 {} 3 1
      (World.connected () false 3) ((World.connected () false 3).after (.Auth {}) ())
      (((World.connected () false 3).after (.Auth {}) ()).after .transportClose ())
      .NOT_OPEN .NOT_OPEN "not open" "not open" (by decide) rfl rfl rfl).1,
    rfl, (C24_retry_continues_after_failed_reopen deadChannel).2 {}
      (World.connected () false 3) 3 (by decide) rfl rfl rfl
      (fun _ _ => ⟨_, _, rfl⟩) (fun _ => ⟨_, _, rfl⟩)⟩

/-! ## Returning to the caller -/

theorem authLoop_returns {σ : Type} (ch : Channel σ) (auth : WfsAuth) (maxRetries : Int)
    (k : Nat) : ∀ (retry : Int) (w : World σ), (maxRetries + 1 - retry).toNat = k →
      w.client.m_client = true → ∃ x, authLoop ch auth maxRetries retry w = .returns x := by
  induction k with
  | zero =>
    intro retry w hk hcl
    have hgt : ¬ retry ≤ maxRetries := by omega
    rw [authLoop_eq, if_neg hgt]
    exact ⟨_, rfl⟩
  | succ k ih =>
    intro retry w hk hcl
    have hle : retry ≤ maxRetries := by omega
    rw [authLoop_eq, if_pos hle, if_pos hcl]
    have hc1 := call_client w (.Auth auth) (ch.Auth auth)
    rcases hC : w.call (.Auth auth) (ch.Auth auth) with ⟨o1, w1⟩
    rw [hC] at hc1
    dsimp only at hc1
    cases o1 with
    | ret ack =>
      dsimp only
      split <;> exact ⟨_, rfl⟩
    | raise e1 =>
      cases e1 with
      | transport t what =>
        dsimp only
        split
        · have hc2 := reopenInPlace_client ch w1
          rcases hR : reopenInPlace ch w1 with ⟨o2, w2⟩
          rw [hR] at hc2
          dsimp only at hc2
          cases o2 with
          | ret u => exact ih (retry + 1) w2 (by omega) (by rw [hc2, hc1]; exact hcl)
          | raise e2 =>
            cases e2 with
            | transport t2 what2 =>
              exact ih (retry + 1) (w2.setConnected false) (by omega)
                (by simp only [World.setConnected]; rw [hc2, hc1]; exact hcl)
            | thrift what2 => exact ⟨_, rfl⟩
            | standard what2 => exact ⟨_, rfl⟩
            | unknown => exact ⟨_, rfl⟩
        · exact ⟨_, rfl⟩
      | thrift what => exact ⟨_, rfl⟩
      | standard what => exact ⟨_, rfl⟩
      | unknown => exact ⟨_, rfl⟩

theorem Authenticate_returns {σ : Type} (ch : Channel σ) (authInfo : WfsAuthInfo)
    (w : World σ) (hm : w.client.m_mutex = false)
    (hwf : w.client.m_isConnected = true → w.client.m_client = true) :
    ∃ x, Authenticate ch authInfo w = .returns x := by
  cases hc : w.client.m_isConnected with
  | false =>
    rw [Authenticate_disconnected ch authInfo w hm hc]
    exact ⟨_, rfl⟩
  | true =>
    rw [Authenticate_connected ch authInfo w hm hc]
    obtain ⟨x, hx⟩ := authLoop_returns ch { name := authInfo.username, pwd := authInfo.password }
      w.client.m_params.maxRetries _ 1 ((w.setMutex true).setAuthInfo authInfo) rfl (hwf hc)
    rw [hx]
    obtain ⟨o, w1⟩ := x
    cases o <;> exact ⟨_, rfl⟩

theorem operations_return {σ : Type} (ch : Channel σ) (w : World σ)
    (hm : w.client.m_mutex = false)
    (hwf : w.client.m_isConnected = true → w.client.m_client = true) :
    (∃ x, Disconnect ch w = .returns x) ∧
    (∀ authInfo, ∃ x, Authenticate ch authInfo w = .returns x) ∧
    (∀ fileData, ∃ x, UploadFile ch fileData w = .returns x) ∧
    (∀ remotePath outData, ∃ x, DownloadFile ch remotePath outData w = .returns x) ∧
    (∀ remotePath, ∃ x, DeleteFile ch remotePath w = .returns x) ∧
    (∀ oldPath newPath, ∃ x, RenameFile ch oldPath newPath w = .returns x) ∧
    (∀ remotePath outDirList, ∃ x, ListDirectory ch remotePath outDirList w = .returns x) ∧
    (∃ x, Ping ch w = .returns x) ∧
    (w.client.m_isConnected = false →
      (∀ params, ∃ x, Connect ch params w = .returns x) ∧
      ∃ x, Reconnect ch w = .returns x) := by
  refine ⟨?_, fun a => Authenticate_returns ch a w hm hwf, ?_, ?_, ?_, ?_, ?_, ?_, ?_⟩
  · rw [Disconnect_free ch w hm]
    exact ⟨_, rfl⟩
  · intro fileData
    by_cases hr : w.client.m_isConnected = true ∧ w.client.m_isAuthenticated = true
    · rw [UploadFile_ready ch fileData w hm hr.1 hr.2 (hwf hr.1)]
      rcases ch.Append (sentFile fileData) w.chan with ⟨o, c⟩
      cases o with
      | ret ack =>
        dsimp only
        split <;> exact ⟨_, rfl⟩
      | raise e => exact ⟨_, rfl⟩
    · obtain ⟨⟨m, c, a, p, ai, le, cl⟩, chan, calls⟩ := w
      simp only at hm
      subst hm
      cases c <;> cases a <;> simp at hr <;> exact ⟨_, rfl⟩
  · intro remotePath outData
    by_cases hr : w.client.m_isConnected = true ∧ w.client.m_isAuthenticated = true
    · rw [DownloadFile_ready ch remotePath outData w hm hr.1 hr.2 (hwf hr.1)]
      rcases ch.Get remotePath w.chan with ⟨o, c⟩
      cases o with
      | ret ack =>
        dsimp only
        split <;> exact ⟨_, rfl⟩
      | raise e => exact ⟨_, rfl⟩
    · obtain ⟨⟨m, c, a, p, ai, le, cl⟩, chan, calls⟩ := w
      simp only at hm
      subst hm
      cases c <;> cases a <;> simp at hr <;> exact ⟨_, rfl⟩
  · intro remotePath
    by_cases hr : w.client.m_isConnected = true ∧ w.client.m_isAuthenticated = true
    · rw [DeleteFile_ready ch remotePath w hm hr.1 hr.2 (hwf hr.1)]
      rcases ch.Delete remotePath w.chan with ⟨o, c⟩
      cases o with
      | ret ack =>
        dsimp only
        split <;> exact ⟨_, rfl⟩
      | raise e => exact ⟨_, rfl⟩
    · obtain ⟨⟨m, c, a, p, ai, le, cl⟩, chan, calls⟩ := w
      simp only at hm
      subst hm
      cases c <;> cases a <;> simp at hr <;> exact ⟨_, rfl⟩
  · intro oldPath newPath
    by_cases hr : w.client.m_isConnected = true ∧ w.client.m_isAuthenticated = true
    · rw [RenameFile_ready ch oldPath newPath w hm hr.1 hr.2 (hwf hr.1)]
      rcases ch.Rename oldPath newPath w.chan with ⟨o, c⟩
      cases o with
      | ret ack =>
        dsimp only
        split <;> exact ⟨_, rfl⟩
      | raise e => exact ⟨_, rfl⟩
    · obtain ⟨⟨m, c, a, p, ai, le, cl⟩, chan, calls⟩ := w
      simp only at hm
      subst hm
      cases c <;> cases a <;> simp at hr <;> exact ⟨_, rfl⟩
  · intro remotePath outDirList
    by_cases hr : w.client.m_isConnected = true ∧ w.client.m_isAuthenticated = true
    · rw [ListDirectory_ready ch remotePath outDirList w hm hr.1 hr.2 (hwf hr.1)]
      rcases ch.List remotePath w.chan with ⟨o, c⟩
      cases o with
      | ret ack =>
        dsimp only
        split <;> exact ⟨_, rfl⟩
      | raise e => exact ⟨_, rfl⟩
    · obtain ⟨⟨m, c, a, p, ai, le, cl⟩, chan, calls⟩ := w
      simp only at hm
      subst hm
      cases c <;> cases a <;> simp at hr <;> exact ⟨_, rfl⟩
  · cases hc : w.client.m_isConnected with
    | true =>
      rw [Ping_ready ch w hm hc (hwf hc)]
      rcases ch.Ping w.chan with ⟨o, c⟩
      cases o <;> exact ⟨_, rfl⟩
    | false =>
      obtain ⟨⟨m, c, a, p, ai, le, cl⟩, chan, calls⟩ := w
      simp only at hm hc
      subst hm hc
      exact ⟨_, rfl⟩
  · intro hc
    constructor
    · intro params
      rw [Connect_disconnected ch params w hm hc]
      rcases ch.transportOpen w.chan with ⟨o, c⟩
      cases o <;> exact ⟨_, rfl⟩
    · rw [Reconnect_disconnected ch w hm hc]
      rcases ch.transportOpen w.chan with ⟨o, c⟩
      cases o <;> exact ⟨_, rfl⟩

/-- C21 fails on the code: `Reconnect` (and `Connect`) on a connected session, here with a
transport whose `close` would throw, never return to the caller: they call the public
`Disconnect` while holding `m_mutex`, and `Disconnect` starts by locking `m_mutex` again.
No failure of the channel is involved, and none ever escapes (see `operations_return`). -/
theorem C21_reconnect_on_connected_session_never_returns :
    IsConnected (World.connected () true 3) = .returns (true, World.connected () true 3) ∧
    Reconnect closeThrowsChannel (World.connected () true 3) = .blocked ∧
    Connect closeThrowsChannel {} (World.connected () true 3) = .blocked :=
  ⟨rfl, rfl, rfl⟩

/-- C25 fails on the code: after a successful `Connect` on a fresh client, a second
`Connect`, or a `Reconnect`, does not return: the `Disconnect` they call finds `m_mutex`
already held by its own caller and blocks on it. -/
theorem C25_connect_relocks_its_own_mutex :
    Connect quietChannel {} (World.fresh ())
      = .returns (WfsResult.Success,
          ((((World.fresh ()).setParams {}).setClient true).after
            .transportOpen ()).setConnected true) ∧
    Connect quietChannel {}
        (((((World.fresh ()).setParams {}).setClient true).after
          .transportOpen ()).setConnected true) = .blocked ∧
    Reconnect quietChannel
        (((((World.fresh ()).setParams {}).setClient true).after
          .transportOpen ()).setConnected true) = .blocked ∧
    Disconnect quietChannel
        ((((((World.fresh ()).setParams {}).setClient true).after
          .transportOpen ()).setConnected true).setMutex true) = .blocked :=
  ⟨rfl, rfl, rfl, rfl⟩


/-! ## The display helper `safeUtf8` -/

/-- One iteration of the loop of `safeUtf8`, on the byte at the current position. -/
theorem safeUtf8_cons (c : UInt8) (rest : List UInt8) :
    utils.safeUtf8 (c :: rest) =
      if c < 0x80 then c :: utils.safeUtf8 rest
      else if c &&& 0xE0 = 0xC0 then
        match rest with
        | c1 :: rest1 =>
          if utils.isContinuation c1 then c :: c1 :: utils.safeUtf8 rest1
          else 0x3F :: utils.safeUtf8 (c1 :: rest1)
        | [] => [0x3F]
      else if c &&& 0xF0 = 0xE0 then
        match rest with
        | c1 :: c2 :: rest2 =>
          if utils.isContinuation c1 && utils.isContinuation c2 then
            c :: c1 :: c2 :: utils.safeUtf8 rest2
          else 0x3F :: utils.safeUtf8 (c1 :: c2 :: rest2)
        | rest => 0x3F :: utils.safeUtf8 rest
      else if c &&& 0xF8 = 0xF0 then
        match rest with
        | c1 :: c2 :: c3 :: rest3 =>
          if utils.isContinuation c1 && utils.isContinuation c2 && utils.isContinuation c3 then
            c :: c1 :: c2 :: c3 :: utils.safeUtf8 rest3
          else 0x3F :: utils.safeUtf8 (c1 :: c2 :: c3 :: rest3)
        | rest => 0x3F :: utils.safeUtf8 rest
      else 0x3F :: utils.safeUtf8 rest := by
  rcases rest with _ | ⟨c1, _ | ⟨c2, _ | ⟨c3, r⟩⟩⟩ <;> rfl

theorem safeUtf8_ascii (c : UInt8) (rest : List UInt8) (h : c < 0x80) :
    utils.safeUtf8 (c :: rest) = c :: utils.safeUtf8 rest := by
  rw [safeUtf8_cons, if_pos h]

theorem safeUtf8_mark (rest : List UInt8) :
    utils.safeUtf8 (0x3F :: rest) = 0x3F :: utils.safeUtf8 rest :=
  safeUtf8_ascii _ _ (by decide)

/-- The five shapes of one loop iteration of `utils.safeUtf8`. -/
theorem safeUtf8_step (c : UInt8) (rest : List UInt8) :
    (c < 0x80 ∧ utils.safeUtf8 (c :: rest) = c :: utils.safeUtf8 rest) ∨
    (¬ c < 0x80 ∧ c &&& 0xE0 = 0xC0 ∧ ∃ c1 r, rest = c1 :: r ∧ utils.isContinuation c1 = true ∧
        utils.safeUtf8 (c :: rest) = c :: c1 :: utils.safeUtf8 r) ∨
    (¬ c < 0x80 ∧ ¬ c &&& 0xE0 = 0xC0 ∧ c &&& 0xF0 = 0xE0 ∧ ∃ c1 c2 r, rest = c1 :: c2 :: r ∧
        utils.isContinuation c1 = true ∧ utils.isContinuation c2 = true ∧
        utils.safeUtf8 (c :: rest) = c :: c1 :: c2 :: utils.safeUtf8 r) ∨
    (¬ c < 0x80 ∧ ¬ c &&& 0xE0 = 0xC0 ∧ ¬ c &&& 0xF0 = 0xE0 ∧ c &&& 0xF8 = 0xF0 ∧
        ∃ c1 c2 c3 r, rest = c1 :: c2 :: c3 :: r ∧
        utils.isContinuation c1 = true ∧ utils.isContinuation c2 = true ∧ utils.isContinuation c3 = true ∧
        utils.safeUtf8 (c :: rest) = c :: c1 :: c2 :: c3 :: utils.safeUtf8 r) ∨
    (¬ c < 0x80 ∧ utils.safeUtf8 (c :: rest) = 0x3F :: utils.safeUtf8 rest) := by
  rw [safeUtf8_cons]
  by_cases h1 : c < 0x80
  · exact Or.inl ⟨h1, by rw [if_pos h1]⟩
  rw [if_neg h1]
  by_cases h2 : c &&& 0xE0 = 0xC0
  · rw [if_pos h2]
    rcases rest with _ | ⟨c1, r⟩
    · exact Or.inr (Or.inr (Or.inr (Or.inr ⟨h1, rfl⟩)))
    · dsimp only
      by_cases k1 : utils.isContinuation c1 = true
      · rw [if_pos k1]
        exact Or.inr (Or.inl ⟨h1, h2, c1, r, rfl, k1, rfl⟩)
      · rw [if_neg k1]
        exact Or.inr (Or.inr (Or.inr (Or.inr ⟨h1, rfl⟩)))
  rw [if_neg h2]
  by_cases h3 : c &&& 0xF0 = 0xE0
  · rw [if_pos h3]
    rcases rest with _ | ⟨c1, _ | ⟨c2, r⟩⟩
    · exact Or.inr (Or.inr (Or.inr (Or.inr ⟨h1, rfl⟩)))
    · exact Or.inr (Or.inr (Or.inr (Or.inr ⟨h1, rfl⟩)))
    · dsimp only
      by_cases k : (utils.isContinuation c1 && utils.isContinuation c2) = true
      · rw [if_pos k]
        rw [Bool.and_eq_true] at k
        exact Or.inr (Or.inr (Or.inl ⟨h1, h2, h3, c1, c2, r, rfl, k.1, k.2, rfl⟩))
      · rw [if_neg k]
        exact Or.inr (Or.inr (Or.inr (Or.inr ⟨h1, rfl⟩)))
  rw [if_neg h3]
  by_cases h4 : c &&& 0xF8 = 0xF0
  · rw [if_pos h4]
    rcases rest with _ | ⟨c1, _ | ⟨c2, _ | ⟨c3, r⟩⟩⟩
    · exact Or.inr (Or.inr (Or.inr (Or.inr ⟨h1, rfl⟩)))
    · exact Or.inr (Or.inr (Or.inr (Or.inr ⟨h1, rfl⟩)))
    · exact Or.inr (Or.inr (Or.inr (Or.inr ⟨h1, rfl⟩)))
    · dsimp only
      by_cases k : (utils.isContinuation c1 && utils.isContinuation c2 && utils.isContinuation c3) = true
      · rw [if_pos k]
        rw [Bool.and_eq_true, Bool.and_eq_true] at k
        exact Or.inr (Or.inr (Or.inr (Or.inl
          ⟨h1, h2, h3, h4, c1, c2, c3, r, rfl, k.1.1, k.1.2, k.2, rfl⟩)))
      · rw [if_neg k]
        exact Or.inr (Or.inr (Or.inr (Or.inr ⟨h1, rfl⟩)))
  rw [if_neg h4]
  exact Or.inr (Or.inr (Or.inr (Or.inr ⟨h1, rfl⟩)))

theorem safeUtf8_two (c c1 : UInt8) (r : List UInt8) (h1 : ¬ c < 0x80) (h2 : c &&& 0xE0 = 0xC0)
    (k1 : utils.isContinuation c1 = true) : utils.safeUtf8 (c :: c1 :: r) = c :: c1 :: utils.safeUtf8 r := by
  rw [safeUtf8_cons, if_neg h1, if_pos h2]
  dsimp only
  rw [if_pos k1]

theorem safeUtf8_three (c c1 c2 : UInt8) (r : List UInt8) (h1 : ¬ c < 0x80)
    (h2 : ¬ c &&& 0xE0 = 0xC0) (h3 : c &&& 0xF0 = 0xE0)
    (k1 : utils.isContinuation c1 = true) (k2 : utils.isContinuation c2 = true) :
    utils.safeUtf8 (c :: c1 :: c2 :: r) = c :: c1 :: c2 :: utils.safeUtf8 r := by
  rw [safeUtf8_cons, if_neg h1, if_neg h2, if_pos h3]
  dsimp only
  rw [k1, k2]
  rfl

theorem safeUtf8_four (c c1 c2 c3 : UInt8) (r : List UInt8) (h1 : ¬ c < 0x80)
    (h2 : ¬ c &&& 0xE0 = 0xC0) (h3 : ¬ c &&& 0xF0 = 0xE0) (h4 : c &&& 0xF8 = 0xF0)
    (k1 : utils.isContinuation c1 = true) (k2 : utils.isContinuation c2 = true)
    (k3 : utils.isContinuation c3 = true) :
    utils.safeUtf8 (c :: c1 :: c2 :: c3 :: r) = c :: c1 :: c2 :: c3 :: utils.safeUtf8 r := by
  rw [safeUtf8_cons, if_neg h1, if_neg h2, if_neg h3, if_pos h4]
  dsimp only
  rw [k1, k2, k3]
  rfl

theorem safeUtf8_length_le : ∀ (n : Nat) (s : List UInt8), s.length ≤ n →
    (utils.safeUtf8 s).length = s.length := by
  intro n
  induction n with
  | zero =>
    intro s hs
    have : s = [] := List.length_eq_zero.mp (Nat.le_zero.mp hs)
    subst this
    rfl
  | succ n ih =>
    intro s hs
    rcases s with _ | ⟨c, rest⟩
    · rfl
    have hr : rest.length ≤ n := by simpa using hs
    rcases safeUtf8_step c rest with ⟨_, e⟩ | ⟨_, _, c1, r, rfl, _, e⟩ |
      ⟨_, _, _, c1, c2, r, rfl, _, _, e⟩ | ⟨_, _, _, _, c1, c2, c3, r, rfl, _, _, _, e⟩ | ⟨_, e⟩
    · rw [e, List.length_cons, List.length_cons, ih rest hr]
    · rw [e]
      simp only [List.length_cons] at hr ⊢
      rw [ih r (by omega)]
    · rw [e]
      simp only [List.length_cons] at hr ⊢
      rw [ih r (by omega)]
    · rw [e]
      simp only [List.length_cons] at hr ⊢
      rw [ih r (by omega)]
    · rw [e, List.length_cons, List.length_cons, ih rest hr]

theorem safeUtf8_length (s : List UInt8) : (utils.safeUtf8 s).length = s.length :=
  safeUtf8_length_le s.length s (Nat.le_refl _)

theorem safeUtf8_idem_le : ∀ (n : Nat) (s : List UInt8), s.length ≤ n →
    utils.safeUtf8 (utils.safeUtf8 s) = utils.safeUtf8 s := by
  intro n
  induction n with
  | zero =>
    intro s hs
    have : s = [] := List.length_eq_zero.mp (Nat.le_zero.mp hs)
    subst this
    rfl
  | succ n ih =>
    intro s hs
    rcases s with _ | ⟨c, rest⟩
    · rfl
    have hr : rest.length ≤ n := by simpa using hs
    rcases safeUtf8_step c rest with ⟨h1, e⟩ | ⟨h1, h2, c1, r, rfl, k1, e⟩ |
      ⟨h1, h2, h3, c1, c2, r, rfl, k1, k2, e⟩ |
      ⟨h1, h2, h3, h4, c1, c2, c3, r, rfl, k1, k2, k3, e⟩ | ⟨_, e⟩
    · rw [e, safeUtf8_ascii _ _ h1, ih rest hr]
    · simp only [List.length_cons] at hr
      rw [e, safeUtf8_two _ _ _ h1 h2 k1, ih r (by omega)]
    · simp only [List.length_cons] at hr
      rw [e, safeUtf8_three _ _ _ _ h1 h2 h3 k1 k2, ih r (by omega)]
    · simp only [List.length_cons] at hr
      rw [e, safeUtf8_four _ _ _ _ _ h1 h2 h3 h4 k1 k2 k3, ih r (by omega)]
    · rw [e, safeUtf8_mark, ih rest hr]

theorem safeUtf8_idem (s : List UInt8) : utils.safeUtf8 (utils.safeUtf8 s) = utils.safeUtf8 s :=
  safeUtf8_idem_le s.length s (Nat.le_refl _)

theorem safeUtf8_of_ascii (s : List UInt8) (h : ∀ b ∈ s, b < 0x80) : utils.safeUtf8 s = s := by
  induction s with
  | nil => rfl
  | cons c rest ih =>
    rw [safeUtf8_ascii _ _ (h c (List.mem_cons_self _ _)),
      ih (fun b hb => h b (List.mem_cons_of_mem _ hb))]


/-- Claim C28: `utils::safeUtf8` is idempotent, never lengthens its input (the result has
exactly the length of the input), and returns an input made only of bytes below `0x80`
unchanged. -/
theorem C28_safeUtf8_idempotent_and_not_longer (s : List UInt8) :
    utils.safeUtf8 (utils.safeUtf8 s) = utils.safeUtf8 s ∧
    (utils.safeUtf8 s).length ≤ s.length ∧
    (utils.safeUtf8 s).length = s.length ∧
    ((∀ b ∈ s, b < 0x80) → utils.safeUtf8 s = s) :=
  ⟨safeUtf8_idem s, Nat.le_of_eq (safeUtf8_length s), safeUtf8_length s, safeUtf8_of_ascii s⟩

/-- Witness for C28: the bytes `41 C3 A9 E4 B8 C3`, a letter, a two-byte sequence, a
three-byte sequence cut short by a lead byte, and a lead byte at the end. -/
theorem C28_witness :
    utils.safeUtf8 [0x41, 0xC3, 0xA9, 0xE4, 0xB8, 0xC3] = [0x41, 0xC3, 0xA9, 0x3F, 0x3F, 0x3F] ∧
    utils.safeUtf8 (utils.safeUtf8 [0x41, 0xC3, 0xA9, 0xE4, 0xB8, 0xC3]) =
      utils.safeUtf8 [0x41, 0xC3, 0xA9, 0xE4, 0xB8, 0xC3] ∧
    (∀ b ∈ [(0x41 : UInt8), 0x42], b < 0x80) ∧
    utils.safeUtf8 [0x41, 0x42] = [0x41, 0x42] :=
  ⟨by decide, (C28_safeUtf8_idempotent_and_not_longer _).1, by decide,
    (C28_safeUtf8_idempotent_and_not_longer [0x41, 0x42]).2.2.2 (by decide)⟩


/-! ## The path helpers `getFileName` and `getDirectory` -/

/-- The search `find_last_of` answers `npos` exactly when no byte of the string is in `chars`. -/
theorem find_last_of_none (chars : List UInt8) : ∀ (s : List UInt8),
    utils.find_last_of s chars = none ↔ ∀ b ∈ s, b ∉ chars := by
  intro s
  induction s with
  | nil => simp [utils.find_last_of]
  | cons c rest ih =>
    rw [utils.find_last_of]
    rcases h : utils.find_last_of rest chars with _ | pos
    · have hr := ih.mp h
      by_cases hc : c ∈ chars
      · simp [hc]
      · simp only [hc, if_false, List.mem_cons, forall_eq_or_imp, not_false_eq_true, true_and, true_iff]
        exact hr
    · have hr : ¬ ∀ b ∈ rest, b ∉ chars := fun k => by
        rw [ih.mpr k] at h
        cases h
      simp only [false_iff, reduceCtorEq]
      intro k
      exact hr (fun b hb => k b (List.mem_cons_of_mem _ hb))

/-- The position returned by `find_last_of` holds one of `chars`, and no later one does. -/
theorem find_last_of_some (chars : List UInt8) : ∀ (s : List UInt8) (pos : Nat),
    utils.find_last_of s chars = some pos →
      ∃ sep, sep ∈ chars ∧ s[pos]? = some sep ∧ s = s.take pos ++ sep :: s.drop (pos + 1) ∧
        ∀ b ∈ s.drop (pos + 1), b ∉ chars := by
  intro s
  induction s with
  | nil =>
    intro pos h
    simp [utils.find_last_of] at h
  | cons c rest ih =>
    intro pos h
    rw [utils.find_last_of] at h
    rcases hr : utils.find_last_of rest chars with _ | q
    · rw [hr] at h
      dsimp only at h
      by_cases hc : c ∈ chars
      · rw [if_pos hc] at h
        cases h
        exact ⟨c, hc, by simp, by simp, by simpa using (find_last_of_none chars rest).mp hr⟩
      · rw [if_neg hc] at h
        cases h
    · rw [hr] at h
      cases h
      obtain ⟨sep, h1, h2, h3, h4⟩ := ih q hr
      refine ⟨sep, h1, by simpa using h2, ?_, by simpa using h4⟩
      simp only [List.take_succ_cons, List.drop_succ_cons, List.cons_append, List.cons.injEq,
        true_and]
      exact h3

/-- Claim C29: `getDirectory` and `getFileName` split a path at its last separator and lose
nothing. For a path `p` holding '/' or '\' there is a position `pos` holding a separator
`sep` with `p = getDirectory p ++ [sep] ++ getFileName p`, the directory part has length
`pos`, and the file name holds neither separator (so `pos` is the last separator position);
for a path without separator `getFileName p = p` and `getDirectory p` is empty. -/
theorem C29_path_split_at_last_separator (p : List UInt8) :
    ((0x2F ∈ p ∨ 0x5C ∈ p) →
      ∃ pos sep, p[pos]? = some sep ∧ (sep = 0x2F ∨ sep = 0x5C) ∧
        p = utils.getDirectory p ++ [sep] ++ utils.getFileName p ∧
        (utils.getDirectory p).length = pos ∧
        0x2F ∉ utils.getFileName p ∧ 0x5C ∉ utils.getFileName p) ∧
    ((0x2F ∉ p ∧ 0x5C ∉ p) → utils.getFileName p = p ∧ utils.getDirectory p = []) := by
  constructor
  · intro hp
    rcases h : utils.find_last_of p utils.separators with _ | pos
    · exfalso
      have hn := (find_last_of_none utils.separators p).mp h
      rcases hp with hp | hp
      · exact hn _ hp (by simp [utils.separators])
      · exact hn _ hp (by simp [utils.separators])
    · obtain ⟨sep, h1, h2, h3, h4⟩ := find_last_of_some utils.separators p pos h
      have hlt : pos < p.length := by
        rcases Nat.lt_or_ge pos p.length with k | k
        · exact k
        · rw [List.getElem?_eq_none k] at h2
          cases h2
      refine ⟨pos, sep, h2, by simpa [utils.separators] using h1, ?_, ?_, ?_, ?_⟩
      · simp only [utils.getDirectory, utils.getFileName, h, List.append_assoc,
          List.singleton_append]
        exact h3
      · simp only [utils.getDirectory, h, List.length_take]
        omega
      · simp only [utils.getFileName, h]
        exact fun k => h4 _ k (by simp [utils.separators])
      · simp only [utils.getFileName, h]
        exact fun k => h4 _ k (by simp [utils.separators])
  · rintro ⟨h1, h2⟩
    have h : utils.find_last_of p utils.separators = none := by
      rw [find_last_of_none]
      intro b hb hs
      simp only [utils.separators, List.mem_cons, List.mem_singleton, List.not_mem_nil,
        or_false] at hs
      rcases hs with rfl | rfl
      · exact h1 hb
      · exact h2 hb
    simp [utils.getFileName, utils.getDirectory, h]

/-- Witness for C29: the paths `a/b\c` (bytes `61 2F 62 5C 63`) and `a`. -/
theorem C29_witness :
    ((0x2F ∈ [(0x61 : UInt8), 0x2F, 0x62, 0x5C, 0x63] ∨
        0x5C ∈ [(0x61 : UInt8), 0x2F, 0x62, 0x5C, 0x63]) ∧
      utils.getDirectory [0x61, 0x2F, 0x62, 0x5C, 0x63] = [0x61, 0x2F, 0x62] ∧
      utils.getFileName [0x61, 0x2F, 0x62, 0x5C, 0x63] = [0x63] ∧
      ∃ pos sep, [(0x61 : UInt8), 0x2F, 0x62, 0x5C, 0x63][pos]? = some sep ∧
        (sep = 0x2F ∨ sep = 0x5C) ∧
        [0x61, 0x2F, 0x62, 0x5C, 0x63] =
          utils.getDirectory [0x61, 0x2F, 0x62, 0x5C, 0x63] ++ [sep] ++
            utils.getFileName [0x61, 0x2F, 0x62, 0x5C, 0x63] ∧
        (utils.getDirectory [0x61, 0x2F, 0x62, 0x5C, 0x63]).length = pos ∧
        0x2F ∉ utils.getFileName [0x61, 0x2F, 0x62, 0x5C, 0x63] ∧
        0x5C ∉ utils.getFileName [0x61, 0x2F, 0x62, 0x5C, 0x63]) ∧
    ((0x2F ∉ [(0x61 : UInt8)] ∧ 0x5C ∉ [(0x61 : UInt8)]) ∧
      utils.getFileName [0x61] = [0x61] ∧ utils.getDirectory [0x61] = []) :=
  ⟨⟨by decide, by decide, by decide,
      (C29_path_split_at_last_separator [0x61, 0x2F, 0x62, 0x5C, 0x63]).1 (by decide)⟩,
    ⟨by decide, (C29_path_split_at_last_separator [0x61]).2 (by decide)⟩⟩

end wfs_client
